import Mathlib

/-!
# LongcatOS: SFS journal recovery, checkpointing and the demand-paged VM core

A shallow embedding of the kernel code under verification.

* C integers are natural numbers; where the source truncates a value
  (a 32-bit value stored into a 16-bit field, a 32-bit accumulator) the
  truncation is written out with `%`.
* A kernel panic (a failed `KASSERT`, an explicit call of the panic routine,
  an error result on which the caller panics) is the result `none`.
* Locks, wait channels and buffer-cache bookkeeping carry no data of their
  own in a sequential run and are left out; a buffer read followed by a
  dirty mark is a direct access to the block.
-/

namespace LongcatOS

/-! ## On-disk layout (`kern/sfs.h`) -/

/-- One disk block of `SFS_BLOCKSIZE` bytes, as 256 16-bit words in memory
order (word `i` holds bytes `2*i` and `2*i+1`). A load of a word yields its
value modulo 65536, so every function denotes a block. Indices from 256 on
stand for the memory behind the buffer; no load of a block reads them. -/
abbrev Block := Nat → Nat

/-- Load of the 16-bit word `i`. -/
def get_u16 (b : Block) (i : Nat) : Nat := b i % 65536

def SFS_BLOCKSIZE : Nat := 512
def SFS_NDIRECT : Nat := 15
def SFS_TYPE_INVAL : Nat := 0
def SFS_TYPE_FILE : Nat := 1
def SFS_TYPE_DIR : Nat := 2

/-- The result of `bzero` on a whole block. -/
def bzero_block : Block := fun _ => 0

/-- Store of a 16-bit value into the 16-bit word `i`. -/
def set_u16 (b : Block) (i v : Nat) : Block :=
  Function.update b i (v % 65536)

/-- Store of a 32-bit value into the 32-bit slot `k` of a block. The machine
is the big-endian MIPS of `kern/arch/mips`: the high half goes to the 16-bit
word `2*k`, the low half to word `2*k+1`. -/
def set_u32 (b : Block) (k v : Nat) : Block :=
  Function.update (Function.update b (2 * k) (v / 65536 % 65536)) (2 * k + 1) (v % 65536)

/-- Load of the 32-bit slot `k` of a block. -/
def get_u32 (b : Block) (k : Nat) : Nat :=
  get_u16 b (2 * k) * 65536 + get_u16 b (2 * k + 1)

/-! Field positions of `struct sfs_dinode`: `sfi_size` is the 32-bit slot 0,
`sfi_type` the 16-bit word 2, `sfi_linkcount` the 16-bit word 3,
`sfi_direct[k]` the 32-bit slot `2+k`, `sfi_indirect`, `sfi_dindirect` and
`sfi_tindirect` the 32-bit slots 17, 18 and 19. -/

def sfi_size (b : Block) : Nat := get_u32 b 0
def sfi_type (b : Block) : Nat := get_u16 b 2
def sfi_linkcount (b : Block) : Nat := get_u16 b 3
def sfi_direct (b : Block) (k : Nat) : Nat := get_u32 b (2 + k)
def sfi_indirect (b : Block) : Nat := get_u32 b 17
def sfi_dindirect (b : Block) : Nat := get_u32 b 18
def sfi_tindirect (b : Block) : Nat := get_u32 b 19

def set_sfi_size (b : Block) (v : Nat) : Block := set_u32 b 0 v
def set_sfi_type (b : Block) (v : Nat) : Block := set_u16 b 2 v
def set_sfi_linkcount (b : Block) (v : Nat) : Block := set_u16 b 3 v
def set_sfi_direct (b : Block) (k v : Nat) : Block := set_u32 b (2 + k) v
def set_sfi_indirect (b : Block) (v : Nat) : Block := set_u32 b 17 v
def set_sfi_dindirect (b : Block) (v : Nat) : Block := set_u32 b 18 v
def set_sfi_tindirect (b : Block) (v : Nat) : Block := set_u32 b 19 v

/-! ## Journal records (`kern/sfs.h`) -/

structure transaction_le where
  le_tnx : Nat
  le_func : Nat
  deriving DecidableEq

structure change_direntry_le where
  le_tnx : Nat
  le_ino : Nat
  le_direntry : Nat
  le_oldino : Nat
  le_oldname : List Nat
  le_newino : Nat
  le_newname : List Nat
  deriving DecidableEq

structure block_le where
  le_tnx : Nat
  le_blocknum : Nat
  deriving DecidableEq

structure change_block_obj_le where
  le_tnx : Nat
  le_blocknum : Nat
  le_offset : Nat
  le_oldval : Nat
  le_newval : Nat
  deriving DecidableEq

structure change_size_le where
  le_tnx : Nat
  le_ino : Nat
  le_oldsize : Nat
  le_newsize : Nat
  le_type : Nat
  deriving DecidableEq

structure change_linkcount_le where
  le_tnx : Nat
  le_ino : Nat
  le_oldcount : Nat
  le_newcount : Nat
  le_inodetype : Nat
  deriving DecidableEq

/-- The values of `indirection_level_t`. -/
def P_SINGLE : Nat := 0
def P_DOUBLE : Nat := 1
def P_TRIPLE : Nat := 2

structure change_indirect_ptr_le where
  le_tnx : Nat
  le_ino : Nat
  le_level : Nat
  le_oldptr : Nat
  le_newptr : Nat
  le_type : Nat
  deriving DecidableEq

structure change_ptr_le where
  le_tnx : Nat
  le_ino : Nat
  le_ptrnum : Nat
  le_oldptr : Nat
  le_newptr : Nat
  le_type : Nat
  deriving DecidableEq

structure write_block_le where
  le_tnx : Nat
  le_block : Nat
  le_checksum : Nat
  deriving DecidableEq

structure change_inode_type_le where
  le_tnx : Nat
  le_ino : Nat
  le_oldtype : Nat
  le_newtype : Nat
  deriving DecidableEq

/-- A client record of the journal: its type code together with its
payload. Type codes outside this list make `process_journal_entry` panic;
the container's own pad and trim records are never handed to the client. -/
inductive jrecord where
  | START_TRANSACTION (d : transaction_le)
  | ABORT_TRANSACTION (d : transaction_le)
  | END_TRANSACTION (d : transaction_le)
  | CHANGE_DIRENTRY (d : change_direntry_le)
  | ZERO_BLOCK (d : block_le)
  | ALLOC_BLOCK (d : block_le)
  | FREE_BLOCK (d : block_le)
  | CHANGE_SIZE (d : change_size_le)
  | CHANGE_LINK_CNT (d : change_linkcount_le)
  | CHANGE_INDIRECT_PTR (d : change_indirect_ptr_le)
  | CHANGE_DIRECT_PTR (d : change_ptr_le)
  | CHANGE_INO_IN_INDIRECT (d : change_ptr_le)
  | WRITE_BLOCK (d : write_block_le)
  | CHANGE_INODE_TYPE (d : change_inode_type_le)
  | CHANGE_BLOCK_OBJ (d : change_block_obj_le)
  deriving DecidableEq

/-- What the journal iterator yields at one position: the LSN of the record
(`sfs_jiter_lsn`) and the record itself (`sfs_jiter_type`, `sfs_jiter_rec`). -/
structure jentry where
  lsn : Nat
  record : jrecord
  deriving DecidableEq

/-- A journal, oldest record (tail) first, newest record (head) last. -/
abbrev Journal := List jentry

inductive journal_direction_p where
  | P_UNDO
  | P_REDO
  deriving DecidableEq

/-! ## The mounted volume -/

/-- The part of `struct sfs_fs` and of the disk that recovery reads and
writes. -/
structure sfs_fs where
  blocks : Nat → Block
  sfs_freemap : Nat → Bool
  sfs_freemapdirty : Bool
  sb_nblocks : Nat

/-- An on-disk directory entry (`struct sfs_direntry`). -/
structure sfs_direntry where
  sfd_ino : Nat
  sfd_name : List Nat
  deriving DecidableEq

/-- Directory routines of SFS that `parse_change_direntry` calls and whose
code is outside the files under verification; they are parameters of the
model. `sfs_dir_nentries` gives the slot count or fails; `sfs_writedir`
(with the vnode load before it) gives the new volume state or fails. -/
structure sfs_dirops where
  sfs_dir_nentries : sfs_fs → Nat → Option Nat
  sfs_writedir : sfs_fs → Nat → Nat → sfs_direntry → Option sfs_fs

/-! ## `sfs_recovery.c` -/

structure protected_block where
  pb_block : Nat
  pb_lsn : Nat
  deriving DecidableEq

def is_block_protected : List protected_block → Nat → Nat → Bool
  | [], _, _ => false
  | block :: rest, cur_lsn, ino =>
    if block.pb_block = ino then
      (if block.pb_lsn > cur_lsn then true else false)
    else is_block_protected rest cur_lsn ino

def is_block_in_array : List protected_block → Nat → Bool
  | [], _ => false
  | block :: rest, ino =>
    if block.pb_block = ino then true else is_block_in_array rest ino

/-- Appends `(ino, cur_lsn)` unless the block is already listed. The
allocation is taken to succeed. -/
def add_protected_block (protected_blocks : List protected_block) (cur_lsn ino : Nat) :
    List protected_block :=
  if is_block_in_array protected_blocks ino then protected_blocks
  else protected_blocks ++ [{ pb_block := ino, pb_lsn := cur_lsn }]

/-- The index of the first occurrence of `tnx`, `none` when the C function
returns false. -/
def find_tnx_from : List Nat → Nat → Nat → Option Nat
  | [], _, _ => none
  | cur_tnx :: rest, tnx, i =>
    if cur_tnx = tnx then some i else find_tnx_from rest tnx (i + 1)

def find_tnx (arr : List Nat) (tnx : Nat) : Option Nat := find_tnx_from arr tnx 0

/-- The inner `do ... while (tlen)` loop of `fletcher32`, run for `tlen`
rounds from word `pos`; the sums are 32-bit accumulators. -/
def fletcher32_inner (data : Block) : Nat → Nat → Nat → Nat → Nat × Nat × Nat
  | 0, pos, sum1, sum2 => (pos, sum1, sum2)
  | tlen + 1, pos, sum1, sum2 =>
    let sum1n := (sum1 + get_u16 data pos) % 4294967296
    let sum2n := (sum2 + sum1n) % 4294967296
    fletcher32_inner data tlen (pos + 1) sum1n sum2n

/-- The outer `while (words)` loop of `fletcher32`; `fuel` bounds the number
of rounds (each round consumes at least one word). -/
def fletcher32_outer (data : Block) : Nat → Nat → Nat → Nat → Nat → Nat × Nat
  | 0, _, _, sum1, sum2 => (sum1, sum2)
  | fuel + 1, words, pos, sum1, sum2 =>
    if words = 0 then (sum1, sum2)
    else
      let tlen := if words ≥ 359 then 359 else words
      let r := fletcher32_inner data tlen pos sum1 sum2
      let s1 := (r.2.1 % 65536) + (r.2.1 / 65536)
      let s2 := (r.2.2 % 65536) + (r.2.2 / 65536)
      fletcher32_outer data fuel (words - tlen) r.1 s1 s2

def fletcher32 (data : Block) : Nat :=
  let r := fletcher32_outer data (SFS_BLOCKSIZE / 2) (SFS_BLOCKSIZE / 2) 0 65535 65535
  let sum1 := (r.1 % 65536) + (r.1 / 65536)
  let sum2 := (r.2 % 65536) + (r.2 / 65536)
  (sum2 * 65536 % 4294967296) ||| sum1

/-- The body of `sfs_clearblock_internal` as recovery calls it (`do_write`
is 0 and the record writer is off): the block is zeroed. -/
def sfs_clearblock_internal (sfs : sfs_fs) (block : Nat) : sfs_fs :=
  { sfs with blocks := Function.update sfs.blocks block bzero_block }

/-- The body of `sfs_bused` (`sfs_balloc.c`): panics on a block number out
of range, else reads the freemap bit. -/
def sfs_bused (sfs : sfs_fs) (diskblock : Nat) : Option Bool :=
  if diskblock ≥ sfs.sb_nblocks then none else some (sfs.sfs_freemap diskblock)

/-- Replaces the image of block `ino` by `img`. -/
def put_block (sfs : sfs_fs) (ino : Nat) (img : Block) : sfs_fs :=
  { sfs with blocks := Function.update sfs.blocks ino img }

open journal_direction_p

def parse_change_direntry (ops : sfs_dirops) (cd_le : change_direntry_le)
    (direction : journal_direction_p) (protected_blocks : List protected_block) (lsn : Nat)
    (aborted : List Nat) (sfs : sfs_fs) : Option sfs_fs :=
  if (find_tnx aborted cd_le.le_tnx).isSome then some sfs
  else if is_block_protected protected_blocks lsn cd_le.le_ino then some sfs
  else
    match (if direction = P_UNDO then sfs_bused sfs cd_le.le_ino else some true) with
    | none => none
    | some false => some sfs
    | some true =>
      if sfi_type (sfs.blocks cd_le.le_ino) ≠ SFS_TYPE_DIR then some sfs
      else
        let sd : sfs_direntry :=
          { sfd_ino := if direction = P_REDO then cd_le.le_newino else cd_le.le_oldino,
            sfd_name := if direction = P_REDO then cd_le.le_newname else cd_le.le_oldname }
        if direction = P_UNDO then
          match ops.sfs_dir_nentries sfs cd_le.le_ino with
          | none => none
          | some slots =>
            if slots < cd_le.le_direntry then some sfs
            else ops.sfs_writedir sfs cd_le.le_ino cd_le.le_direntry sd
        else ops.sfs_writedir sfs cd_le.le_ino cd_le.le_direntry sd

def parse_zero_block (b_le : block_le) (direction : journal_direction_p) (sfs : sfs_fs)
    (protected_blocks : List protected_block) (lsn : Nat) (aborted : List Nat) : Option sfs_fs :=
  if direction = P_UNDO then some sfs
  else if (find_tnx aborted b_le.le_tnx).isSome then some sfs
  else if is_block_protected protected_blocks lsn b_le.le_blocknum then some sfs
  else some (sfs_clearblock_internal sfs b_le.le_blocknum)

def parse_alloc_block (b_le : block_le) (direction : journal_direction_p) (sfs : sfs_fs)
    (aborted : List Nat) : Option sfs_fs :=
  if (find_tnx aborted b_le.le_tnx).isSome ∧ direction = P_REDO then some sfs
  else
    let freemap :=
      if direction = P_REDO ∧ sfs.sfs_freemap b_le.le_blocknum = false then
        Function.update sfs.sfs_freemap b_le.le_blocknum true
      else if direction = P_UNDO ∧ sfs.sfs_freemap b_le.le_blocknum = true then
        Function.update sfs.sfs_freemap b_le.le_blocknum false
      else sfs.sfs_freemap
    some { sfs with sfs_freemap := freemap, sfs_freemapdirty := true }

def parse_free_block (b_le : block_le) (direction : journal_direction_p) (sfs : sfs_fs)
    (aborted : List Nat) : Option sfs_fs :=
  if (find_tnx aborted b_le.le_tnx).isSome ∧ direction = P_REDO then some sfs
  else
    let freemap :=
      if direction = P_REDO ∧ sfs.sfs_freemap b_le.le_blocknum = true then
        Function.update sfs.sfs_freemap b_le.le_blocknum false
      else if direction = P_UNDO ∧ sfs.sfs_freemap b_le.le_blocknum = false then
        Function.update sfs.sfs_freemap b_le.le_blocknum true
      else sfs.sfs_freemap
    some { sfs with sfs_freemap := freemap, sfs_freemapdirty := true }

/-- The shared opening of the inode parsers: when the on-disk type is not
the expected one the image is zeroed and given type `newtype`. -/
def reinit_inode (ioptr : Block) (expected newtype : Nat) : Block :=
  if sfi_type ioptr ≠ expected then set_sfi_type bzero_block newtype else ioptr

def parse_change_size (cs_le : change_size_le) (direction : journal_direction_p)
    (protected_blocks : List protected_block) (lsn : Nat) (aborted : List Nat)
    (sfs : sfs_fs) : Option sfs_fs :=
  if (find_tnx aborted cs_le.le_tnx).isSome then some sfs
  else if is_block_protected protected_blocks lsn cs_le.le_ino then some sfs
  else
    let ioptr := reinit_inode (sfs.blocks cs_le.le_ino) cs_le.le_type cs_le.le_type
    some (put_block sfs cs_le.le_ino
      (set_sfi_size ioptr (if direction = P_REDO then cs_le.le_newsize else cs_le.le_oldsize)))

def parse_change_link_cnt (cl_le : change_linkcount_le) (direction : journal_direction_p)
    (protected_blocks : List protected_block) (lsn : Nat) (aborted : List Nat)
    (sfs : sfs_fs) : Option sfs_fs :=
  if (find_tnx aborted cl_le.le_tnx).isSome then some sfs
  else if is_block_protected protected_blocks lsn cl_le.le_ino then some sfs
  else
    let ioptr := reinit_inode (sfs.blocks cl_le.le_ino) cl_le.le_inodetype cl_le.le_inodetype
    some (put_block sfs cl_le.le_ino
      (set_sfi_linkcount ioptr
        (if direction = P_REDO then cl_le.le_newcount else cl_le.le_oldcount)))

def parse_change_indirect_ptr (cip_le : change_indirect_ptr_le) (direction : journal_direction_p)
    (protected_blocks : List protected_block) (lsn : Nat) (aborted : List Nat)
    (sfs : sfs_fs) : Option sfs_fs :=
  if (find_tnx aborted cip_le.le_tnx).isSome then some sfs
  else if is_block_protected protected_blocks lsn cip_le.le_ino then some sfs
  else
    let ioptr := reinit_inode (sfs.blocks cip_le.le_ino) cip_le.le_type cip_le.le_type
    let ptr_to_set := if direction = P_REDO then cip_le.le_newptr else cip_le.le_oldptr
    if cip_le.le_level = P_SINGLE then
      some (put_block sfs cip_le.le_ino (set_sfi_indirect ioptr ptr_to_set))
    else if cip_le.le_level = P_DOUBLE then
      some (put_block sfs cip_le.le_ino (set_sfi_dindirect ioptr ptr_to_set))
    else if cip_le.le_level = P_TRIPLE then
      some (put_block sfs cip_le.le_ino (set_sfi_tindirect ioptr ptr_to_set))
    else none

def parse_change_direct_ptr (cp_le : change_ptr_le) (direction : journal_direction_p)
    (protected_blocks : List protected_block) (lsn : Nat) (aborted : List Nat)
    (sfs : sfs_fs) : Option sfs_fs :=
  if (find_tnx aborted cp_le.le_tnx).isSome then some sfs
  else if is_block_protected protected_blocks lsn cp_le.le_ino then some sfs
  else
    let ioptr := reinit_inode (sfs.blocks cp_le.le_ino) cp_le.le_type cp_le.le_type
    let ptr_to_set := if direction = P_REDO then cp_le.le_newptr else cp_le.le_oldptr
    if cp_le.le_ptrnum < SFS_NDIRECT then
      some (put_block sfs cp_le.le_ino (set_sfi_direct ioptr cp_le.le_ptrnum ptr_to_set))
    else none

/-- The indirect block is an array of 32-bit slots and the store
`ioptr[le_ptrnum] = ptr_to_set` has no bound check: a slot index of 128 or
more writes the memory behind the buffer, which the model keeps as the
words from 256 on of the same image (no load of a block reads them), and
the function returns 0 all the same. -/
def parse_change_ino_in_indirect (cp_le : change_ptr_le) (direction : journal_direction_p)
    (protected_blocks : List protected_block) (lsn : Nat) (aborted : List Nat)
    (sfs : sfs_fs) : Option sfs_fs :=
  if (find_tnx aborted cp_le.le_tnx).isSome then some sfs
  else if is_block_protected protected_blocks lsn cp_le.le_ino then some sfs
  else
    let ptr_to_set := if direction = P_REDO then cp_le.le_newptr else cp_le.le_oldptr
    some (put_block sfs cp_le.le_ino
      (set_u32 (sfs.blocks cp_le.le_ino) cp_le.le_ptrnum ptr_to_set))

def parse_change_block_obj (cbo_le : change_block_obj_le) (direction : journal_direction_p)
    (protected_blocks : List protected_block) (lsn : Nat) (aborted : List Nat)
    (sfs : sfs_fs) : Option sfs_fs :=
  if (find_tnx aborted cbo_le.le_tnx).isSome then some sfs
  else if is_block_protected protected_blocks lsn cbo_le.le_blocknum then some sfs
  else if cbo_le.le_offset < SFS_BLOCKSIZE / 4 then
    some (put_block sfs cbo_le.le_blocknum
      (set_u32 (sfs.blocks cbo_le.le_blocknum) cbo_le.le_offset
        (if direction = P_REDO then cbo_le.le_newval else cbo_le.le_oldval)))
  else none

def parse_write_block (wb_le : write_block_le) (sfs : sfs_fs) (aborted : List Nat) :
    Option sfs_fs :=
  if (find_tnx aborted wb_le.le_tnx).isSome then some sfs
  else
    let checksum := fletcher32 (sfs.blocks wb_le.le_block)
    if checksum ≠ wb_le.le_checksum then some (sfs_clearblock_internal sfs wb_le.le_block)
    else some sfs

def parse_change_inode_type (cit_le : change_inode_type_le) (direction : journal_direction_p)
    (protected_blocks : List protected_block) (lsn : Nat) (aborted : List Nat)
    (sfs : sfs_fs) : Option sfs_fs :=
  if (find_tnx aborted cit_le.le_tnx).isSome then some sfs
  else if is_block_protected protected_blocks lsn cit_le.le_ino then some sfs
  else
    let type_to_change := if direction = P_REDO then cit_le.le_newtype else cit_le.le_oldtype
    let cur_type := if direction = P_UNDO then cit_le.le_newtype else cit_le.le_oldtype
    if type_to_change ≠ SFS_TYPE_INVAL ∧ type_to_change ≠ SFS_TYPE_FILE ∧
        type_to_change ≠ SFS_TYPE_DIR then none
    else
      let ioptr := sfs.blocks cit_le.le_ino
      let ioptr := if sfi_type ioptr ≠ cur_type then bzero_block else ioptr
      some (put_block sfs cit_le.le_ino (set_sfi_type ioptr type_to_change))

def process_journal_entry (ops : sfs_dirops) (record : jrecord) (sfs : sfs_fs)
    (direction : journal_direction_p) (protected_blocks : List protected_block) (lsn : Nat)
    (aborted : List Nat) : Option sfs_fs :=
  match record with
  | .START_TRANSACTION _ => some sfs
  | .END_TRANSACTION _ => some sfs
  | .ABORT_TRANSACTION _ => some sfs
  | .CHANGE_DIRENTRY d => parse_change_direntry ops d direction protected_blocks lsn aborted sfs
  | .ZERO_BLOCK d => parse_zero_block d direction sfs protected_blocks lsn aborted
  | .ALLOC_BLOCK d => parse_alloc_block d direction sfs aborted
  | .FREE_BLOCK d => parse_free_block d direction sfs aborted
  | .CHANGE_SIZE d => parse_change_size d direction protected_blocks lsn aborted sfs
  | .CHANGE_LINK_CNT d => parse_change_link_cnt d direction protected_blocks lsn aborted sfs
  | .CHANGE_INDIRECT_PTR d =>
    parse_change_indirect_ptr d direction protected_blocks lsn aborted sfs
  | .CHANGE_DIRECT_PTR d => parse_change_direct_ptr d direction protected_blocks lsn aborted sfs
  | .CHANGE_INO_IN_INDIRECT d =>
    parse_change_ino_in_indirect d direction protected_blocks lsn aborted sfs
  | .CHANGE_BLOCK_OBJ d => parse_change_block_obj d direction protected_blocks lsn aborted sfs
  | .WRITE_BLOCK d => parse_write_block d sfs aborted
  | .CHANGE_INODE_TYPE d => parse_change_inode_type d direction protected_blocks lsn aborted sfs

/-! ## Mount-time recovery (`sfs_domount` in `sfs_fsops.c`) -/

/-- The tables of the check pass. -/
structure check_state where
  protected_blocks : List protected_block
  aborted_tx : List Nat
  ended_tx : List Nat
  deriving DecidableEq

/-- One round of the check-pass loop, at the record the iterator stands on. -/
def check_step (st : check_state) (e : jentry) : check_state :=
  match e.record with
  | .ALLOC_BLOCK b_le =>
    { st with protected_blocks := add_protected_block st.protected_blocks e.lsn b_le.le_blocknum }
  | .END_TRANSACTION tx_le => { st with ended_tx := st.ended_tx ++ [tx_le.le_tnx] }
  | .START_TRANSACTION tx_le =>
    match find_tnx st.ended_tx tx_le.le_tnx with
    | none => { st with aborted_tx := st.aborted_tx ++ [tx_le.le_tnx] }
    | some index => { st with ended_tx := st.ended_tx.eraseIdx index }
  | _ => st

/-- The check-pass loop: the reverse iterator walks from the newest record
to the oldest. -/
def check_loop (J : Journal) : check_state :=
  J.reverse.foldl check_step { protected_blocks := [], aborted_tx := [], ended_tx := [] }

/-- The loop after the check pass that moves what is left of `ended_tx` to
`aborted_tx`, front first; the result is the pair of lists at loop exit. -/
def drain_loop : List Nat → List Nat → List Nat × List Nat
  | aborted_tx, [] => (aborted_tx, [])
  | aborted_tx, leftover_tnx :: rest => drain_loop (aborted_tx ++ [leftover_tnx]) rest

def drain_ended (st : check_state) : check_state :=
  let r := drain_loop st.aborted_tx st.ended_tx
  { st with aborted_tx := r.1, ended_tx := r.2 }

def check_pass (J : Journal) : check_state := drain_ended (check_loop J)

/-- The volume together with the `latest_writes` table of the undo pass. -/
structure undo_state where
  sfs : sfs_fs
  latest_writes : List protected_block

/-- One round of the undo-pass loop. -/
def undo_step (ops : sfs_dirops) (protected_blocks : List protected_block)
    (aborted_tx : List Nat) (st : undo_state) (e : jentry) : Option undo_state :=
  match e.record with
  | .ZERO_BLOCK b_le =>
    if !is_block_protected protected_blocks e.lsn b_le.le_blocknum &&
        !is_block_in_array st.latest_writes b_le.le_blocknum then
      some { st with latest_writes :=
        st.latest_writes ++ [{ pb_block := b_le.le_blocknum, pb_lsn := e.lsn }] }
    else some st
  | .WRITE_BLOCK wb_le =>
    if !is_block_protected protected_blocks e.lsn wb_le.le_block &&
        !is_block_in_array st.latest_writes wb_le.le_block then
      match process_journal_entry ops e.record st.sfs P_UNDO protected_blocks e.lsn
          aborted_tx with
      | none => none
      | some sfs =>
        some { sfs := sfs, latest_writes :=
          st.latest_writes ++ [{ pb_block := wb_le.le_block, pb_lsn := e.lsn }] }
    else some st
  | _ =>
    match process_journal_entry ops e.record st.sfs P_UNDO protected_blocks e.lsn
        aborted_tx with
    | none => none
    | some sfs => some { st with sfs := sfs }

/-- Runs a loop body over the records in the given order, stopping at the
first panic. -/
def run_pass {σ : Type} (step : σ → jentry → Option σ) : List jentry → σ → Option σ
  | [], st => some st
  | e :: rest, st =>
    match step st e with
    | none => none
    | some st1 => run_pass step rest st1

/-- The undo pass: newest record first. -/
def undo_pass (ops : sfs_dirops) (protected_blocks : List protected_block)
    (aborted_tx : List Nat) (J : Journal) (sfs : sfs_fs) : Option undo_state :=
  run_pass (undo_step ops protected_blocks aborted_tx) J.reverse
    { sfs := sfs, latest_writes := [] }

/-- One round of the redo-pass loop. -/
def redo_step (ops : sfs_dirops) (protected_blocks latest_writes : List protected_block)
    (aborted_tx : List Nat) (sfs : sfs_fs) (e : jentry) : Option sfs_fs :=
  match e.record with
  | .WRITE_BLOCK _ => some sfs
  | .ZERO_BLOCK b_le =>
    if is_block_protected latest_writes e.lsn b_le.le_blocknum then some sfs
    else process_journal_entry ops e.record sfs P_REDO protected_blocks e.lsn aborted_tx
  | _ => process_journal_entry ops e.record sfs P_REDO protected_blocks e.lsn aborted_tx

/-- The redo pass: oldest record first. -/
def redo_pass (ops : sfs_dirops) (protected_blocks latest_writes : List protected_block)
    (aborted_tx : List Nat) (J : Journal) (sfs : sfs_fs) : Option sfs_fs :=
  run_pass (redo_step ops protected_blocks latest_writes aborted_tx) J sfs

/-- The three passes of mount-time recovery over journal `J` on volume
`sfs`; `none` when recovery panics. -/
def recovery (ops : sfs_dirops) (J : Journal) (sfs : sfs_fs) : Option sfs_fs :=
  let cs := check_pass J
  match undo_pass ops cs.protected_blocks cs.aborted_tx J sfs with
  | none => none
  | some st => redo_pass ops cs.protected_blocks st.latest_writes cs.aborted_tx J st.sfs

/-- Whether `e` is a start-transaction record of transaction `T`. -/
def is_start_of (T : Nat) (e : jentry) : Bool :=
  match e.record with
  | .START_TRANSACTION d => decide (d.le_tnx = T)
  | _ => false

/-- Whether `e` is an end-transaction record of transaction `T`. -/
def is_end_of (T : Nat) (e : jentry) : Bool :=
  match e.record with
  | .END_TRANSACTION d => decide (d.le_tnx = T)
  | _ => false

/-- The journal holds a start record of `T` with no end record of `T` later
in the log. -/
def start_without_later_end (J : Journal) (T : Nat) : Prop :=
  ∃ pre e post, J = pre ++ e :: post ∧ is_start_of T e = true ∧
    ∀ x ∈ post, is_end_of T x = false

/-- The journal holds an end record of `T` with no start record of `T`
earlier in the log. -/
def end_without_earlier_start (J : Journal) (T : Nat) : Prop :=
  ∃ pre e post, J = pre ++ e :: post ∧ is_end_of T e = true ∧
    ∀ x ∈ pre, is_start_of T x = false

/-- The journal holds a start record of `T` and, later in the log, an end
record of `T`. -/
def start_followed_by_end (J : Journal) (T : Nat) : Prop :=
  ∃ pre s mid e post, J = pre ++ s :: (mid ++ e :: post) ∧ is_start_of T s = true ∧
    is_end_of T e = true


/-- A journal in which transaction 1 has two start records and one end
record. -/
def double_start_journal : Journal :=
  [⟨1, .START_TRANSACTION ⟨1, 0⟩⟩, ⟨2, .START_TRANSACTION ⟨1, 0⟩⟩,
   ⟨3, .END_TRANSACTION ⟨1, 0⟩⟩]

/-- A journal in which transaction 1 has one start record and two end
records. -/
def double_end_journal : Journal :=
  [⟨1, .START_TRANSACTION ⟨1, 0⟩⟩, ⟨2, .END_TRANSACTION ⟨1, 0⟩⟩,
   ⟨3, .END_TRANSACTION ⟨1, 0⟩⟩]

/-- Directory routines that always fail; used where a concrete volume is
evaluated and no directory record occurs. -/
def no_dirops : sfs_dirops :=
  { sfs_dir_nentries := fun _ _ => none, sfs_writedir := fun _ _ _ _ => none }

/-- The block that a record names as its target: the data block of a
write-block, zero-block or change-block-object record, the inode (or
indirect) block of an inode-field record. -/
def record_target : jrecord → Option Nat
  | .WRITE_BLOCK d => some d.le_block
  | .ZERO_BLOCK d => some d.le_blocknum
  | .CHANGE_BLOCK_OBJ d => some d.le_blocknum
  | .CHANGE_SIZE d => some d.le_ino
  | .CHANGE_LINK_CNT d => some d.le_ino
  | .CHANGE_INDIRECT_PTR d => some d.le_ino
  | .CHANGE_DIRECT_PTR d => some d.le_ino
  | .CHANGE_INO_IN_INDIRECT d => some d.le_ino
  | .CHANGE_INODE_TYPE d => some d.le_ino
  | _ => none

/-- Whether `e` is an alloc-block record of block `b`. -/
def is_alloc_of (b : Nat) (e : jentry) : Bool :=
  match e.record with
  | .ALLOC_BLOCK d => decide (d.le_blocknum = b)
  | _ => false

/-- Entry `a` is the newest alloc-block record of block `b` in `J`: no
alloc-block record of `b` comes later in the log. -/
def newest_alloc (J : Journal) (b : Nat) (a : jentry) : Prop :=
  ∃ pre post, J = pre ++ a :: post ∧ is_alloc_of b a = true ∧
    ∀ x ∈ post, is_alloc_of b x = false

/-- The LSN stored for block `ino` in a protected-block table, if any. -/
def pb_lookup : List protected_block → Nat → Option Nat
  | [], _ => none
  | block :: rest, ino => if block.pb_block = ino then some block.pb_lsn else pb_lookup rest ino

/-! ## `sfs_checkpoint.c` -/

structure sfs_metadata where
  md_oldtnx : Nat
  md_newtnx : Nat
  deriving DecidableEq

/-- The loop of `checkpoint` over the active-transaction array; the
assertion `*cur_tnx > 0` fails on an id 0. -/
def checkpoint_active_loop : List Nat → Nat → Option Nat
  | [], lsn_keep => some lsn_keep
  | cur_tnx :: rest, lsn_keep =>
    if cur_tnx > 0 then
      checkpoint_active_loop rest (if cur_tnx < lsn_keep then cur_tnx else lsn_keep)
    else none

/-- One round of `checkpoint`: the LSN handed to `sfs_jphys_trim`.
`peeknextlsn` is the result of `sfs_jphys_peeknextlsn` and `dirty_buf_lsn`
the result of `bufarray_find_oldest_dirty_lsn`, both from code outside the
files under verification. -/
def checkpoint (peeknextlsn : Nat) (sfs_active_tnx : List Nat) (dirty_buf_lsn : Nat)
    (sfs_freemapdata : sfs_metadata) : Option Nat :=
  match checkpoint_active_loop sfs_active_tnx peeknextlsn with
  | none => none
  | some lsn_keep =>
    let lsn_keep := if dirty_buf_lsn < lsn_keep then dirty_buf_lsn else lsn_keep
    let lsn_keep :=
      if sfs_freemapdata.md_oldtnx > 0 ∧ sfs_freemapdata.md_oldtnx < lsn_keep then
        sfs_freemapdata.md_oldtnx
      else lsn_keep
    some lsn_keep

/-! ## Concrete volumes and journals used to evaluate the code -/

/-- A volume of 64 blocks, all zero, with an empty freemap. -/
def blank_fs : sfs_fs :=
  { blocks := fun _ => bzero_block, sfs_freemap := fun _ => false,
    sfs_freemapdirty := false, sb_nblocks := 64 }

/-- A journal of one committed transaction with a start, an end and a
write-block record in between. -/
def sample_journal : Journal :=
  [⟨1, .START_TRANSACTION ⟨1, 0⟩⟩, ⟨2, .WRITE_BLOCK ⟨1, 7, 5⟩⟩, ⟨3, .END_TRANSACTION ⟨1, 0⟩⟩]

/-- The crash scenario: transaction 10 starts, logs one change of the size
of inode 7 from 100 to 300, and never ends. -/
def crash_journal : Journal :=
  [⟨10, .START_TRANSACTION ⟨10, 0⟩⟩, ⟨11, .CHANGE_SIZE ⟨10, 7, 100, 300, 1⟩⟩]

/-- A volume on which the new size 300 of inode 7 has reached the disk. -/
def crash_fs : sfs_fs :=
  put_block blank_fs 7 (set_sfi_size (set_sfi_type bzero_block SFS_TYPE_FILE) 300)

/-- A data block whose only non-zero word is word 10. -/
def idem_block : Block := fun i => if i = 10 then 7 else 0

/-- A volume whose block 7 is `idem_block`. -/
def idem_fs : sfs_fs := put_block blank_fs 7 idem_block

/-- A journal in which block 7 is allocated at LSN 5 after a change of its
32-bit slot 0 at LSN 2. -/
def realloc_journal : Journal :=
  [⟨2, .CHANGE_BLOCK_OBJ ⟨1, 7, 0, 0, 9⟩⟩, ⟨5, .ALLOC_BLOCK ⟨3, 7⟩⟩]

/-! ## Normal form of the record parsers

Every parser of `sfs_recovery.c` other than `parse_write_block` and
`parse_change_direntry` has the same shape: a test on the tables that skips
the record, a test on the record that panics, and an update of one cell of
the volume that reads at most that cell. `parse_change_direntry` has the
first part and then calls the directory routines; `parse_write_block` is
called from the undo pass only and replaces one block by its checked image.
The definitions below name the parts; `process_journal_entry_normal` proves
the shape. -/

/-- The `le_tnx` field of a record. -/
def rec_tnx : jrecord → Nat
  | .START_TRANSACTION d => d.le_tnx
  | .ABORT_TRANSACTION d => d.le_tnx
  | .END_TRANSACTION d => d.le_tnx
  | .CHANGE_DIRENTRY d => d.le_tnx
  | .ZERO_BLOCK d => d.le_tnx
  | .ALLOC_BLOCK d => d.le_tnx
  | .FREE_BLOCK d => d.le_tnx
  | .CHANGE_SIZE d => d.le_tnx
  | .CHANGE_LINK_CNT d => d.le_tnx
  | .CHANGE_INDIRECT_PTR d => d.le_tnx
  | .CHANGE_DIRECT_PTR d => d.le_tnx
  | .CHANGE_INO_IN_INDIRECT d => d.le_tnx
  | .WRITE_BLOCK d => d.le_tnx
  | .CHANGE_INODE_TYPE d => d.le_tnx
  | .CHANGE_BLOCK_OBJ d => d.le_tnx

/-- The block (or freemap bit) a record names; 0 for the transaction
records, which name none. -/
def rec_tgt : jrecord → Nat
  | .START_TRANSACTION _ => 0
  | .ABORT_TRANSACTION _ => 0
  | .END_TRANSACTION _ => 0
  | .CHANGE_DIRENTRY d => d.le_ino
  | .ZERO_BLOCK d => d.le_blocknum
  | .ALLOC_BLOCK d => d.le_blocknum
  | .FREE_BLOCK d => d.le_blocknum
  | .CHANGE_SIZE d => d.le_ino
  | .CHANGE_LINK_CNT d => d.le_ino
  | .CHANGE_INDIRECT_PTR d => d.le_ino
  | .CHANGE_DIRECT_PTR d => d.le_ino
  | .CHANGE_INO_IN_INDIRECT d => d.le_ino
  | .WRITE_BLOCK d => d.le_block
  | .CHANGE_INODE_TYPE d => d.le_ino
  | .CHANGE_BLOCK_OBJ d => d.le_blocknum

/-- The tests on which a parser returns without touching the volume. -/
def rec_skip (d : journal_direction_p) (protected_blocks : List protected_block)
    (aborted : List Nat) (lsn : Nat) (r : jrecord) : Bool :=
  match r with
  | .START_TRANSACTION _ => true
  | .ABORT_TRANSACTION _ => true
  | .END_TRANSACTION _ => true
  | .WRITE_BLOCK _ => true
  | .ZERO_BLOCK _ =>
    decide (d = P_UNDO) || (find_tnx aborted (rec_tnx r)).isSome ||
      is_block_protected protected_blocks lsn (rec_tgt r)
  | .ALLOC_BLOCK _ => (find_tnx aborted (rec_tnx r)).isSome && decide (d = P_REDO)
  | .FREE_BLOCK _ => (find_tnx aborted (rec_tnx r)).isSome && decide (d = P_REDO)
  | _ =>
    (find_tnx aborted (rec_tnx r)).isSome || is_block_protected protected_blocks lsn (rec_tgt r)

/-- Records that rewrite part of the image of their target block. -/
def rewrites_block : jrecord → Bool
  | .CHANGE_SIZE _ => true
  | .CHANGE_LINK_CNT _ => true
  | .CHANGE_INDIRECT_PTR _ => true
  | .CHANGE_DIRECT_PTR _ => true
  | .CHANGE_INO_IN_INDIRECT _ => true
  | .CHANGE_BLOCK_OBJ _ => true
  | .CHANGE_INODE_TYPE _ => true
  | _ => false

/-- Whether `e` is a write-block record of block `b` whose checksum the undo
pass can compare: the block is not protected at the record and the
transaction of the record is not aborted. -/
def is_write_of (protected_blocks : List protected_block) (aborted : List Nat) (b : Nat)
    (e : jentry) : Bool :=
  match e.record with
  | .WRITE_BLOCK w =>
    decide (w.le_block = b) && !is_block_protected protected_blocks e.lsn w.le_block &&
      !(find_tnx aborted w.le_tnx).isSome
  | _ => false

/-- A change-direntry record that the parser skips before it reaches the
directory routines: its transaction is aborted or its directory inode block
is protected. Every other record passes. -/
def dir_skipped (protected_blocks : List protected_block) (aborted : List Nat)
    (e : jentry) : Bool :=
  match e.record with
  | .CHANGE_DIRENTRY d =>
    (find_tnx aborted d.le_tnx).isSome || is_block_protected protected_blocks e.lsn d.le_ino
  | _ => true

/-- Record `e` does not rewrite a checksummed block: it is not a rewriting
record, or it is skipped (aborted transaction or protected block), or no
write-block record of `J` that the undo pass can compare names its block. -/
def write_apart (protected_blocks : List protected_block) (aborted : List Nat) (J : Journal)
    (e : jentry) : Bool :=
  !rewrites_block e.record || rec_skip P_REDO protected_blocks aborted e.lsn e.record ||
    !J.any (is_write_of protected_blocks aborted (rec_tgt e.record))

/-- With the tables of the check pass: no block whose checksum a
write-block record of the journal can compare is rewritten by an applied
record of another kind, and no change-direntry record reaches the directory
routines. -/
def checks_apart (J : Journal) : Prop :=
  ∀ e ∈ J,
    dir_skipped (check_pass J).protected_blocks (check_pass J).aborted_tx e = true ∧
    write_apart (check_pass J).protected_blocks (check_pass J).aborted_tx J e = true

instance checks_apart_decidable (J : Journal) : Decidable (checks_apart J) := by
  unfold checks_apart
  infer_instance

/-- Record type codes (`kern/sfs.h`). -/
def START_TRANSACTION : Nat := 3
def ABORT_TRANSACTION : Nat := 4
def END_TRANSACTION : Nat := 5
def CHANGE_DIRENTRY : Nat := 6
def ZERO_BLOCK : Nat := 7
def ALLOC_BLOCK : Nat := 8
def FREE_BLOCK : Nat := 9
def CHANGE_SIZE : Nat := 10
def CHANGE_LINK_CNT : Nat := 11
def CHANGE_INDIRECT_PTR : Nat := 12
def CHANGE_DIRECT_PTR : Nat := 13
def CHANGE_INO_IN_INDIRECT : Nat := 14
def WRITE_BLOCK : Nat := 15
def CHANGE_INODE_TYPE : Nat := 16
def CHANGE_BLOCK_OBJ : Nat := 17

/-- What `write_record` reads and writes: the writer-mode flag of the
physical journal, the transaction id of the calling thread
(`curthread->t_tnx`), the active-transaction array, and the physical
journal itself, as its next LSN and the records appended so far. -/
structure log_state where
  writermode : Bool
  t_tnx : Nat
  sfs_active_tnx : List Nat
  nextlsn : Nat
  records : Journal
  deriving DecidableEq

/-- Modelled from the spec: the append primitive of the physical journal
(`sfs_jphys_write`), whose code is outside the files under verification. The
record is stored under the next LSN, and the next LSN grows. -/
def sfs_jphys_write (st : log_state) (r : jrecord) : log_state :=
  { st with records := st.records ++ [⟨st.nextlsn, r⟩], nextlsn := st.nextlsn + 1 }

/-- The variable arguments of a `write_record` call: the integer arguments
in order, and the two strings of a change-direntry record. An argument the
caller did not pass reads as 0. -/
structure record_args where
  words : List Nat
  oldname : List Nat
  newname : List Nat
  deriving DecidableEq

/-- The `switch` of `write_record`: the record built for `record_type` with
transaction id `tnx`; `none` for the `default` case, which panics. Fields
of 16 bits keep the low 16 bits of their argument. -/
def build_record (record_type tnx : Nat) (args : record_args) : Option jrecord :=
  let w := fun i => args.words.getD i 0
  if record_type = START_TRANSACTION then some (.START_TRANSACTION ⟨tnx, w 0⟩)
  else if record_type = ABORT_TRANSACTION then some (.ABORT_TRANSACTION ⟨tnx, w 0⟩)
  else if record_type = END_TRANSACTION then some (.END_TRANSACTION ⟨tnx, w 0⟩)
  else if record_type = CHANGE_DIRENTRY then
    some (.CHANGE_DIRENTRY ⟨tnx, w 0, w 1, w 2, args.oldname, w 3, args.newname⟩)
  else if record_type = ZERO_BLOCK then some (.ZERO_BLOCK ⟨tnx, w 0⟩)
  else if record_type = FREE_BLOCK then some (.FREE_BLOCK ⟨tnx, w 0⟩)
  else if record_type = ALLOC_BLOCK then some (.ALLOC_BLOCK ⟨tnx, w 0⟩)
  else if record_type = CHANGE_SIZE then
    some (.CHANGE_SIZE ⟨tnx, w 0, w 1, w 2, w 3 % 65536⟩)
  else if record_type = CHANGE_LINK_CNT then
    some (.CHANGE_LINK_CNT ⟨tnx, w 0, w 1 % 65536, w 2 % 65536, w 3⟩)
  else if record_type = CHANGE_INDIRECT_PTR then
    some (.CHANGE_INDIRECT_PTR ⟨tnx, w 0, w 1, w 2, w 3, w 4 % 65536⟩)
  else if record_type = CHANGE_DIRECT_PTR then
    some (.CHANGE_DIRECT_PTR ⟨tnx, w 0, w 1, w 2, w 3, w 4 % 65536⟩)
  else if record_type = CHANGE_INO_IN_INDIRECT then
    some (.CHANGE_INO_IN_INDIRECT ⟨tnx, w 0, w 1, w 2, w 3, w 4 % 65536⟩)
  else if record_type = WRITE_BLOCK then some (.WRITE_BLOCK ⟨tnx, w 0, w 1⟩)
  else if record_type = CHANGE_INODE_TYPE then
    some (.CHANGE_INODE_TYPE ⟨tnx, w 0, w 1 % 65536, w 2 % 65536⟩)
  else if record_type = CHANGE_BLOCK_OBJ then
    some (.CHANGE_BLOCK_OBJ ⟨tnx, w 0, w 1, w 2, w 3⟩)
  else none

/-- The body of `write_record`; `none` is a panic. `alloc_ok` tells whether
the allocations of a start-transaction (`kmalloc`, `lsnarray_add`) succeed.
The locks and the wake-up of the checkpointer at the end change nothing
here. -/
def write_record (st : log_state) (record_type : Nat) (args : record_args)
    (alloc_ok : Bool) : Option log_state :=
  if st.writermode = false then some st
  else if ¬ (record_type = START_TRANSACTION ∨ st.t_tnx ≠ 0) then none
  else
    let started : Option log_state :=
      if record_type = START_TRANSACTION then
        if alloc_ok = true then
          some { st with t_tnx := st.nextlsn,
                         sfs_active_tnx := st.sfs_active_tnx ++ [st.nextlsn] }
        else none
      else some st
    match started with
    | none => none
    | some st1 =>
      match build_record record_type st1.t_tnx args with
      | none => none
      | some r =>
        let st2 := sfs_jphys_write st1 r
        if record_type = END_TRANSACTION ∨ record_type = ABORT_TRANSACTION then
          match find_tnx st2.sfs_active_tnx st2.t_tnx with
          | none => none
          | some indx =>
            some { st2 with sfs_active_tnx := st2.sfs_active_tnx.eraseIdx indx, t_tnx := 0 }
        else some st2

/-- The calls of one thread between the start and the end of a
transaction: each writes a record that is not a start, end or abort. -/
def write_records : log_state → List (Nat × record_args) → Option log_state
  | st, [] => some st
  | st, (record_type, args) :: rest =>
    match write_record st record_type args true with
    | none => none
    | some st1 => write_records st1 rest

/-- A writer between two transactions, with transactions 4 and 9 of other
threads active and LSN 12 next. -/
def sample_log : log_state :=
  { writermode := true, t_tnx := 0, sfs_active_tnx := [4, 9], nextlsn := 12, records := [] }

/-- The type codes of the records that neither start nor finish a
transaction. -/
def plain_record_type (record_type : Nat) : Bool :=
  decide (CHANGE_DIRENTRY ≤ record_type ∧ record_type ≤ CHANGE_BLOCK_OBJ)

/-! ## Record headers (`kern/sfs.h`) -/

/-- `SFS_MKCONINFO(cl, ty, len, lsn)`: the class, the type and the halved
length are cast to 64 bits and shifted into place (a 64-bit shift drops what
leaves the word), and the four parts are or-ed. -/
def SFS_MKCONINFO (cl ty len lsn : Nat) : Nat :=
  ((cl <<< 63) % 18446744073709551616) ||| ((ty <<< 56) % 18446744073709551616) |||
    ((((len + 1) / 2) <<< 48) % 18446744073709551616) ||| lsn

def SFS_CONINFO_CLASS (ci : Nat) : Nat := ci >>> 63
def SFS_CONINFO_TYPE (ci : Nat) : Nat := (ci >>> 56) &&& 0x7f
def SFS_CONINFO_LEN (ci : Nat) : Nat := ((ci >>> 48) &&& 0xff) * 2
def SFS_CONINFO_LSN (ci : Nat) : Nat := ci &&& 0xffffffffffff

/-! ## Buffer metadata (`sfs_checkpoint.c`) -/

def update_buffer_metadata (md : sfs_metadata) (tnx : Nat) : sfs_metadata :=
  let md := if md.md_oldtnx = 0 then { md with md_oldtnx := tnx } else md
  if md.md_newtnx < tnx then { md with md_newtnx := tnx } else md

/-- The metadata of a freshly attached buffer. -/
def fresh_metadata : sfs_metadata := { md_oldtnx := 0, md_newtnx := 0 }

/-! ## Helpers for statements about the recovery tables -/

/-- The entries of a protected-block table that name block `b`, in table
order. -/
def pb_entries (protected_blocks : List protected_block) (b : Nat) : List protected_block :=
  protected_blocks.filter (fun p => decide (p.pb_block = b))

/-- A journal with two alloc-block records of block 7 (LSN 2 and LSN 5),
one of block 8 (LSN 6) and a free-block record of block 7 in between. -/
def twice_alloc_journal : Journal :=
  [⟨2, .ALLOC_BLOCK ⟨1, 7⟩⟩, ⟨3, .FREE_BLOCK ⟨1, 7⟩⟩, ⟨5, .ALLOC_BLOCK ⟨3, 7⟩⟩,
   ⟨6, .ALLOC_BLOCK ⟨3, 8⟩⟩]

/-- A committed transaction whose only change is a zero-block record of
block 9 at LSN 2; no later record writes block 9. -/
def zero_journal : Journal :=
  [⟨1, .START_TRANSACTION ⟨1, 0⟩⟩, ⟨2, .ZERO_BLOCK ⟨1, 9⟩⟩, ⟨3, .END_TRANSACTION ⟨1, 0⟩⟩]

/-- A volume whose block 9 is `idem_block` (word 10 is 7). -/
def zero_fs : sfs_fs := put_block blank_fs 9 idem_block

/-! ## The sums of `fletcher32` without truncation -/

/-- The low sum after `k` words, computed in the natural numbers: `0xffff`
plus the sum of the first `k` 16-bit words of the block. -/
def low_sum (data : Block) : Nat → Nat
  | 0 => 65535
  | k + 1 => low_sum data k + get_u16 data k

/-- The high sum after `k` words, computed in the natural numbers: `0xffff`
plus the sum of the first `k` running low sums `low_sum data 1`, ...,
`low_sum data k`. -/
def high_sum (data : Block) : Nat → Nat
  | 0 => 65535
  | k + 1 => high_sum data k + low_sum data (k + 1)

/-! ## The virtual-memory core

Constants and macros of `pagetable.h`, `vm.h` and `mips/tlb.h` are not among
the files under verification. The page size is the 4096 bytes of the spec;
the table sizes, the kernel directory slots, the stack bounds and the TLB
size are fields of `vm_config`. The address macros are the ones a two-level
table over `PAGE_SIZE`-byte pages forces. -/

def PAGE_SIZE : Nat := 4096

structure vm_config where
  PT_SIZE : Nat
  PD_SIZE : Nat
  KERNEL_PT_START : Nat
  KERNEL_PD_LEN : Nat
  STACK_MIN : Nat
  STACK_MAX : Nat
  KERNEL_VADDR_START : Nat
  KERNEL_VADDR_END : Nat
  NUM_TLB : Nat

def PAGE_ALIGN (vaddr : Nat) : Nat := vaddr / PAGE_SIZE * PAGE_SIZE
def VADDR_TO_PT (cfg : vm_config) (vaddr : Nat) : Nat := vaddr / (PAGE_SIZE * cfg.PT_SIZE)
def VADDR_TO_PTE (cfg : vm_config) (vaddr : Nat) : Nat := vaddr / PAGE_SIZE % cfg.PT_SIZE
def PDI_PTI_TO_VADDR (cfg : vm_config) (pdi pti : Nat) : Nat :=
  (pdi * cfg.PT_SIZE + pti) * PAGE_SIZE

/-- Error numbers of `kern/errno.h`. -/
def ENOMEM : Nat := 3
def EFAULT : Nat := 6
def EINVAL : Nat := 8

/-- Fault kinds of `vm.h`. -/
def VM_FAULT_READ : Nat := 0
def VM_FAULT_WRITE : Nat := 1
def VM_FAULT_READONLY : Nat := 2

/-- The bytes of one page, by offset. -/
abbrev Page := Nat → Nat

def zero_page : Page := fun _ => 0

/-- A coremap entry (`struct cm_entry`); `cme_as` is the handle of the owning
address space, `none` for `NULL`. -/
structure cm_entry where
  cme_as : Option Nat
  cme_vaddr : Nat
  cme_swap_location : Nat
  cme_owner_cpu : Option Nat
  cme_dirty : Bool
  cme_tlb : Bool
  cme_busy : Bool
  cme_kernel : Bool
  cme_kpage : Bool
  cme_exists : Bool
  deriving DecidableEq

/-- A page-table entry (`struct pt_entry`). -/
structure pt_entry where
  pte_valid : Bool
  pte_present : Bool
  pte_writeable : Bool
  pte_zeroed : Bool
  pte_ppn : Nat
  deriving DecidableEq

/-- A second-level page table: its `pt_ptes` array. -/
abbrev pgtable := Nat → pt_entry

structure addrspace where
  as_pd : Nat → Option pgtable
  as_heap_start : Nat
  as_heap_size : Nat

/-- One TLB slot. `tlb_hi` is the virtual page address of `entryhi`;
`tlb_ppn`, `tlb_valid` and `tlb_dirty` are the frame number and the
`TLBLO_VALID` and `TLBLO_DIRTY` bits of `entrylo`. -/
structure tlb_entry where
  tlb_hi : Nat
  tlb_ppn : Nat
  tlb_valid : Bool
  tlb_dirty : Bool
  deriving DecidableEq

/-- The pair `TLBHI_INVALID(i)`, `TLBLO_INVALID()`: a kernel address that
matches no user page, and an entry with no bit set. -/
def tlb_invalid (i : Nat) : tlb_entry :=
  { tlb_hi := (0x80000 + i) * PAGE_SIZE, tlb_ppn := 0, tlb_valid := false, tlb_dirty := false }

structure vmstats where
  vms_page_faults : Nat
  vms_write_page_faults : Nat
  vms_vm_faults : Nat
  vms_daemon_runs : Nat
  vms_tlb_shootdowns : Nat
  deriving DecidableEq

/-- The kernel's VM state on one CPU: the coremap, the address spaces by
handle, the current process's address space, the swap tracker and device,
the frame contents, the TLB, the statistics, and the results of the coming
`kmalloc` calls (`true` for success; an empty list is failure). `kmalloc` is
outside the files under verification and only its success or failure is
modelled. -/
structure vm_state where
  cm_entries : Nat → cm_entry
  cm_num_pages : Nat
  cm_num_kpages : Int
  cm_num_dirty : Int
  cm_clock_head : Nat
  as_table : Nat → Option addrspace
  curproc_as : Option Nat
  curcpu : Nat
  st_bitmap : Nat → Bool
  st_size : Nat
  swap_data : Nat → Page
  ram : Nat → Page
  tlb : Nat → tlb_entry
  k_vmstats : vmstats
  kmalloc_results : List Bool

/-- Why a kernel routine does not return: a panic (failed assertion or
explicit panic, or a fault on a `NULL` pointer), the death of the process by
`SIGSEGV`, or a sleep that nothing in a sequential run can end. -/
inductive vm_stop where
  | panic
  | sigsegv
  | blocked
  deriving DecidableEq

/-- The PTE of address space `a` at directory slot `pdi`, table slot `pti`;
`none` when the address space or its second-level table is missing. -/
def get_pte (s : vm_state) (a pdi pti : Nat) : Option pt_entry :=
  match s.as_table a with
  | none => none
  | some asp =>
    match asp.as_pd pdi with
    | none => none
    | some pde => some (pde pti)

/-- Overwrites the PTE of address space `a` at (`pdi`, `pti`); nothing
changes when the address space or the table is missing. -/
def set_pte (s : vm_state) (a pdi pti : Nat) (pte : pt_entry) : vm_state :=
  match s.as_table a with
  | none => s
  | some asp =>
    match asp.as_pd pdi with
    | none => s
    | some pde =>
      let pde1 : pgtable := Function.update pde pti pte
      let asp1 : addrspace := { asp with as_pd := Function.update asp.as_pd pdi (some pde1) }
      { s with as_table := Function.update s.as_table a (some asp1) }

/-- Overwrites one coremap entry. -/
def set_cme (s : vm_state) (ppn : Nat) (cme : cm_entry) : vm_state :=
  { s with cm_entries := Function.update s.cm_entries ppn cme }

/-- The result of `kmalloc`: whether it succeeds, and the state with that
result consumed. -/
def kmalloc (s : vm_state) : Bool × vm_state :=
  match s.kmalloc_results with
  | [] => (false, s)
  | r :: rest => (r, { s with kmalloc_results := rest })

/-- The result of `pgt_init` on fresh memory: every entry invalid. A fresh
page comes zero-filled from `alloc_kpages`. -/
def pgt_init : pgtable :=
  fun _ => { pte_valid := false, pte_present := false, pte_writeable := false,
             pte_zeroed := false, pte_ppn := 0 }

/-! ### TLB primitives (`mips/tlb.h`) -/

/-- The result of `tlb_probe`: the first slot whose `entryhi` is `vaddr`,
`none` for a negative result. -/
def tlb_probe (cfg : vm_config) (s : vm_state) (vaddr : Nat) : Option Nat :=
  (List.range cfg.NUM_TLB).find? (fun i => decide ((s.tlb i).tlb_hi = vaddr))

def tlb_write (s : vm_state) (e : tlb_entry) (index : Nat) : vm_state :=
  { s with tlb := Function.update s.tlb index e }

/-! ### `swap.c` -/

/-- The result of `bitmap_alloc` on the first `n` bits: the first clear bit. -/
def bitmap_first_clear (bm : Nat → Bool) (n : Nat) : Option Nat :=
  (List.range n).find? (fun i => !bm i)

/-- The body of `swap_find_free`: allocates the first free slot; running out
of swap is a panic. -/
def swap_find_free (s : vm_state) : Except vm_stop (vm_state × Nat) :=
  match bitmap_first_clear s.st_bitmap s.st_size with
  | none => .error .panic
  | some index => .ok ({ s with st_bitmap := Function.update s.st_bitmap index true }, index)

/-- The body of `swap_read`: copies slot `swap_location` into frame `ppn`.
The device transfer is taken to succeed. -/
def swap_read (s : vm_state) (ppn swap_location : Nat) : Except vm_stop vm_state :=
  if ppn > 0 ∧ swap_location > 0 ∧ s.st_bitmap swap_location = true then
    .ok { s with ram := Function.update s.ram ppn (s.swap_data swap_location) }
  else .error .panic

/-- The body of `swap_write`: copies frame `ppn` into slot `swap_location`. -/
def swap_write (s : vm_state) (ppn swap_location : Nat) : Except vm_stop vm_state :=
  if ppn > 0 ∧ swap_location > 0 ∧ s.st_bitmap swap_location = true then
    .ok { s with swap_data := Function.update s.swap_data swap_location (s.ram ppn) }
  else .error .panic

/-! ### `vm_tlbshootdown` (`vm.c`) -/

/-- The flush-all loop of `vm_tlbshootdown` from slot `i`, `n` slots to go. -/
def tlb_flush_loop (s : vm_state) : Nat → Nat → Except vm_stop vm_state
  | 0, _ => .ok s
  | n + 1, i =>
    let ppage := (s.tlb i).tlb_ppn
    if ppage < s.cm_num_pages then
      tlb_flush_loop
        (set_cme (tlb_write s (tlb_invalid i) i) ppage
          { (s.cm_entries ppage) with cme_tlb := false }) n (i + 1)
    else .error .panic

/-- The body of `vm_tlbshootdown`. A request for another CPU is handed over
by an interrupt and changes nothing here. -/
def vm_tlbshootdown (cfg : vm_config) (s : vm_state) (tlbs_cpu : Option Nat)
    (tlbs_vaddr : Nat) (tlbs_flush_all : Bool) : Except vm_stop vm_state :=
  if tlbs_cpu ≠ some s.curcpu then .ok s
  else
    let stats : vmstats :=
      { s.k_vmstats with vms_tlb_shootdowns := s.k_vmstats.vms_tlb_shootdowns + 1 }
    let s := { s with k_vmstats := stats }
    if tlbs_flush_all then tlb_flush_loop s cfg.NUM_TLB 0
    else
      match tlb_probe cfg s tlbs_vaddr with
      | none => .ok s
      | some index =>
        let ppage := (s.tlb index).tlb_ppn
        if (s.cm_entries ppage).cme_tlb = true ∧ ppage < s.cm_num_pages then
          .ok (set_cme (tlb_write s (tlb_invalid index) index) ppage
            { (s.cm_entries ppage) with cme_tlb := false })
        else .error .panic

/-- The shootdown of the TLB entry of frame `ppn` as `page_get` and
`page_write_out` do it: the request, then the wait for `cme_tlb` to clear,
which in a sequential run never ends if the bit is still set. -/
def shootdown_frame (cfg : vm_config) (s : vm_state) (ppn : Nat) : Except vm_stop vm_state :=
  if (s.cm_entries ppn).cme_tlb = true then
    match vm_tlbshootdown cfg s (s.cm_entries ppn).cme_owner_cpu (s.cm_entries ppn).cme_vaddr
        false with
    | .error x => .error x
    | .ok s1 => if (s1.cm_entries ppn).cme_tlb = true then .error .blocked else .ok s1
  else .ok s

/-! ### `pte_acquire`, `pte_release` (`addrspace.c`) -/

/-- The body of `pte_acquire` on the PTE value `pte` of address space `as`:
the state and the acquired frame, `none` for the result -1. -/
def pte_acquire (s : vm_state) (asp : Nat) (pte : pt_entry) :
    Except vm_stop (vm_state × Option Nat) :=
  if pte.pte_present = true then
    if pte.pte_ppn < s.cm_num_pages ∧ (s.cm_entries pte.pte_ppn).cme_kpage = false then
      if (s.cm_entries pte.pte_ppn).cme_busy = true then .error .blocked
      else if (s.cm_entries pte.pte_ppn).cme_as ≠ some asp then .ok (s, none)
      else
        .ok (set_cme s pte.pte_ppn { (s.cm_entries pte.pte_ppn) with cme_busy := true },
          some pte.pte_ppn)
    else .error .panic
  else .ok (s, none)

/-- The body of `pte_release`. -/
def pte_release (s : vm_state) (ppn : Option Nat) : Except vm_stop vm_state :=
  match ppn with
  | none => .ok s
  | some p =>
    if (s.cm_entries p).cme_kpage = false then
      .ok (set_cme s p { (s.cm_entries p) with cme_busy := false })
    else .error .panic

/-! ### `paging.c` -/

/-- The body of `page_write_out`. `swap_find_free` hands out an unsigned
index, so the `ENOMEM` exit for a negative location is never taken and the
result is always 0. -/
def page_write_out (cfg : vm_config) (s : vm_state) (ppn : Nat) : Except vm_stop vm_state :=
  let cme := s.cm_entries ppn
  if ppn > 0 ∧ cme.cme_kpage = false ∧ cme.cme_busy = true then
    let located : Except vm_stop (vm_state × Nat) :=
      if cme.cme_swap_location = 0 then
        match cme.cme_as with
        | none => .error .panic
        | some a =>
          match get_pte s a (VADDR_TO_PT cfg cme.cme_vaddr) (VADDR_TO_PTE cfg cme.cme_vaddr) with
          | none => .error .panic
          | some pte =>
            match swap_find_free s with
            | .error x => .error x
            | .ok (s1, swap_location) =>
              if swap_location = 0 ∨ cme.cme_vaddr = 0 ∨ pte.pte_ppn ≠ ppn then .error .panic
              else
                .ok (set_pte s1 a (VADDR_TO_PT cfg cme.cme_vaddr)
                  (VADDR_TO_PTE cfg cme.cme_vaddr) { pte with pte_zeroed := false },
                  swap_location)
      else .ok (s, cme.cme_swap_location)
    match located with
    | .error x => .error x
    | .ok (s1, swap_location) =>
      match swap_write s1 ppn swap_location with
      | .error x => .error x
      | .ok s2 =>
        let cme2 := s2.cm_entries ppn
        let s3 : vm_state :=
          { s2 with cm_num_dirty :=
              if cme2.cme_dirty = true then s2.cm_num_dirty - 1 else s2.cm_num_dirty }
        let s4 := set_cme s3 ppn
          { cme2 with cme_dirty := false, cme_swap_location := swap_location }
        shootdown_frame cfg s4 ppn
  else .error .panic

/-- The first loop of `page_get`: the first free frame. -/
def page_get_free (s : vm_state) : Option Nat :=
  (List.range s.cm_num_pages).find? fun i =>
    decide ((s.cm_entries i).cme_as = none) && !(s.cm_entries i).cme_kpage &&
      !(s.cm_entries i).cme_busy

/-- The clock head moved on by one, wrapping at `cm_num_pages`. -/
def clock_advance (s : vm_state) : vm_state :=
  { s with cm_clock_head :=
      if s.cm_clock_head + 1 ≥ s.cm_num_pages then 0 else s.cm_clock_head + 1 }

/-- The second loop of `page_get` (`n` rounds to go): the search for a
clean frame from the clock head. -/
def page_get_clean_loop : Nat → vm_state → vm_state × Option Nat
  | 0, s => (s, none)
  | n + 1, s =>
    let clock := s.cm_clock_head
    if (s.cm_entries clock).cme_as = none ∧ (s.cm_entries clock).cme_kpage = false ∧
        (s.cm_entries clock).cme_busy = false ∧ (s.cm_entries clock).cme_swap_location ≠ 0 then
      (s, some clock)
    else page_get_clean_loop n (clock_advance s)

/-- The `do ... while` loop of `page_get` that walks the clock head to a
frame that is neither a kernel page nor busy. The state does not change
while it runs apart from the head, so if `fuel` rounds (one more than the
number of frames) find nothing the loop never ends. -/
def page_get_victim_loop : Nat → vm_state → Except vm_stop (vm_state × Nat)
  | 0, _ => .error .blocked
  | fuel + 1, s =>
    let clean_ppn := s.cm_clock_head
    let s1 := clock_advance s
    if (s1.cm_entries clean_ppn).cme_kpage = true ∨ (s1.cm_entries clean_ppn).cme_busy = true then
      page_get_victim_loop fuel s1
    else .ok (s1, clean_ppn)

/-- The end of `page_get`, after a frame `clean_ppn` with an owner has been
chosen and marked busy: the shootdown, the PTE update and the wipe of the
coremap entry. -/
def page_get_reclaim (cfg : vm_config) (s : vm_state) (clean_ppn : Nat) :
    Except vm_stop (vm_state × Nat) :=
  let cme := s.cm_entries clean_ppn
  if clean_ppn = 0 ∨ cme.cme_vaddr = 0 then .error .panic
  else
    match cme.cme_as with
    | none => .error .panic
    | some a =>
      let pdi := VADDR_TO_PT cfg cme.cme_vaddr
      let pti := VADDR_TO_PTE cfg cme.cme_vaddr
      match get_pte s a pdi pti with
      | none => .error .panic
      | some _ =>
        match shootdown_frame cfg s clean_ppn with
        | .error x => .error x
        | .ok s1 =>
          match get_pte s1 a pdi pti with
          | none => .error .panic
          | some pte =>
            let cme1 := s1.cm_entries clean_ppn
            if pte.pte_ppn ≠ clean_ppn ∨ cme1.cme_swap_location = 0 then .error .panic
            else
              let s2 := set_pte s1 a pdi pti
                { pte with pte_ppn := cme1.cme_swap_location, pte_present := false }
              .ok (set_cme s2 clean_ppn
                { cme1 with cme_as := none, cme_vaddr := 0, cme_swap_location := 0,
                            cme_owner_cpu := none, cme_dirty := false, cme_tlb := false,
                            cme_kernel := false, cme_kpage := false, cme_exists := true },
                clean_ppn)

/-- The body of `page_get` with `USE_CLOCK_PAGING`. The result is the frame
number; the exit with -1 needs an error from `page_write_out`, which never
gives one. -/
def page_get (cfg : vm_config) (s : vm_state) (from_page_fault : Bool) :
    Except vm_stop (vm_state × Nat) :=
  match page_get_free s with
  | some i => .ok (set_cme s i { (s.cm_entries i) with cme_busy := true }, i)
  | none =>
    match page_get_clean_loop s.cm_num_pages s with
    | (s1, some clean_ppn) =>
      page_get_reclaim cfg
        (set_cme s1 clean_ppn { (s1.cm_entries clean_ppn) with cme_busy := true }) clean_ppn
    | (s1, none) =>
      match page_get_victim_loop (s1.cm_num_pages + 1) s1 with
      | .error x => .error x
      | .ok (s2, clean_ppn) =>
        match page_write_out cfg
            (set_cme s2 clean_ppn { (s2.cm_entries clean_ppn) with cme_busy := true })
            clean_ppn with
        | .error x => .error x
        | .ok s3 =>
          let stats : vmstats :=
            { s3.k_vmstats with
                vms_write_page_faults := s3.k_vmstats.vms_write_page_faults + 1 }
          let s4 : vm_state := if from_page_fault then { s3 with k_vmstats := stats } else s3
          page_get_reclaim cfg s4 clean_ppn

/-- The body of `page_swapin` for the current process. The result code is
always 0: `page_get` gives no negative frame. -/
def page_swapin (cfg : vm_config) (s : vm_state) (vaddress : Nat) :
    Except vm_stop (vm_state × Nat) :=
  match s.curproc_as with
  | none => .error .panic
  | some a =>
    match page_get cfg s true with
    | .error x => .error x
    | .ok (s1, ppn) =>
      let cme := s1.cm_entries ppn
      if vaddress ≠ 0 ∧ ppn < s1.cm_num_pages ∧ cme.cme_as = none ∧ cme.cme_kpage = false ∧
          cme.cme_busy = true then
        let pdi := VADDR_TO_PT cfg vaddress
        let pti := VADDR_TO_PTE cfg vaddress
        match get_pte s1 a pdi pti with
        | none => .error .panic
        | some pte =>
          let swap_location :=
            if pte.pte_valid = true ∧ pte.pte_zeroed = false then pte.pte_ppn else 0
          let filled : Except vm_stop vm_state :=
            if swap_location ≠ 0 then swap_read s1 ppn swap_location
            else .ok { s1 with ram := Function.update s1.ram ppn zero_page }
          match filled with
          | .error x => .error x
          | .ok s2 =>
            let s3 := set_cme s2 ppn
              { cme_as := some a, cme_vaddr := vaddress, cme_swap_location := swap_location,
                cme_owner_cpu := some s2.curcpu, cme_dirty := false, cme_tlb := false,
                cme_busy := false, cme_kernel := false, cme_kpage := false,
                cme_exists := true }
            if pte.pte_present = true ∨ ppn = 0 then .error .panic
            else
              .ok (set_pte s3 a pdi pti
                { pte with pte_ppn := ppn, pte_valid := true, pte_writeable := true,
                           pte_present := true, pte_zeroed := false }, 0)
      else .error .panic

def in_stack (cfg : vm_config) (faultaddress : Nat) : Bool :=
  decide (faultaddress ≥ cfg.STACK_MIN ∧ faultaddress < cfg.STACK_MAX)

/-- The body of `page_fault`. -/
def page_fault (cfg : vm_config) (s : vm_state) (faultaddress : Nat) :
    Except vm_stop (vm_state × Nat) :=
  let stats : vmstats :=
    { s.k_vmstats with vms_page_faults := s.k_vmstats.vms_page_faults + 1 }
  let s : vm_state := { s with k_vmstats := stats }
  match s.curproc_as with
  | none => .error .panic
  | some a =>
    if faultaddress ≥ cfg.KERNEL_VADDR_START ∧ faultaddress < cfg.KERNEL_VADDR_END then
      .error .sigsegv
    else
      match get_pte s a (VADDR_TO_PT cfg faultaddress) (VADDR_TO_PTE cfg faultaddress) with
      | none => .error .panic
      | some pte =>
        if pte.pte_zeroed = false ∧ in_stack cfg faultaddress = false ∧
            pte.pte_present = true then .error .sigsegv
        else page_swapin cfg s faultaddress

/-! ### `vm_fault` (`vm.c`) -/

/-- The TLB slot `vm_fault` writes: the slot the probe found, else the
slot `random() % NUM_TLB`. -/
def tlb_choose (cfg : vm_config) (s : vm_state) (faultaddress rnd : Nat) : Nat :=
  match tlb_probe cfg s faultaddress with
  | some i => i
  | none => rnd % cfg.NUM_TLB

/-- After a failed probe, the valid occupant of the chosen slot loses its
`cme_tlb` mark. -/
def tlb_evict (cfg : vm_config) (s : vm_state) (faultaddress index : Nat) : vm_state :=
  match tlb_probe cfg s faultaddress with
  | some _ => s
  | none =>
    if (s.tlb index).tlb_valid = true then
      set_cme s (s.tlb index).tlb_ppn
        { (s.cm_entries (s.tlb index).tlb_ppn) with cme_tlb := false }
    else s

/-- The first clean-to-dirty step of frame `ppn` on a write or readonly
fault. -/
def mark_dirty (s : vm_state) (ppn : Nat) (writing : Bool) : vm_state :=
  if writing = true ∧ (s.cm_entries ppn).cme_dirty = false then
    let marked := set_cme s ppn { (s.cm_entries ppn) with cme_dirty := true }
    { marked with cm_num_dirty := s.cm_num_dirty + 1 }
  else s

/-- The TLB update at the end of `vm_fault` for frame `ppn`: slot choice,
eviction of the occupant, dirty marking, the write of the entry, and the
`cme_tlb` and `cme_busy` bits of the frame. -/
def vm_fault_map (cfg : vm_config) (s : vm_state) (faulttype faultaddress ppn rnd : Nat) :
    vm_state :=
  let index := tlb_choose cfg s faultaddress rnd
  let s2 := tlb_evict cfg s faultaddress index
  let writing : Bool := decide (faulttype = VM_FAULT_WRITE ∨ faulttype = VM_FAULT_READONLY)
  let s3 := mark_dirty s2 ppn writing
  let s4 := tlb_write s3
    { tlb_hi := faultaddress, tlb_ppn := ppn, tlb_valid := true, tlb_dirty := writing } index
  set_cme s4 ppn { (s4.cm_entries ppn) with cme_tlb := true, cme_busy := false }

/-- The second half of `vm_fault`, from the point where the page is
present: the write-protection test and the TLB update. `rnd` is the value
of `random()`. -/
def vm_fault_install (cfg : vm_config) (s : vm_state) (a faulttype faultaddress : Nat)
    (release_ppn : Option Nat) (rnd : Nat) : Except vm_stop (vm_state × Nat) :=
  match get_pte s a (VADDR_TO_PT cfg faultaddress) (VADDR_TO_PTE cfg faultaddress) with
  | none => .error .panic
  | some pte =>
    if pte.pte_present = true ∧ pte.pte_ppn < s.cm_num_pages then
      let ppn := pte.pte_ppn
      let s1 := set_cme s ppn { (s.cm_entries ppn) with cme_busy := true }
      if (s1.cm_entries ppn).cme_as = some a ∧ (s1.cm_entries ppn).cme_vaddr = faultaddress then
        if (faulttype = VM_FAULT_WRITE ∨ faulttype = VM_FAULT_READONLY) ∧
            pte.pte_writeable ≠ true then
          match pte_release s1 release_ppn with
          | .error x => .error x
          | .ok s2 => .ok (s2, EFAULT)
        else if (faulttype = VM_FAULT_READ ∨ faulttype = VM_FAULT_WRITE) ∧
            (tlb_probe cfg s1 faultaddress).isSome = true then .error .panic
        else
          match pte_release (vm_fault_map cfg s1 faulttype faultaddress ppn rnd) release_ppn with
          | .error x => .error x
          | .ok s6 => .ok (s6, 0)
      else .error .panic
    else .error .panic

/-- The body of `vm_fault` for the current process; `rnd` is the value
`random()` gives when a TLB slot has to be picked. -/
def vm_fault (cfg : vm_config) (s : vm_state) (faulttype faultaddress rnd : Nat) :
    Except vm_stop (vm_state × Nat) :=
  let stats : vmstats := { s.k_vmstats with vms_vm_faults := s.k_vmstats.vms_vm_faults + 1 }
  let s : vm_state := { s with k_vmstats := stats }
  match s.curproc_as with
  | none => .error .panic
  | some a =>
    match s.as_table a with
    | none => .error .panic
    | some asp =>
      if faulttype ≠ VM_FAULT_READ ∧ faulttype ≠ VM_FAULT_WRITE ∧
          faulttype ≠ VM_FAULT_READONLY then .ok (s, EINVAL)
      else
        let faultaddress := PAGE_ALIGN faultaddress
        if faultaddress ≤ cfg.STACK_MIN ∧
            faultaddress ≥ asp.as_heap_start + asp.as_heap_size then .ok (s, EFAULT)
        else
          let pdi := VADDR_TO_PT cfg faultaddress
          let pti := VADDR_TO_PTE cfg faultaddress
          let tabled : Except vm_stop (vm_state × Nat) :=
            match asp.as_pd pdi with
            | some _ => .ok (s, 0)
            | none =>
              if ¬ (faultaddress > cfg.STACK_MIN ∧ faultaddress ≤ cfg.STACK_MAX) then
                .ok (s, EFAULT)
              else
                match kmalloc s with
                | (false, _) => .error .panic
                | (true, s1) =>
                  let asp1 : addrspace :=
                    { asp with as_pd := Function.update asp.as_pd pdi (some pgt_init) }
                  .ok ({ s1 with as_table := Function.update s1.as_table a (some asp1) }, 0)
          match tabled with
          | .error x => .error x
          | .ok (s1, res) =>
            if res ≠ 0 then .ok (s1, res)
            else
              match get_pte s1 a pdi pti with
              | none => .error .panic
              | some pte =>
                match pte_acquire s1 a pte with
                | .error x => .error x
                | .ok (s2, release_ppn) =>
                  if pte.pte_present = false ∨
                      (pte.pte_valid = false ∧ faultaddress > cfg.STACK_MIN ∧
                        faultaddress < cfg.STACK_MAX) ∨ pte.pte_zeroed = true then
                    match page_fault cfg s2 faultaddress with
                    | .error x => .error x
                    | .ok (s3, res) =>
                      if res ≠ 0 then
                        match pte_release s3 release_ppn with
                        | .error x => .error x
                        | .ok s4 => .ok (s4, res)
                      else vm_fault_install cfg s3 a faulttype faultaddress release_ppn rnd
                  else vm_fault_install cfg s2 a faulttype faultaddress release_ppn rnd

/-! ### `as_create`, `as_activate`, `as_copy` (`addrspace.c`) -/

/-- The body of `as_create`; `newas` is the address `kmalloc` returns. The
result is false when `kmalloc` fails. -/
def as_create (s : vm_state) (newas : Nat) : vm_state × Bool :=
  match kmalloc s with
  | (false, s1) => (s1, false)
  | (true, s1) =>
    let fresh : addrspace := { as_pd := fun _ => none, as_heap_size := 0, as_heap_start := 0 }
    ({ s1 with as_table := Function.update s1.as_table newas (some fresh) }, true)

/-- The body of `as_activate`: flushes the TLB of this CPU unless the
process has no address space. -/
def as_activate (cfg : vm_config) (s : vm_state) : Except vm_stop vm_state :=
  match s.curproc_as with
  | none => .ok s
  | some _ => vm_tlbshootdown cfg s (some s.curcpu) 0 true

/-- The `while (!pte->pte_present)` loop of `as_copy` for the parent PTE at
(`pde_index`, `pte_index`), with `releaseppn` as it stands. The result is
the state, the new `releaseppn`, and the error code on which `as_copy`
returns (0 to go on). After a successful `page_swapin` the PTE is present,
so two rounds of fuel let the loop end. -/
def as_copy_swapin_loop (cfg : vm_config) (old pde_index pte_index : Nat) :
    Nat → vm_state → Option Nat → Except vm_stop (vm_state × Option Nat × Nat)
  | 0, _, _ => .error .blocked
  | fuel + 1, s, releaseppn =>
    match get_pte s old pde_index pte_index with
    | none => .error .panic
    | some pte =>
      if pte.pte_present = true then .ok (s, releaseppn, 0)
      else
        let prev_as : Option Nat := if s.curproc_as ≠ some old then s.curproc_as else none
        let switched : Except vm_stop vm_state :=
          if s.curproc_as ≠ some old then as_activate cfg { s with curproc_as := some old }
          else .ok s
        match switched with
        | .error x => .error x
        | .ok s1 =>
          match page_swapin cfg s1 (PDI_PTI_TO_VADDR cfg pde_index pte_index) with
          | .error x => .error x
          | .ok (s2, err) =>
            let restored : Except vm_stop vm_state :=
              match prev_as with
              | none => .ok s2
              | some p => as_activate cfg { s2 with curproc_as := some p }
            match restored with
            | .error x => .error x
            | .ok s3 =>
              if err ≠ 0 then
                match pte_release s3 releaseppn with
                | .error x => .error x
                | .ok s4 => .ok (s4, releaseppn, err)
              else
                match get_pte s3 old pde_index pte_index with
                | none => .error .panic
                | some pte1 =>
                  match pte_acquire s3 old pte1 with
                  | .error x => .error x
                  | .ok (s4, rel) => as_copy_swapin_loop cfg old pde_index pte_index fuel s4 rel

/-- One round of the inner loop of `as_copy`: the copy of the parent PTE at
(`pde_index`, `pte_index`) into `newas`. The result code is the one on which
`as_copy` returns, 0 to go on. -/
def as_copy_pte (cfg : vm_config) (old newas pde_index pte_index : Nat) (s : vm_state) :
    Except vm_stop (vm_state × Nat) :=
  match get_pte s old pde_index pte_index with
  | none => .error .panic
  | some pte0 =>
    if pte0.pte_valid = false then .ok (s, 0)
    else if pte0.pte_present = true ∧ ¬ pte0.pte_ppn < s.cm_num_pages then .error .panic
    else
      match pte_acquire s old pte0 with
      | .error x => .error x
      | .ok (s1, rel0) =>
        match as_copy_swapin_loop cfg old pde_index pte_index 2 s1 rel0 with
        | .error x => .error x
        | .ok (s2, releaseppn, err) =>
          if err ≠ 0 then .ok (s2, err)
          else
            match get_pte s2 old pde_index pte_index with
            | none => .error .panic
            | some pte =>
              let copied : Except vm_stop (vm_state × Nat) :=
                if pte.pte_zeroed = false then
                  match page_get cfg s2 false with
                  | .error x => .error x
                  | .ok (s3, new_ppn) =>
                    if new_ppn = 0 ∨ new_ppn = pte.pte_ppn ∨ ¬ new_ppn < s3.cm_num_pages then
                      .error .panic
                    else
                      let s4 := set_cme s3 new_ppn
                        { cme_as := some newas,
                          cme_vaddr := PDI_PTI_TO_VADDR cfg pde_index pte_index,
                          cme_swap_location := 0, cme_owner_cpu := some s3.curcpu,
                          cme_dirty := false, cme_tlb := false, cme_busy := true,
                          cme_kernel := false, cme_kpage := false, cme_exists := true }
                      match get_pte s4 old pde_index pte_index with
                      | none => .error .panic
                      | some pte1 =>
                        let ram1 := Function.update s4.ram new_ppn (s4.ram pte1.pte_ppn)
                        .ok ({ s4 with ram := ram1 }, new_ppn)
                else .ok (s2, 0)
              match copied with
              | .error x => .error x
              | .ok (s5, new_ppn) =>
                match s5.as_table newas with
                | none => .error .panic
                | some nas =>
                  let tabled : Except vm_stop (vm_state × Nat) :=
                    match nas.as_pd pde_index with
                    | some _ => .ok (s5, 0)
                    | none =>
                      match kmalloc s5 with
                      | (false, s6) =>
                        match pte_release s6 releaseppn with
                        | .error x => .error x
                        | .ok s7 => .ok (s7, ENOMEM)
                      | (true, s6) =>
                        let nas1 : addrspace :=
                          { nas with as_pd := Function.update nas.as_pd pde_index (some pgt_init) }
                        let table1 := Function.update s6.as_table newas (some nas1)
                        .ok ({ s6 with as_table := table1 }, 0)
                  match tabled with
                  | .error x => .error x
                  | .ok (s6, err1) =>
                    if err1 ≠ 0 then .ok (s6, err1)
                    else
                      match get_pte s6 old pde_index pte_index with
                      | none => .error .panic
                      | some pte2 =>
                        let s7 := set_pte s6 newas pde_index pte_index
                          { pte_present := !pte2.pte_zeroed, pte_valid := true,
                            pte_writeable := true,
                            pte_ppn := if pte2.pte_zeroed = true then 0 else new_ppn,
                            pte_zeroed := pte2.pte_zeroed }
                        match pte_release s7 releaseppn with
                        | .error x => .error x
                        | .ok s8 => .ok (s8, 0)

/-- The inner loop of `as_copy` over the entries of one second-level table,
from `pte_index`, `n` entries to go. -/
def as_copy_pt_loop (cfg : vm_config) (old newas pde_index : Nat) :
    Nat → Nat → vm_state → Except vm_stop (vm_state × Nat)
  | 0, _, s => .ok (s, 0)
  | n + 1, pte_index, s =>
    match as_copy_pte cfg old newas pde_index pte_index s with
    | .error x => .error x
    | .ok (s1, err) =>
      if err ≠ 0 then .ok (s1, err)
      else as_copy_pt_loop cfg old newas pde_index n (pte_index + 1) s1

/-- The outer loop of `as_copy` over the directory, from `pde_index`;
`fuel` bounds the rounds (the index grows in each). -/
def as_copy_pd_loop (cfg : vm_config) (old newas : Nat) :
    Nat → Nat → vm_state → Except vm_stop (vm_state × Nat)
  | 0, _, s => .ok (s, 0)
  | fuel + 1, pde_index, s =>
    if ¬ pde_index < cfg.PD_SIZE then .ok (s, 0)
    else if pde_index = cfg.KERNEL_PT_START then
      as_copy_pd_loop cfg old newas fuel (pde_index + (cfg.KERNEL_PD_LEN - 1) + 1) s
    else
      match s.as_table old with
      | none => .error .panic
      | some asp =>
        match asp.as_pd pde_index with
        | none => as_copy_pd_loop cfg old newas fuel (pde_index + 1) s
        | some _ =>
          match as_copy_pt_loop cfg old newas pde_index cfg.PT_SIZE 0 s with
          | .error x => .error x
          | .ok (s1, err) =>
            if err ≠ 0 then .ok (s1, err)
            else as_copy_pd_loop cfg old newas fuel (pde_index + 1) s1

/-- The body of `as_copy`: the state and the result code; on result 0 the
new address space is `newas`. -/
def as_copy (cfg : vm_config) (s : vm_state) (old newas : Nat) :
    Except vm_stop (vm_state × Nat) :=
  match as_create s newas with
  | (s1, false) => .ok (s1, ENOMEM)
  | (s1, true) =>
    match as_copy_pd_loop cfg old newas cfg.PD_SIZE 0 s1 with
    | .error x => .error x
    | .ok (s2, err) =>
      if err ≠ 0 then .ok (s2, err)
      else
        let released : Nat → cm_entry := fun i =>
          if i < s2.cm_num_pages ∧ (s2.cm_entries i).cme_as = some newas then
            { (s2.cm_entries i) with cme_busy := false }
          else s2.cm_entries i
        let s3 : vm_state := { s2 with cm_entries := released }
        match s3.as_table old, s3.as_table newas with
        | some oasp, some nasp =>
          let nasp1 : addrspace :=
            { nasp with as_heap_size := oasp.as_heap_size, as_heap_start := oasp.as_heap_start }
          .ok ({ s3 with as_table := Function.update s3.as_table newas (some nasp1) }, 0)
        | _, _ => .error .panic

/-! ### A small machine on which the VM code is evaluated -/

/-- Two user directory slots and two kernel ones, tables of four entries, a
stack in the last two pages below the kernel, a TLB of four slots. -/
def small_cfg : vm_config :=
  { PT_SIZE := 4, PD_SIZE := 4, KERNEL_PT_START := 2, KERNEL_PD_LEN := 2,
    STACK_MIN := 6 * PAGE_SIZE, STACK_MAX := 8 * PAGE_SIZE,
    KERNEL_VADDR_START := 8 * PAGE_SIZE, KERNEL_VADDR_END := 16 * PAGE_SIZE, NUM_TLB := 4 }

def free_cme : cm_entry :=
  { cme_as := none, cme_vaddr := 0, cme_swap_location := 0, cme_owner_cpu := none,
    cme_dirty := false, cme_tlb := false, cme_busy := false, cme_kernel := false,
    cme_kpage := false, cme_exists := true }

def kernel_cme : cm_entry := { free_cme with cme_kpage := true }

/-- A frame of address space 1 for the page at `vaddr`. -/
def user_cme (vaddr : Nat) : cm_entry :=
  { free_cme with cme_as := some 1, cme_vaddr := vaddr, cme_owner_cpu := some 0 }

def present_pte (ppn : Nat) : pt_entry :=
  { pte_valid := true, pte_present := true, pte_writeable := true, pte_zeroed := false,
    pte_ppn := ppn }

/-- The page whose every byte is `v`. -/
def fill_page (v : Nat) : Page := fun _ => v

/-- Four frames, frame 0 the kernel's; one address space (handle 1) whose
pages at addresses `PAGE_SIZE`, `2*PAGE_SIZE`, `3*PAGE_SIZE` sit in frames
1, 2, 3 and hold the bytes 11, 22, 33; the heap starts at `4*PAGE_SIZE` and
is empty; eight swap slots, slot 0 reserved; an empty TLB. -/
def full_vm : vm_state :=
  { cm_entries := fun i =>
      if i = 0 then kernel_cme else if i = 1 then user_cme PAGE_SIZE
      else if i = 2 then user_cme (2 * PAGE_SIZE) else if i = 3 then user_cme (3 * PAGE_SIZE)
      else { free_cme with cme_exists := false },
    cm_num_pages := 4, cm_num_kpages := 1, cm_num_dirty := 0, cm_clock_head := 1,
    as_table := fun a =>
      if a = 1 then
        some { as_pd := fun pdi =>
                 if pdi = 0 then
                   some (fun pti => if pti = 0 then pgt_init 0 else present_pte pti)
                 else none,
               as_heap_start := 4 * PAGE_SIZE, as_heap_size := 0 }
      else none,
    curproc_as := some 1, curcpu := 0,
    st_bitmap := fun i => decide (i = 0), st_size := 8,
    swap_data := fun _ => zero_page,
    ram := fun i => fill_page (11 * i),
    tlb := tlb_invalid,
    k_vmstats := { vms_page_faults := 0, vms_write_page_faults := 0, vms_vm_faults := 0,
                   vms_daemon_runs := 0, vms_tlb_shootdowns := 0 },
    kmalloc_results := [] }

/-- As `full_vm`, but only the page at `PAGE_SIZE` is resident (frame 1);
frames 2 and 3 are free, and the next two `kmalloc` calls succeed and fail. -/
def fork_vm : vm_state :=
  { full_vm with
    cm_entries := fun i =>
      if i = 0 then kernel_cme else if i = 1 then user_cme PAGE_SIZE
      else if i < 4 then free_cme else { free_cme with cme_exists := false },
    as_table := fun a =>
      if a = 1 then
        some { as_pd := fun pdi =>
                 if pdi = 0 then
                   some (fun pti => if pti = 1 then present_pte 1 else pgt_init 0)
                 else none,
               as_heap_start := 2 * PAGE_SIZE, as_heap_size := 0 }
      else none,
    kmalloc_results := [true, false] }

/-- As `fork_vm`, but the page at `PAGE_SIZE` belongs to a read-only region
and has not been touched: its PTE is valid, absent, demand-zero and not
writeable, and no frame is in use. -/
def readonly_vm : vm_state :=
  { full_vm with
    cm_entries := fun i =>
      if i = 0 then kernel_cme
      else if i < 4 then free_cme else { free_cme with cme_exists := false },
    as_table := fun a =>
      if a = 1 then
        some { as_pd := fun pdi =>
                 if pdi = 0 then
                   some (fun pti =>
                     if pti = 1 then
                       { pte_valid := true, pte_present := false, pte_writeable := false,
                         pte_zeroed := true, pte_ppn := 0 }
                     else pgt_init 0)
                 else none,
               as_heap_start := 2 * PAGE_SIZE, as_heap_size := 0 }
      else none }

/-- The frame-ownership invariant of the spec: every present PTE names a
frame whose coremap entry records the PTE's address space and virtual
address, and every existing non-kernel frame with an owner is the frame of
the present PTE at its recorded address space and virtual address. -/
def frame_ownership (cfg : vm_config) (s : vm_state) : Prop :=
  (∀ a pdi pti pte, get_pte s a pdi pti = some pte → pte.pte_present = true →
    (s.cm_entries pte.pte_ppn).cme_as = some a ∧
    (s.cm_entries pte.pte_ppn).cme_vaddr = PDI_PTI_TO_VADDR cfg pdi pti) ∧
  (∀ f a, f < s.cm_num_pages → (s.cm_entries f).cme_exists = true →
    (s.cm_entries f).cme_kpage = false → (s.cm_entries f).cme_as = some a →
    ∃ pte, get_pte s a (VADDR_TO_PT cfg (s.cm_entries f).cme_vaddr)
        (VADDR_TO_PTE cfg (s.cm_entries f).cme_vaddr) = some pte ∧
      pte.pte_present = true ∧ pte.pte_ppn = f)

/-- Coremap entries that agree in every field but `cme_tlb`. -/
def cme_same_but_tlb (c d : cm_entry) : Prop :=
  c.cme_as = d.cme_as ∧ c.cme_vaddr = d.cme_vaddr ∧
  c.cme_swap_location = d.cme_swap_location ∧ c.cme_owner_cpu = d.cme_owner_cpu ∧
  c.cme_dirty = d.cme_dirty ∧ c.cme_busy = d.cme_busy ∧ c.cme_kernel = d.cme_kernel ∧
  c.cme_kpage = d.cme_kpage ∧ c.cme_exists = d.cme_exists

/-- States that agree on the page tables, the swap device and its bitmap,
the frame contents, the number of frames, the current address space and
the CPU. -/
def same_memory (s t : vm_state) : Prop :=
  t.as_table = s.as_table ∧ t.swap_data = s.swap_data ∧ t.ram = s.ram ∧
  t.st_bitmap = s.st_bitmap ∧ t.st_size = s.st_size ∧ t.cm_num_pages = s.cm_num_pages ∧
  t.curproc_as = s.curproc_as ∧ t.curcpu = s.curcpu

/-- The state `vm_fault(VM_FAULT_WRITE, PAGE_SIZE)` leaves on `fork_vm` with
`random()` equal to 6. -/
def faulted_vm : vm_state :=
  match vm_fault small_cfg fork_vm VM_FAULT_WRITE PAGE_SIZE 6 with
  | .ok r => r.1
  | .error _ => fork_vm

/-- The state `page_get(0)` leaves on `full_vm`. -/
def evicted_vm : vm_state :=
  match page_get small_cfg full_vm false with
  | .ok r => r.1
  | .error _ => full_vm

/-- The state a read fault at `PAGE_SIZE` leaves on `evicted_vm` with
`random()` equal to 7. -/
def refaulted_vm : vm_state :=
  match vm_fault small_cfg evicted_vm VM_FAULT_READ PAGE_SIZE 7 with
  | .ok r => r.1
  | .error _ => evicted_vm

/-! ### `as_define_region` (`addrspace.c`) -/

/-- One round of the `while` loop of `as_define_region`, for the page at
`va`. The result code is the one on which the function returns, 0 to go
on. -/
def as_define_page (cfg : vm_config) (s : vm_state) (a va : Nat) (writeable : Bool) :
    Except vm_stop (vm_state × Nat) :=
  match s.as_table a with
  | none => .error .panic
  | some asp =>
    let pde := VADDR_TO_PT cfg va
    let pti := VADDR_TO_PTE cfg va
    let tabled : Except vm_stop (vm_state × Nat) :=
      match asp.as_pd pde with
      | some _ => .ok (s, 0)
      | none =>
        match kmalloc s with
        | (false, s1) => .ok (s1, ENOMEM)
        | (true, s1) =>
          let asp1 : addrspace :=
            { asp with as_pd := Function.update asp.as_pd pde (some pgt_init) }
          .ok ({ s1 with as_table := Function.update s1.as_table a (some asp1) }, 0)
    match tabled with
    | .error x => .error x
    | .ok (s1, err) =>
      if err ≠ 0 then .ok (s1, err)
      else
        match get_pte s1 a pde pti with
        | none => .error .panic
        | some pte =>
          match pte_acquire s1 a pte with
          | .error x => .error x
          | .ok (s2, _) =>
            let updated : Except vm_stop (vm_state × pt_entry) :=
              if pte.pte_valid = false then
                let pte1 : pt_entry :=
                  { pte_valid := true, pte_present := false, pte_zeroed := true,
                    pte_writeable := writeable, pte_ppn := 0 }
                .ok (set_pte s2 a pde pti pte1, pte1)
              else if pte.pte_writeable ≠ writeable then
                let pte1 : pt_entry := { pte with pte_writeable := writeable }
                match shootdown_frame cfg (set_pte s2 a pde pti pte1) pte.pte_ppn with
                | .error x => .error x
                | .ok s4 => .ok (s4, pte1)
              else .ok (s2, pte)
            match updated with
            | .error x => .error x
            | .ok (s3, pte1) =>
              match pte_release s3
                  (if pte1.pte_present = true then some pte1.pte_ppn else none) with
              | .error x => .error x
              | .ok s4 => .ok (s4, 0)

/-- The `while (mem_defined < memsize)` loop of `as_define_region`, `n`
rounds to go: the state, the result code and `mem_defined` at the exit.
Addresses are 32-bit. -/
def as_define_loop (cfg : vm_config) (a vaddr : Nat) (writeable : Bool) :
    Nat → Nat → vm_state → Except vm_stop (vm_state × Nat × Nat)
  | 0, mem_defined, s => .ok (s, 0, mem_defined)
  | n + 1, mem_defined, s =>
    match as_define_page cfg s a ((vaddr + mem_defined) % 4294967296) writeable with
    | .error x => .error x
    | .ok (s1, err) =>
      if err ≠ 0 then .ok (s1, err, mem_defined)
      else as_define_loop cfg a vaddr writeable n (mem_defined + PAGE_SIZE) s1

/-- The body of `as_define_region`; `asp` is `none` for a `NULL` address
space. The loop runs once for every multiple of `PAGE_SIZE` below
`memsize`. When `memsize` exceeds the largest 32-bit multiple of
`PAGE_SIZE` the 32-bit counter wraps before it reaches `memsize`, and the
loop can be left only from inside a round: it is run for two laps of the
address space, and since after one lap every page table exists and every
PTE is valid with the requested `writeable` bit, a run that is still going
after two laps does not end. -/
def as_define_region (cfg : vm_config) (s : vm_state) (asp : Option Nat)
    (vaddr memsize writeable : Nat) : Except vm_stop (vm_state × Nat) :=
  let writeable : Bool := decide (writeable ≠ 0)
  let vaddr := PAGE_ALIGN vaddr
  match asp with
  | none => .ok (s, EFAULT)
  | some a =>
    if memsize = 0 then .ok (s, EINVAL)
    else if (vaddr ≥ cfg.KERNEL_VADDR_START ∧ vaddr < cfg.KERNEL_VADDR_END) ∨
        ((vaddr + memsize) % 4294967296 ≥ cfg.KERNEL_VADDR_START ∧
          (vaddr + memsize) % 4294967296 < cfg.KERNEL_VADDR_END) ∨
        (vaddr < cfg.KERNEL_VADDR_START ∧
          (vaddr + memsize) % 4294967296 > cfg.KERNEL_VADDR_START) then .ok (s, EINVAL)
    else if memsize > 4294967296 - PAGE_SIZE then
      match as_define_loop cfg a vaddr writeable (2 * (4294967296 / PAGE_SIZE)) 0 s with
      | .error x => .error x
      | .ok (s1, err, _) => if err ≠ 0 then .ok (s1, err) else .error .blocked
    else
      match as_define_loop cfg a vaddr writeable ((memsize + PAGE_SIZE - 1) / PAGE_SIZE) 0 s with
      | .error x => .error x
      | .ok (s1, err, mem_defined) =>
        if err ≠ 0 then .ok (s1, err)
        else
          match s1.as_table a with
          | none => .error .panic
          | some asp1 =>
            let top := (vaddr + mem_defined) % 4294967296
            let heap_start := if asp1.as_heap_start < top then top else asp1.as_heap_start
            if heap_start % PAGE_SIZE ≠ 0 then .error .panic
            else
              let asp2 : addrspace := { asp1 with as_heap_start := heap_start }
              .ok ({ s1 with as_table := Function.update s1.as_table a (some asp2) }, 0)

/-! ### `sys_sbrk` (`sbrk.c`) -/

/-- The body of `swap_destroy_block`: the slot is marked free. -/
def swap_destroy_block (s : vm_state) (swap_location : Nat) : Except vm_stop vm_state :=
  if swap_location > 0 then
    .ok { s with st_bitmap := Function.update s.st_bitmap swap_location false }
  else .error .panic

/-- One round of the growing loop of `sys_sbrk`, for the new heap page at
`vaddr`. The result code is `ENOMEM` when the page table cannot be
allocated, 0 to go on. -/
def sbrk_grow_page (cfg : vm_config) (s : vm_state) (a vaddr : Nat) :
    Except vm_stop (vm_state × Nat) :=
  match s.as_table a with
  | none => .error .panic
  | some asp =>
    let pdi := VADDR_TO_PT cfg vaddr
    let pti := VADDR_TO_PTE cfg vaddr
    let tabled : Except vm_stop (vm_state × Nat) :=
      match asp.as_pd pdi with
      | some _ => .ok (s, 0)
      | none =>
        match kmalloc s with
        | (false, s1) => .ok (s1, ENOMEM)
        | (true, s1) =>
          let asp1 : addrspace :=
            { asp with as_pd := Function.update asp.as_pd pdi (some pgt_init) }
          .ok ({ s1 with as_table := Function.update s1.as_table a (some asp1) }, 0)
    match tabled with
    | .error x => .error x
    | .ok (s1, err) =>
      if err ≠ 0 then .ok (s1, err)
      else
        match get_pte s1 a pdi pti with
        | none => .error .panic
        | some pte =>
          match pte_acquire s1 a pte with
          | .error x => .error x
          | .ok (s2, _) =>
            match pte_release
                (set_pte s2 a pdi pti
                  { pte_valid := false, pte_ppn := 0, pte_writeable := true,
                    pte_present := false, pte_zeroed := true }) none with
            | .error x => .error x
            | .ok s3 => .ok (s3, 0)

/-- The growing loop of `sys_sbrk` from round `i`, `n` rounds to go;
`heap_end` is `as_heap_size + as_heap_start`. -/
def sbrk_grow_loop (cfg : vm_config) (a heap_end : Nat) :
    Nat → Nat → vm_state → Except vm_stop (vm_state × Nat)
  | 0, _, s => .ok (s, 0)
  | n + 1, i, s =>
    match sbrk_grow_page cfg s a ((heap_end + i * PAGE_SIZE) % 4294967296) with
    | .error x => .error x
    | .ok (s1, err) =>
      if err ≠ 0 then .ok (s1, err)
      else sbrk_grow_loop cfg a heap_end n (i + 1) s1

/-- One round of the shrinking loop of `sys_sbrk`, for the heap page at
`vaddr`. -/
def sbrk_shrink_page (cfg : vm_config) (s : vm_state) (a vaddr : Nat) :
    Except vm_stop vm_state :=
  match s.as_table a with
  | none => .error .panic
  | some asp =>
    let pdi := VADDR_TO_PT cfg vaddr
    let pti := VADDR_TO_PTE cfg vaddr
    match asp.as_pd pdi with
    | none => .ok s
    | some pde =>
      let pte := pde pti
      match pte_acquire s a pte with
      | .error x => .error x
      | .ok (s1, _) =>
        let freed : Except vm_stop (vm_state × pt_entry × Option Nat) :=
          if pte.pte_present = true then
            let cme := s1.cm_entries pte.pte_ppn
            if cme.cme_kpage = true then .error .panic
            else
              let shot : Except vm_stop vm_state :=
                if cme.cme_tlb = true then
                  if cme.cme_owner_cpu ≠ some s1.curcpu then .error .panic
                  else vm_tlbshootdown cfg s1 cme.cme_owner_cpu cme.cme_vaddr false
                else .ok s1
              match shot with
              | .error x => .error x
              | .ok s2 =>
                let destroyed : Except vm_stop vm_state :=
                  if (s2.cm_entries pte.pte_ppn).cme_swap_location ≠ 0 then
                    swap_destroy_block s2 (s2.cm_entries pte.pte_ppn).cme_swap_location
                  else .ok s2
                match destroyed with
                | .error x => .error x
                | .ok s3 =>
                  .ok (set_cme s3 pte.pte_ppn
                    { (s3.cm_entries pte.pte_ppn) with
                      cme_as := none, cme_vaddr := 0, cme_swap_location := 0,
                      cme_dirty := false, cme_kernel := false },
                    { pte with pte_present := false }, some pte.pte_ppn)
          else if pte.pte_zeroed = false then
            match swap_destroy_block s1 pte.pte_ppn with
            | .error x => .error x
            | .ok s2 => .ok (s2, pte, none)
          else .ok (s1, pte, none)
        match freed with
        | .error x => .error x
        | .ok (s5, pte1, ppn) =>
          pte_release (set_pte s5 a pdi pti { pte1 with pte_ppn := 0, pte_valid := false }) ppn

/-- The shrinking loop of `sys_sbrk` from round `i`, `n` rounds to go. -/
def sbrk_shrink_loop (cfg : vm_config) (a heap_end : Nat) :
    Nat → Nat → vm_state → Except vm_stop vm_state
  | 0, _, s => .ok s
  | n + 1, i, s =>
    match sbrk_shrink_page cfg s a (heap_end - i * PAGE_SIZE) with
    | .error x => .error x
    | .ok s1 => sbrk_shrink_loop cfg a heap_end n (i + 1) s1

/-- The body of `sys_sbrk` for the current process: the state, the result
code and `*retval`. `amount` is a C `int`; the sum compared with `STACK_MIN`
is a 32-bit unsigned one. The heap size is below 2^31, so the cast to `int`
keeps its value. -/
def sys_sbrk (cfg : vm_config) (s : vm_state) (amount : Int) :
    Except vm_stop (vm_state × Nat × Int) :=
  if amount % PAGE_SIZE ≠ 0 then .ok (s, EINVAL, -1)
  else
    match s.curproc_as with
    | none => .error .panic
    | some a =>
      match s.as_table a with
      | none => .error .panic
      | some asp =>
        let heap_end := asp.as_heap_start + asp.as_heap_size
        if asp.as_heap_start % PAGE_SIZE ≠ 0 then .error .panic
        else if amount = 0 then .ok (s, 0, heap_end)
        else if ((heap_end : Int) + amount) % 4294967296 > cfg.STACK_MIN ∧ amount > 0 then
          .ok (s, ENOMEM, -1)
        else if (asp.as_heap_size : Int) + amount < 0 ∧ amount < 0 then .ok (s, EINVAL, -1)
        else
          let looped : Except vm_stop (vm_state × Nat) :=
            if amount > 0 then sbrk_grow_loop cfg a heap_end (amount / PAGE_SIZE).toNat 0 s
            else
              match sbrk_shrink_loop cfg a heap_end (-amount / PAGE_SIZE).toNat 1 s with
              | .error x => .error x
              | .ok s1 => .ok (s1, 0)
          match looped with
          | .error x => .error x
          | .ok (s1, err) =>
            if err ≠ 0 then .ok (s1, err, -1)
            else
              match s1.as_table a with
              | none => .error .panic
              | some asp1 =>
                let asp2 : addrspace :=
                  { asp1 with as_heap_size := ((asp1.as_heap_size : Int) + amount).toNat }
                .ok ({ s1 with as_table := Function.update s1.as_table a (some asp2) }, 0,
                  asp1.as_heap_start + asp1.as_heap_size)

/-! ### `alloc_kpages`, `free_kpages` (`vm.c`) -/

/-- Constants of `vm.h` that the kernel-page allocator uses. -/
structure coremap_config where
  RAM_PAGES : Nat
  MIN_USER_PAGES : Nat
  NUM_TRIES : Nat

/-- The kernel maps frame `i` at `KERNEL_VADDR_START + i * PAGE_SIZE`. -/
def CM_INDEX_TO_KVADDR (cfg : vm_config) (i : Nat) : Nat :=
  cfg.KERNEL_VADDR_START + i * PAGE_SIZE

def KVADDR_TO_PPN (cfg : vm_config) (addr : Nat) : Nat :=
  (addr - cfg.KERNEL_VADDR_START) / PAGE_SIZE

/-- The `while (cme->cme_exists == 1)` scan of `alloc_kpages` from frame
`cur_block`, with `pages_found` frames of the current run seen and
`start_of_block` as it stands (`none` for -1). The result is `pages_found`
and `start_of_block` at the exit. `fuel` bounds the rounds; `RAM_PAGES + 1`
is enough. -/
def alloc_scan (kc : coremap_config) (s : vm_state) (npages : Nat) :
    Nat → Nat → Nat → Option Nat → Nat × Option Nat
  | 0, _, pages_found, start_of_block => (pages_found, start_of_block)
  | fuel + 1, cur_block, pages_found, start_of_block =>
    let cme := s.cm_entries cur_block
    if cme.cme_exists = true then
      if cme.cme_kpage = false ∧ cme.cme_as = none ∧ cme.cme_busy = false then
        let start1 := if pages_found = 0 then some cur_block else start_of_block
        if pages_found + 1 = npages then (pages_found + 1, start1)
        else if cur_block + 1 ≥ kc.RAM_PAGES then (pages_found + 1, start1)
        else alloc_scan kc s npages fuel (cur_block + 1) (pages_found + 1) start1
      else if cur_block + 1 ≥ kc.RAM_PAGES then (0, none)
      else alloc_scan kc s npages fuel (cur_block + 1) 0 none
    else (pages_found, start_of_block)

/-- The eviction loop of `alloc_kpages` for more than one page, `n` rounds
to go: each frame `page_get` hands out is released at once. -/
def alloc_evict_loop (cfg : vm_config) : Nat → vm_state → Except vm_stop vm_state
  | 0, s => .ok s
  | n + 1, s =>
    match page_get cfg s false with
    | .error x => .error x
    | .ok (s1, new_ppn) =>
      alloc_evict_loop cfg n
        (set_cme s1 new_ppn { (s1.cm_entries new_ppn) with cme_busy := false })

/-- The `for (num_tries ...)` loop of `alloc_kpages`, `tries` rounds to go:
the state and `start_of_block` at the exit (`none` for -1). -/
def alloc_find (cfg : vm_config) (kc : coremap_config) (npages : Nat) :
    Nat → vm_state → Except vm_stop (vm_state × Option Nat)
  | 0, s => .ok (s, none)
  | tries + 1, s =>
    let found := alloc_scan kc s npages (kc.RAM_PAGES + 1) 0 0 none
    if found.1 = npages then .ok (s, found.2)
    else if npages = 1 then
      match page_get cfg s false with
      | .error x => .error x
      | .ok (s1, p) => .ok (s1, some p)
    else
      match alloc_evict_loop cfg (npages - found.1) s with
      | .error x => .error x
      | .ok s1 => alloc_find cfg kc npages tries s1

/-- The loop of `alloc_kpages` that marks the frames of the block, from
round `i`, `n` rounds to go. -/
def alloc_mark_loop (cfg : vm_config) (start_of_block : Nat) : Nat → Nat → vm_state → vm_state
  | 0, _, s => s
  | n + 1, i, s =>
    alloc_mark_loop cfg start_of_block n (i + 1)
      (set_cme s (start_of_block + i)
        { (s.cm_entries (start_of_block + i)) with
          cme_as := none, cme_vaddr := CM_INDEX_TO_KVADDR cfg (start_of_block + i),
          cme_swap_location := 0, cme_owner_cpu := none, cme_dirty := false,
          cme_tlb := false, cme_kernel := decide (i ≠ 0), cme_busy := false,
          cme_kpage := true })

/-- The body of `alloc_kpages`; the result is the kernel address of the
block, 0 for none. The test against `MIN_USER_PAGES` is a comparison of
32-bit unsigned values, because `npages` is unsigned. -/
def alloc_kpages (cfg : vm_config) (kc : coremap_config) (s : vm_state) (npages : Nat) :
    Except vm_stop (vm_state × Nat) :=
  if ((s.cm_num_pages : Int) - (s.cm_num_kpages + npages)) % 4294967296 <
      kc.MIN_USER_PAGES then .ok (s, 0)
  else
    match alloc_find cfg kc npages kc.NUM_TRIES s with
    | .error x => .error x
    | .ok (s1, none) => .ok (s1, 0)
    | .ok (s1, some start_of_block) =>
      let s2 := alloc_mark_loop cfg start_of_block npages 0 s1
      let zeroed : Nat → Page := fun f =>
        if start_of_block ≤ f ∧ f < start_of_block + npages then zero_page else s2.ram f
      .ok ({ s2 with ram := zeroed, cm_num_kpages := s2.cm_num_kpages + npages },
        CM_INDEX_TO_KVADDR cfg start_of_block)

/-- The `while` loop of `free_kpages` from frame `ppn`. A walk of `fuel`
rounds has left the coremap array, which is outside the model. -/
def free_kpages_loop : Nat → Nat → vm_state → Except vm_stop vm_state
  | 0, _, _ => .error .panic
  | fuel + 1, ppn, s =>
    let cme := s.cm_entries ppn
    if cme.cme_kernel = true ∧ cme.cme_kpage = true then
      if cme.cme_busy = false ∧ cme.cme_as = none then
        let s1 := set_cme s ppn { cme with cme_kpage := false, cme_kernel := false }
        free_kpages_loop fuel (ppn + 1) { s1 with cm_num_kpages := s1.cm_num_kpages - 1 }
      else .error .panic
    else .ok s

/-- The body of `free_kpages`. -/
def free_kpages (cfg : vm_config) (kc : coremap_config) (s : vm_state) (addr : Nat) :
    Except vm_stop vm_state :=
  if addr ≥ cfg.KERNEL_VADDR_START ∧ addr < cfg.KERNEL_VADDR_END then
    let ppn := KVADDR_TO_PPN cfg addr
    let cme := s.cm_entries ppn
    if cme.cme_busy = false ∧ cme.cme_kpage = true ∧ cme.cme_kernel = false ∧
        cme.cme_as = none then
      let s1 := set_cme s ppn { cme with cme_kpage := false }
      free_kpages_loop kc.RAM_PAGES (ppn + 1) { s1 with cm_num_kpages := s1.cm_num_kpages - 1 }
    else .error .panic
  else .error .panic

/-! ### More states of the small machine -/

/-- An address space (handle 1) with no page table yet and the heap start
at 0; no frame is in use, and the next `kmalloc` succeeds. -/
def define_vm : vm_state :=
  { readonly_vm with
    as_table := fun a =>
      if a = 1 then some { as_pd := fun _ => none, as_heap_start := 0, as_heap_size := 0 }
      else none,
    kmalloc_results := [true] }

/-- As `readonly_vm` (the page at `PAGE_SIZE` is valid, absent and
demand-zero; frames 1, 2 and 3 are free), with the next two `kmalloc` calls
succeeding. -/
def forkzero_vm : vm_state := { readonly_vm with kmalloc_results := [true, true] }

/-- The pages at `PAGE_SIZE` and `3 * PAGE_SIZE` belong to two regions and
sit in frames 1 and 2; the page at `2 * PAGE_SIZE` between them was never
defined; the heap starts at `4 * PAGE_SIZE` and is empty; frame 3 is free. -/
def gap_vm : vm_state :=
  { full_vm with
    cm_entries := fun i =>
      if i = 0 then kernel_cme else if i = 1 then user_cme PAGE_SIZE
      else if i = 2 then user_cme (3 * PAGE_SIZE)
      else if i = 3 then free_cme else { free_cme with cme_exists := false },
    as_table := fun a =>
      if a = 1 then
        some { as_pd := fun pdi =>
                 if pdi = 0 then
                   some (fun pti =>
                     if pti = 1 then present_pte 1 else if pti = 3 then present_pte 2
                     else pgt_init 0)
                 else none,
               as_heap_start := 4 * PAGE_SIZE, as_heap_size := 0 }
      else none }

/-- Eight frames in the coremap array, one user frame kept in reserve,
three tries. -/
def small_kc : coremap_config := { RAM_PAGES := 8, MIN_USER_PAGES := 1, NUM_TRIES := 3 }

/-- Four frames: frames 0 and 1 are kernel pages (two blocks of one frame),
frames 2 and 3 hold the pages at `PAGE_SIZE` and `2 * PAGE_SIZE` of address
space 1; the swap device has no free slot. -/
def tight_vm : vm_state :=
  { full_vm with
    cm_entries := fun i =>
      if i = 0 then kernel_cme else if i = 1 then kernel_cme
      else if i = 2 then user_cme PAGE_SIZE else if i = 3 then user_cme (2 * PAGE_SIZE)
      else { free_cme with cme_exists := false },
    cm_num_kpages := 2,
    as_table := fun a =>
      if a = 1 then
        some { as_pd := fun pdi =>
                 if pdi = 0 then
                   some (fun pti =>
                     if pti = 1 then present_pte 2 else if pti = 2 then present_pte 3
                     else pgt_init 0)
                 else none,
               as_heap_start := 3 * PAGE_SIZE, as_heap_size := 0 }
      else none,
    st_bitmap := fun _ => true,
    cm_clock_head := 2 }

/-! ### Properties of the kernel frames and of the heap -/

/-- Kernel blocks are well formed: a kernel frame marked `cme_kernel` (an
inner frame of a block) comes right after another kernel frame. -/
def kernel_runs_wf (s : vm_state) : Prop :=
  ∀ i, (s.cm_entries i).cme_kpage = true → (s.cm_entries i).cme_kernel = true →
    0 < i ∧ (s.cm_entries (i - 1)).cme_kpage = true

/-- The state `alloc_kpages(2)` leaves on `fork_vm`. -/
def kalloc_vm : vm_state :=
  match alloc_kpages small_cfg small_kc fork_vm 2 with
  | .ok r => r.1
  | .error _ => fork_vm

/-- Address space `a` has in `t` the heap bounds it has in `s`. -/
def same_heap (s t : vm_state) (a : Nat) : Prop :=
  ∀ asp, s.as_table a = some asp →
    ∃ asp1, t.as_table a = some asp1 ∧ asp1.as_heap_start = asp.as_heap_start ∧
      asp1.as_heap_size = asp.as_heap_size

/-- The page at `vaddr` can be given to the heap of address space `a`: its
PTE, if its table exists, is not resident. -/
def grow_page_ready (cfg : vm_config) (s : vm_state) (a vaddr : Nat) : Bool :=
  match get_pte s a (VADDR_TO_PT cfg vaddr) (VADDR_TO_PTE cfg vaddr) with
  | none => true
  | some pte => !pte.pte_present

/-- The `n` pages from `heap_end` on can be given to the heap. -/
def sbrk_grow_ready (cfg : vm_config) (s : vm_state) (a heap_end n : Nat) : Prop :=
  ∀ i, i < n → grow_page_ready cfg s a (heap_end + i * PAGE_SIZE) = true

instance sbrk_grow_ready_decidable (cfg : vm_config) (s : vm_state) (a heap_end n : Nat) :
    Decidable (sbrk_grow_ready cfg s a heap_end n) := by
  unfold sbrk_grow_ready
  infer_instance

/-- The page at `vaddr` can be taken from the heap of address space `a`: if
its PTE is resident, the frame is a user frame inside the coremap that is
not busy, and when the frame is marked as being in the TLB, it is recorded
for this CPU under `vaddr` and the TLB slot that `tlb_probe` finds for
`vaddr`, if any, names the frame; if the PTE is not resident and not
demand-zero, it names a swap slot. -/
def shrink_page_ready (cfg : vm_config) (s : vm_state) (a vaddr : Nat) : Bool :=
  match get_pte s a (VADDR_TO_PT cfg vaddr) (VADDR_TO_PTE cfg vaddr) with
  | none => true
  | some pte =>
    if pte.pte_present = true then
      decide (pte.pte_ppn < s.cm_num_pages) && !(s.cm_entries pte.pte_ppn).cme_kpage &&
        !(s.cm_entries pte.pte_ppn).cme_busy &&
        (!(s.cm_entries pte.pte_ppn).cme_tlb ||
          (decide ((s.cm_entries pte.pte_ppn).cme_owner_cpu = some s.curcpu) &&
            decide ((s.cm_entries pte.pte_ppn).cme_vaddr = vaddr) &&
            match tlb_probe cfg s vaddr with
            | none => true
            | some index => decide ((s.tlb index).tlb_ppn = pte.pte_ppn)))
    else pte.pte_zeroed || decide (0 < pte.pte_ppn)

/-- What one round of the shrinking loop for the page at `v` leaves of `s`:
the heap bounds, the number of frames, the CPU and the other PTEs of `a`; a
coremap entry is as before, or it is a user entry that is not busy and is
marked as being in the TLB only if it was, under `v`; the TLB is as before,
or the slot that held `v` has been invalidated. -/
def shrink_step_rel (cfg : vm_config) (s t : vm_state) (a v : Nat) : Prop :=
  same_heap s t a ∧ t.cm_num_pages = s.cm_num_pages ∧ t.curcpu = s.curcpu ∧
  (∀ pdi pti, ¬ (pdi = VADDR_TO_PT cfg v ∧ pti = VADDR_TO_PTE cfg v) →
    get_pte t a pdi pti = get_pte s a pdi pti) ∧
  (∀ f, t.cm_entries f = s.cm_entries f ∨
    ((t.cm_entries f).cme_kpage = false ∧ (t.cm_entries f).cme_busy = false ∧
      ((t.cm_entries f).cme_tlb = true →
        (s.cm_entries f).cme_tlb = true ∧ (s.cm_entries f).cme_vaddr = v))) ∧
  (t.tlb = s.tlb ∨
    ∃ index, (s.tlb index).tlb_hi = v ∧
      t.tlb = Function.update s.tlb index (tlb_invalid index))

/-- The `n` pages below `heap_end` can be taken from the heap. -/
def sbrk_shrink_ready (cfg : vm_config) (s : vm_state) (a heap_end n : Nat) : Prop :=
  ∀ i, i < n → shrink_page_ready cfg s a (heap_end - (i + 1) * PAGE_SIZE) = true

instance sbrk_shrink_ready_decidable (cfg : vm_config) (s : vm_state) (a heap_end n : Nat) :
    Decidable (sbrk_shrink_ready cfg s a heap_end n) := by
  unfold sbrk_shrink_ready
  infer_instance

/-- The address space of `fork_vm`. -/
def fork_as : addrspace :=
  { as_pd := fun pdi =>
      if pdi = 0 then some (fun pti => if pti = 1 then present_pte 1 else pgt_init 0)
      else none,
    as_heap_start := 2 * PAGE_SIZE, as_heap_size := 0 }

/-! ### Properties of a fork -/

/-- The number of coremap frames whose dirty flag is set. -/
def dirty_frames (s : vm_state) : Nat :=
  ((List.range s.cm_num_pages).filter (fun i => (s.cm_entries i).cme_dirty)).length

/-- As `full_vm`, but frames 1 and 3 are dirty and have no swap slot, and
frame 2 is clean and backed by swap slot 3, which holds the bytes of the
frame; the clock head is at frame 1. -/
def clean_vm : vm_state :=
  { full_vm with
    cm_entries := fun i =>
      if i = 0 then kernel_cme
      else if i = 1 then { user_cme PAGE_SIZE with cme_dirty := true }
      else if i = 2 then { user_cme (2 * PAGE_SIZE) with cme_swap_location := 3 }
      else if i = 3 then { user_cme (3 * PAGE_SIZE) with cme_dirty := true }
      else { free_cme with cme_exists := false },
    cm_num_dirty := 2,
    st_bitmap := fun i => decide (i = 0 ∨ i = 3),
    swap_data := fun i => if i = 3 then fill_page 22 else zero_page }

/-- As `fork_vm`, but the empty heap starts at `4*PAGE_SIZE`, the first page
of the second directory slot, for which the address space has no page
table yet, and the next three `kmalloc` calls succeed. -/
def heap_vm : vm_state :=
  { fork_vm with
    as_table := fun a =>
      if a = 1 then
        some { as_pd := fun pdi =>
                 if pdi = 0 then
                   some (fun pti => if pti = 1 then present_pte 1 else pgt_init 0)
                 else none,
               as_heap_start := 4 * PAGE_SIZE, as_heap_size := 0 }
      else none,
    kmalloc_results := [true, true, true] }

/-- The state after `sys_sbrk(PAGE_SIZE)` on `heap_vm`. -/
def grown_vm : vm_state :=
  match sys_sbrk small_cfg heap_vm PAGE_SIZE with
  | .ok r => r.1
  | .error _ => heap_vm

/-- The state after a write fault at the new heap page of `grown_vm`. -/
def touched_vm : vm_state :=
  match vm_fault small_cfg grown_vm VM_FAULT_WRITE (4 * PAGE_SIZE) 0 with
  | .ok r => r.1
  | .error _ => grown_vm

/-- The address space of `touched_vm`: a heap of one page at `4*PAGE_SIZE`,
resident and in the TLB. -/
def touched_as : addrspace := (touched_vm.as_table 1).getD fork_as

/-- The state after `as_copy` of address space 1 into 2 on `grown_vm`,
whose new heap page has not been touched. -/
def heap_forked_vm : vm_state :=
  match as_copy small_cfg grown_vm 1 2 with
  | .ok r => r.1
  | .error _ => grown_vm

/-- As `fork_vm`, but the resident page at `PAGE_SIZE` is not writeable. -/
def protected_vm : vm_state :=
  { fork_vm with
    as_table := fun a =>
      if a = 1 then
        some { as_pd := fun pdi =>
                 if pdi = 0 then
                   some (fun pti =>
                     if pti = 1 then { present_pte 1 with pte_writeable := false }
                     else pgt_init 0)
                 else none,
               as_heap_start := 2 * PAGE_SIZE, as_heap_size := 0 }
      else none }

/-! # Theorems -/

theorem check_loop_cons (e : jentry) (J : Journal) :
    check_loop (e :: J) = check_step (check_loop J) e := by
  simp [check_loop, List.reverse_cons, List.foldl_append]

theorem find_tnx_from_none (l : List Nat) (x i : Nat) :
    find_tnx_from l x i = none ↔ x ∉ l := by
  induction l generalizing i with
  | nil => simp [find_tnx_from]
  | cons a l ih =>
    simp only [find_tnx_from, List.mem_cons]
    by_cases h : a = x
    · simp [h]
    · simp [h, ih, Ne.symm h]

theorem find_tnx_from_some (l : List Nat) (x i j : Nat) (h : find_tnx_from l x i = some j) :
    i ≤ j ∧ l.eraseIdx (j - i) = l.erase x := by
  induction l generalizing i with
  | nil => simp [find_tnx_from] at h
  | cons a l ih =>
    simp only [find_tnx_from] at h
    by_cases hax : a = x
    · simp [hax] at h
      subst h
      simp [hax]
    · simp [hax] at h
      obtain ⟨h1, h2⟩ := ih (i + 1) h
      refine ⟨by omega, ?_⟩
      have : j - i = (j - (i + 1)) + 1 := by omega
      rw [this, List.eraseIdx_cons_succ, h2]
      simp [List.erase_cons, hax]

theorem find_tnx_none (l : List Nat) (x : Nat) : find_tnx l x = none ↔ x ∉ l :=
  find_tnx_from_none l x 0

theorem find_tnx_some (l : List Nat) (x j : Nat) (h : find_tnx l x = some j) :
    l.eraseIdx j = l.erase x := by
  have := (find_tnx_from_some l x 0 j h).2
  simpa using this

theorem drain_loop_eq (ab en : List Nat) : drain_loop ab en = (ab ++ en, []) := by
  induction en generalizing ab with
  | nil => simp [drain_loop]
  | cons a en ih => simp [drain_loop, ih]

theorem check_step_start (st : check_state) (e : jentry) (d : transaction_le)
    (he : e.record = .START_TRANSACTION d) :
    check_step st e =
      if d.le_tnx ∈ st.ended_tx then { st with ended_tx := st.ended_tx.erase d.le_tnx }
      else { st with aborted_tx := st.aborted_tx ++ [d.le_tnx] } := by
  unfold check_step
  rw [he]
  simp only
  cases h : find_tnx st.ended_tx d.le_tnx with
  | none =>
    have := (find_tnx_none _ _).1 h
    simp [this]
  | some j =>
    have hm : d.le_tnx ∈ st.ended_tx := by
      by_contra hc
      have := (find_tnx_none _ _).2 hc
      rw [h] at this
      cases this
    simp [hm, find_tnx_some _ _ _ h]

theorem check_step_of_start (T : Nat) (st : check_state) (e : jentry)
    (h : is_start_of T e = true) :
    (check_step st e).ended_tx.count T = st.ended_tx.count T - 1 ∧
    (T ∈ (check_step st e).aborted_tx ↔ T ∈ st.aborted_tx ∨ st.ended_tx.count T = 0) := by
  unfold is_start_of at h
  cases hr : e.record <;> rw [hr] at h <;> simp at h
  rename_i d
  rw [check_step_start st e d hr, h]
  by_cases hm : T ∈ st.ended_tx
  · have hc : 0 < st.ended_tx.count T := List.count_pos_iff.2 hm
    simp [hm, List.count_erase_self]
    omega
  · simp [hm, List.count_eq_zero_of_not_mem hm]

theorem check_step_of_end (T : Nat) (st : check_state) (e : jentry)
    (h : is_end_of T e = true) :
    (check_step st e).ended_tx.count T = st.ended_tx.count T + 1 ∧
    (T ∈ (check_step st e).aborted_tx ↔ T ∈ st.aborted_tx) := by
  unfold is_end_of at h
  cases hr : e.record <;> rw [hr] at h <;> simp at h
  rename_i d
  unfold check_step
  rw [hr]
  simp [h, List.count_append]

theorem check_step_of_other (T : Nat) (st : check_state) (e : jentry)
    (hs : is_start_of T e = false) (he : is_end_of T e = false) :
    (check_step st e).ended_tx.count T = st.ended_tx.count T ∧
    (T ∈ (check_step st e).aborted_tx ↔ T ∈ st.aborted_tx) := by
  unfold is_start_of at hs
  unfold is_end_of at he
  cases hr : e.record <;> rw [hr] at hs he <;> simp at hs he
  case START_TRANSACTION d =>
    rw [check_step_start st e d hr]
    by_cases hm : d.le_tnx ∈ st.ended_tx
    · simp [hm, List.count_erase_of_ne (Ne.symm hs)]
    · simp [hm, Ne.symm hs]
  case END_TRANSACTION d =>
    unfold check_step
    rw [hr]
    simp [List.count_append, List.count_singleton, he]
  all_goals
    unfold check_step
    rw [hr]
    simp

theorem drain_ended_mem (T : Nat) (st : check_state) :
    (T ∈ (drain_ended st).aborted_tx ↔ T ∈ st.aborted_tx ∨ 0 < st.ended_tx.count T) ∧
    (drain_ended st).ended_tx = [] := by
  simp [drain_ended, drain_loop_eq, List.count_pos_iff]

theorem check_loop_no_end (T : Nat) (J : Journal) (h : J.countP (is_end_of T) = 0) :
    (check_loop J).ended_tx.count T = 0 := by
  induction J with
  | nil => simp [check_loop]
  | cons e J ih =>
    rw [check_loop_cons]
    rw [List.countP_cons] at h
    have h1 : J.countP (is_end_of T) = 0 := by omega
    have h2 : is_end_of T e = false := by
      cases hh : is_end_of T e
      · rfl
      · simp [hh] at h
    cases hs : is_start_of T e
    · rw [(check_step_of_other T _ e hs h2).1]; exact ih h1
    · rw [(check_step_of_start T _ e hs).1, ih h1]

theorem check_loop_no_start (T : Nat) (J : Journal) (h : J.countP (is_start_of T) = 0) :
    (check_loop J).ended_tx.count T = J.countP (is_end_of T) ∧
    T ∉ (check_loop J).aborted_tx := by
  induction J with
  | nil => simp [check_loop]
  | cons e J ih =>
    rw [check_loop_cons]
    rw [List.countP_cons] at h
    have h1 : J.countP (is_start_of T) = 0 := by omega
    have h2 : is_start_of T e = false := by
      cases hh : is_start_of T e
      · rfl
      · simp [hh] at h
    obtain ⟨i1, i2⟩ := ih h1
    cases he : is_end_of T e
    · obtain ⟨a, b⟩ := check_step_of_other T (check_loop J) e h2 he
      rw [a, b, List.countP_cons]
      simp [he, i1, i2]
    · obtain ⟨a, b⟩ := check_step_of_end T (check_loop J) e he
      rw [a, b, List.countP_cons]
      simp [he, i1, i2]

theorem start_without_later_end_cons (T : Nat) (e : jentry) (J : Journal) :
    start_without_later_end (e :: J) T ↔
      (is_start_of T e = true ∧ ∀ x ∈ J, is_end_of T x = false) ∨
        start_without_later_end J T := by
  constructor
  · rintro ⟨pre, a, post, hJ, ha, hp⟩
    cases pre with
    | nil =>
      simp only [List.nil_append, List.cons.injEq] at hJ
      obtain ⟨rfl, rfl⟩ := hJ
      exact Or.inl ⟨ha, hp⟩
    | cons b pre =>
      simp only [List.cons_append, List.cons.injEq] at hJ
      exact Or.inr ⟨pre, a, post, hJ.2, ha, hp⟩
  · rintro (⟨ha, hp⟩ | ⟨pre, a, post, hJ, ha, hp⟩)
    · exact ⟨[], e, J, rfl, ha, hp⟩
    · exact ⟨e :: pre, a, post, by simp [hJ], ha, hp⟩

theorem end_without_earlier_start_cons (T : Nat) (e : jentry) (J : Journal) :
    end_without_earlier_start (e :: J) T ↔
      is_end_of T e = true ∨ (is_start_of T e = false ∧ end_without_earlier_start J T) := by
  constructor
  · rintro ⟨pre, a, post, hJ, ha, hp⟩
    cases pre with
    | nil =>
      simp only [List.nil_append, List.cons.injEq] at hJ
      obtain ⟨rfl, rfl⟩ := hJ
      exact Or.inl ha
    | cons b pre =>
      simp only [List.cons_append, List.cons.injEq] at hJ
      obtain ⟨rfl, hJ⟩ := hJ
      exact Or.inr ⟨hp e (by simp), pre, a, post, hJ, ha, fun x hx => hp x (by simp [hx])⟩
  · rintro (ha | ⟨hs, pre, a, post, hJ, ha, hp⟩)
    · exact ⟨[], e, J, rfl, ha, by simp⟩
    · refine ⟨e :: pre, a, post, by simp [hJ], ha, ?_⟩
      intro x hx
      rcases List.mem_cons.1 hx with rfl | hx
      · exact hs
      · exact hp x hx

theorem start_followed_by_end_cons (T : Nat) (e : jentry) (J : Journal) :
    start_followed_by_end (e :: J) T ↔
      (is_start_of T e = true ∧ ∃ x ∈ J, is_end_of T x = true) ∨
        start_followed_by_end J T := by
  constructor
  · rintro ⟨pre, s, mid, a, post, hJ, hs, ha⟩
    cases pre with
    | nil =>
      simp only [List.nil_append, List.cons.injEq] at hJ
      obtain ⟨rfl, rfl⟩ := hJ
      exact Or.inl ⟨hs, a, by simp, ha⟩
    | cons b pre =>
      simp only [List.cons_append, List.cons.injEq] at hJ
      exact Or.inr ⟨pre, s, mid, a, post, hJ.2, hs, ha⟩
  · rintro (⟨hs, x, hx, ha⟩ | ⟨pre, s, mid, a, post, hJ, hs, ha⟩)
    · obtain ⟨mid, post, rfl⟩ := List.append_of_mem hx
      exact ⟨[], e, mid, x, post, rfl, hs, ha⟩
    · exact ⟨e :: pre, s, mid, a, post, by simp [hJ], hs, ha⟩

theorem no_start_without_later_end (T : Nat) (J : Journal)
    (h : J.countP (is_start_of T) = 0) : ¬ start_without_later_end J T := by
  rintro ⟨pre, a, post, rfl, ha, -⟩
  rw [List.countP_eq_zero] at h
  have := h a (by simp)
  simp [ha] at this

theorem no_end_without_earlier_start (T : Nat) (J : Journal)
    (h : J.countP (is_end_of T) = 0) : ¬ end_without_earlier_start J T := by
  rintro ⟨pre, a, post, rfl, ha, -⟩
  rw [List.countP_eq_zero] at h
  have := h a (by simp)
  simp [ha] at this

theorem start_not_end (T : Nat) (e : jentry) (h : is_start_of T e = true) :
    is_end_of T e = false := by
  unfold is_start_of at h
  unfold is_end_of
  cases hr : e.record <;> rw [hr] at h
  all_goals simp at h ⊢

/-- Membership in the aborted list once the check loop and the drain loop
have run, in terms of the tables the check loop leaves. -/
theorem check_pass_mem (T : Nat) (J : Journal) :
    T ∈ (check_pass J).aborted_tx ↔
      T ∈ (check_loop J).aborted_tx ∨ 0 < (check_loop J).ended_tx.count T :=
  (drain_ended_mem T (check_loop J)).1

theorem check_pass_iff (T : Nat) (J : Journal)
    (hs : J.countP (is_start_of T) ≤ 1) (he : J.countP (is_end_of T) ≤ 1) :
    T ∈ (check_pass J).aborted_tx ↔
      start_without_later_end J T ∨ end_without_earlier_start J T := by
  induction J with
  | nil =>
    rw [check_pass_mem]
    simp [check_loop, start_without_later_end, end_without_earlier_start]
  | cons e J ih =>
    rw [check_pass_mem, check_loop_cons, start_without_later_end_cons,
      end_without_earlier_start_cons]
    rw [List.countP_cons] at hs he
    cases hse : is_start_of T e
    · cases hee : is_end_of T e
      · -- a record that is neither a start nor an end of `T`
        obtain ⟨a, b⟩ := check_step_of_other T (check_loop J) e hse hee
        rw [a, b, ← check_pass_mem]
        simp only [hse, hee, if_false, Nat.add_zero] at hs he
        rw [ih hs he]
        simp
      · -- an end record of `T`
        obtain ⟨a, b⟩ := check_step_of_end T (check_loop J) e hee
        rw [a, b]
        simp
    · -- a start record of `T`
      have hee := start_not_end T e hse
      simp only [hse, hee, if_true, Bool.false_eq_true, if_false, Nat.add_zero] at hs he
      have hs0 : J.countP (is_start_of T) = 0 := by omega
      obtain ⟨c1, c2⟩ := check_loop_no_start T J hs0
      obtain ⟨a, b⟩ := check_step_of_start T (check_loop J) e hse
      rw [a, b, c1]
      have n1 := no_start_without_later_end T J hs0
      have key : (∀ x ∈ J, is_end_of T x = false) ↔ J.countP (is_end_of T) = 0 := by
        rw [List.countP_eq_zero]
        simp
      simp only [c2, false_or, n1, or_false, hee, key, true_and]
      constructor
      · rintro (h | h)
        · exact Or.inl h
        · omega
      · rintro (h | h | ⟨h, -⟩)
        · exact Or.inl h
        · cases h
        · cases h

/-- C4 (amended). Check-pass classification. For a transaction id `T` that has at
most one start record and at most one end record in the journal (ids are
the LSNs of their start records), after the newest-to-oldest check pass
followed by the drain of the ended list: `T` is in the aborted list exactly
when the journal holds a start record of `T` with no end record of `T`
later in the log, or an end record of `T` with no start record of `T`
earlier in the log; if the start of `T` is followed by its end then `T` is
not in the aborted list; and the ended list is empty. -/
theorem check_pass_classification (J : Journal) (T : Nat)
    (hs : J.countP (is_start_of T) ≤ 1) (he : J.countP (is_end_of T) ≤ 1) :
    (T ∈ (check_pass J).aborted_tx ↔
      start_without_later_end J T ∨ end_without_earlier_start J T) ∧
    (start_followed_by_end J T → T ∉ (check_pass J).aborted_tx) ∧
    (check_pass J).ended_tx = [] := by
  refine ⟨check_pass_iff T J hs he, ?_, (drain_ended_mem T (check_loop J)).2⟩
  intro hf
  rw [check_pass_iff T J hs he]
  induction J with
  | nil =>
    obtain ⟨pre, s, mid, a, post, hJ, -, -⟩ := hf
    simp at hJ
  | cons e J ih =>
    rw [List.countP_cons] at hs he
    rw [start_without_later_end_cons, end_without_earlier_start_cons]
    rcases (start_followed_by_end_cons T e J).1 hf with ⟨hse, x, hx, hxe⟩ | hf2
    · have hee := start_not_end T e hse
      simp only [hse, if_true] at hs
      have hs0 : J.countP (is_start_of T) = 0 := by omega
      have n1 := no_start_without_later_end T J hs0
      simp only [hse, hee, n1, or_false, Bool.false_eq_true, Bool.true_eq_false, false_and,
        true_and]
      intro hall
      have := hall x hx
      rw [hxe] at this
      cases this
    · obtain ⟨pre, s, mid, a, post, hJ, hs1, ha1⟩ := hf2
      have p1 : 0 < J.countP (is_start_of T) := by
        rw [List.countP_pos_iff]
        exact ⟨s, by simp [hJ], hs1⟩
      have p2 : 0 < J.countP (is_end_of T) := by
        rw [List.countP_pos_iff]
        exact ⟨a, by simp [hJ], ha1⟩
      have hse : is_start_of T e = false := by
        cases hh : is_start_of T e
        · rfl
        · rw [hh, if_pos rfl] at hs; omega
      have hee : is_end_of T e = false := by
        cases hh : is_end_of T e
        · rfl
        · rw [hh, if_pos rfl] at he; omega
      simp only [hse, hee, Bool.false_eq_true, if_false, Nat.add_zero] at hs he
      have := ih hs he ⟨pre, s, mid, a, post, hJ, hs1, ha1⟩
      simpa [hse, hee] using this

/-- An instance of `check_pass_classification`: transaction 1 of
`sample_journal` has one start and one end record. -/
theorem check_pass_classification_witness :
    sample_journal.countP (is_start_of 1) ≤ 1 ∧ sample_journal.countP (is_end_of 1) ≤ 1 ∧
    ((1 ∈ (check_pass sample_journal).aborted_tx ↔
      start_without_later_end sample_journal 1 ∨ end_without_earlier_start sample_journal 1) ∧
    (start_followed_by_end sample_journal 1 → 1 ∉ (check_pass sample_journal).aborted_tx) ∧
    (check_pass sample_journal).ended_tx = []) :=
  ⟨by decide, by decide, check_pass_classification sample_journal 1 (by decide) (by decide)⟩

/-! ### Torn writes -/

/-- C5. Torn-write detection. When the undo pass processes a write-block
record (the block is not protected at the record's LSN and not yet in the
latest-writes table), the step succeeds and: for a transaction that is not
in the aborted list, the block becomes all zero when `fletcher32` of its
current content differs from the recorded checksum and is left unchanged
when the checksum matches; for a transaction in the aborted list the block
is left unchanged. -/
theorem torn_write_detection (ops : sfs_dirops) (protected_blocks : List protected_block)
    (aborted_tx : List Nat) (st : undo_state) (e : jentry) (wb_le : write_block_le)
    (hrec : e.record = .WRITE_BLOCK wb_le)
    (hprot : is_block_protected protected_blocks e.lsn wb_le.le_block = false)
    (hlw : is_block_in_array st.latest_writes wb_le.le_block = false) :
    ∃ st1, undo_step ops protected_blocks aborted_tx st e = some st1 ∧
      (wb_le.le_tnx ∉ aborted_tx →
        fletcher32 (st.sfs.blocks wb_le.le_block) ≠ wb_le.le_checksum →
          st1.sfs.blocks wb_le.le_block = bzero_block) ∧
      (wb_le.le_tnx ∉ aborted_tx →
        fletcher32 (st.sfs.blocks wb_le.le_block) = wb_le.le_checksum →
          st1.sfs.blocks wb_le.le_block = st.sfs.blocks wb_le.le_block) ∧
      (wb_le.le_tnx ∈ aborted_tx →
        st1.sfs.blocks wb_le.le_block = st.sfs.blocks wb_le.le_block) := by
  unfold undo_step
  rw [hrec]
  simp only [hprot, hlw, Bool.not_false, Bool.and_self, if_true, process_journal_entry,
    parse_write_block]
  by_cases hab : wb_le.le_tnx ∈ aborted_tx
  · have h1 : (find_tnx aborted_tx wb_le.le_tnx).isSome = true := by
      cases h : find_tnx aborted_tx wb_le.le_tnx with
      | none => exact absurd hab ((find_tnx_none _ _).1 h)
      | some j => rfl
    simp [h1, hab]
  · have h1 : find_tnx aborted_tx wb_le.le_tnx = none := (find_tnx_none _ _).2 hab
    by_cases hc : fletcher32 (st.sfs.blocks wb_le.le_block) = wb_le.le_checksum
    · simp [h1, hab, hc]
    · simp [h1, hab, hc, sfs_clearblock_internal]

set_option maxRecDepth 1000000 in
theorem torn_write_detection_witness :
    is_block_protected [] 2 7 = false ∧
    is_block_in_array ([] : List protected_block) 7 = false ∧
    ∃ st1, undo_step no_dirops [] []
        { sfs := idem_fs, latest_writes := [] } ⟨2, .WRITE_BLOCK ⟨1, 7, 5⟩⟩ = some st1 ∧
      ((1 : Nat) ∉ ([] : List Nat) →
        fletcher32 (idem_fs.blocks 7) ≠ 5 → st1.sfs.blocks 7 = bzero_block) ∧
      ((1 : Nat) ∉ ([] : List Nat) →
        fletcher32 (idem_fs.blocks 7) = 5 → st1.sfs.blocks 7 = idem_fs.blocks 7) ∧
      ((1 : Nat) ∈ ([] : List Nat) → st1.sfs.blocks 7 = idem_fs.blocks 7) :=
  ⟨by decide, by decide,
    torn_write_detection no_dirops [] [] { sfs := idem_fs, latest_writes := [] }
      ⟨2, .WRITE_BLOCK ⟨1, 7, 5⟩⟩ ⟨1, 7, 5⟩ rfl (by decide) (by decide)⟩

/-! ### A transaction that never ended -/

/-- C2 (evaluation). On a volume where the new size 300 of inode 7 has
reached the disk, recovery over the crash journal (start of transaction 10,
its change-size record from 100 to 300, no end) puts 10 in the aborted list
and leaves the size at 300, not at the pre-transaction value 100: the undo
pass does not roll the size back. -/
theorem crash_undo_size_eval :
    (check_pass crash_journal).aborted_tx = [10] ∧
    sfi_size (crash_fs.blocks 7) = 300 ∧
    (undo_pass no_dirops (check_pass crash_journal).protected_blocks
        (check_pass crash_journal).aborted_tx crash_journal crash_fs).map
      (fun st => sfi_size (st.sfs.blocks 7)) = some 300 ∧
    (recovery no_dirops crash_journal crash_fs).map (fun s => sfi_size (s.blocks 7))
      = some 300 ∧
    (300 : Nat) ≠ 100 := by
  refine ⟨by decide, by decide, by decide, by decide, by decide⟩

/-- What recovery does with a transaction that never ended, on every
volume: for the journal that holds the start of `T`, one change-size record
of `T` and no end, `T` (and nothing else) is in the aborted list, the
change-size record is skipped in the undo and in the redo pass, and the
volume is returned as it was at mount time. -/
theorem crash_between_start_and_end (ops : sfs_dirops) (T func ino o n ty l1 l2 : Nat)
    (D : sfs_fs) :
    (check_pass [⟨l1, .START_TRANSACTION ⟨T, func⟩⟩,
        ⟨l2, .CHANGE_SIZE ⟨T, ino, o, n, ty⟩⟩]).aborted_tx = [T] ∧
    recovery ops [⟨l1, .START_TRANSACTION ⟨T, func⟩⟩,
        ⟨l2, .CHANGE_SIZE ⟨T, ino, o, n, ty⟩⟩] D = some D := by
  have h : check_pass [⟨l1, .START_TRANSACTION ⟨T, func⟩⟩,
        ⟨l2, .CHANGE_SIZE ⟨T, ino, o, n, ty⟩⟩] =
      { protected_blocks := [], aborted_tx := [T], ended_tx := [] } := by
    simp [check_pass, check_loop, check_step, find_tnx, find_tnx_from, drain_ended,
      drain_loop]
  refine ⟨by rw [h], ?_⟩
  unfold recovery
  simp only [h]
  simp [undo_pass, redo_pass, run_pass, undo_step, redo_step, process_journal_entry,
    parse_change_size, find_tnx, find_tnx_from]

/-! ### Checkpointing -/

theorem checkpoint_active_loop_spec (active : List Nat) (keep : Nat)
    (hpos : ∀ t ∈ active, 0 < t) :
    ∃ L, checkpoint_active_loop active keep = some L ∧ L ≤ keep ∧ (∀ t ∈ active, L ≤ t) ∧
      (L = keep ∨ L ∈ active) := by
  induction active generalizing keep with
  | nil => exact ⟨keep, rfl, le_refl _, by simp, Or.inl rfl⟩
  | cons a rest ih =>
    have ha : 0 < a := hpos a (by simp)
    obtain ⟨L, h1, h2, h3, h4⟩ :=
      ih (if a < keep then a else keep) (fun t ht => hpos t (by simp [ht]))
    refine ⟨L, ?_, ?_, ?_, ?_⟩
    · simp [checkpoint_active_loop, ha, h1]
    · split_ifs at h2 <;> omega
    · intro t ht
      rcases List.mem_cons.1 ht with rfl | ht
      · split_ifs at h2 <;> omega
      · exact h3 t ht
    · rcases h4 with h4 | h4
      · split_ifs at h4 with hc
        · exact Or.inr (by simp [h4])
        · exact Or.inl h4
      · exact Or.inr (by simp [h4])

/-- C6. Checkpoint keep bound. With every active transaction id positive
(the assertion in the loop), `checkpoint` hands to the journal trim an LSN
`L` that is the minimum of the next LSN, the active transaction ids, the
oldest dirty-buffer LSN reported by the buffer cache and the freemap's
`md_oldtnx` when that is non-zero: `L` is at most each of them and equal to
one of them. Hence every active id is at least `L`, and every dirty buffer
whose `md_oldtnx` the buffer cache's report bounds from below has
`md_oldtnx` at least `L`. -/
theorem checkpoint_keep_bound (peeknextlsn : Nat) (sfs_active_tnx : List Nat)
    (dirty_buf_lsn : Nat) (sfs_freemapdata : sfs_metadata) (dirty : List sfs_metadata)
    (hpos : ∀ t ∈ sfs_active_tnx, 0 < t)
    (hrep : ∀ b ∈ dirty, dirty_buf_lsn ≤ b.md_oldtnx) :
    ∃ L, checkpoint peeknextlsn sfs_active_tnx dirty_buf_lsn sfs_freemapdata = some L ∧
      L ≤ peeknextlsn ∧ (∀ t ∈ sfs_active_tnx, L ≤ t) ∧ L ≤ dirty_buf_lsn ∧
      (0 < sfs_freemapdata.md_oldtnx → L ≤ sfs_freemapdata.md_oldtnx) ∧
      (L = peeknextlsn ∨ L ∈ sfs_active_tnx ∨ L = dirty_buf_lsn ∨
        (0 < sfs_freemapdata.md_oldtnx ∧ L = sfs_freemapdata.md_oldtnx)) ∧
      (∀ b ∈ dirty, L ≤ b.md_oldtnx) := by
  obtain ⟨K, h1, h2, h3, h4⟩ := checkpoint_active_loop_spec sfs_active_tnx peeknextlsn hpos
  simp only [checkpoint, h1]
  refine ⟨_, rfl, ?_, ?_, ?_, ?_, ?_, ?_⟩
  · split_ifs <;> omega
  · intro t ht
    have := h3 t ht
    split_ifs <;> omega
  · split_ifs <;> omega
  · intro hf
    split_ifs <;> omega
  · split_ifs with c1 c2 c3
    · exact Or.inr (Or.inr (Or.inr ⟨c2.1, rfl⟩))
    · exact Or.inr (Or.inr (Or.inl rfl))
    · exact Or.inr (Or.inr (Or.inr ⟨c3.1, rfl⟩))
    · rcases h4 with h4 | h4
      · exact Or.inl h4
      · exact Or.inr (Or.inl h4)
  · intro b hb
    have := hrep b hb
    split_ifs <;> omega

theorem checkpoint_keep_bound_witness :
    (∀ t ∈ [12, 9], 0 < t) ∧
    (∀ b ∈ [({ md_oldtnx := 8, md_newtnx := 11 } : sfs_metadata)], 7 ≤ b.md_oldtnx) ∧
    ∃ L, checkpoint 20 [12, 9] 7 { md_oldtnx := 5, md_newtnx := 6 } = some L ∧
      L ≤ 20 ∧ (∀ t ∈ [12, 9], L ≤ t) ∧ L ≤ 7 ∧
      (0 < ({ md_oldtnx := 5, md_newtnx := 6 } : sfs_metadata).md_oldtnx →
        L ≤ ({ md_oldtnx := 5, md_newtnx := 6 } : sfs_metadata).md_oldtnx) ∧
      (L = 20 ∨ L ∈ [12, 9] ∨ L = 7 ∨
        (0 < ({ md_oldtnx := 5, md_newtnx := 6 } : sfs_metadata).md_oldtnx ∧
          L = ({ md_oldtnx := 5, md_newtnx := 6 } : sfs_metadata).md_oldtnx)) ∧
      (∀ b ∈ [({ md_oldtnx := 8, md_newtnx := 11 } : sfs_metadata)], L ≤ b.md_oldtnx) :=
  ⟨by decide, by decide,
    checkpoint_keep_bound 20 [12, 9] 7 { md_oldtnx := 5, md_newtnx := 6 }
      [{ md_oldtnx := 8, md_newtnx := 11 }] (by decide) (by decide)⟩

/-! ### Protected blocks -/

theorem is_block_protected_eq (pb : List protected_block) (l b : Nat) :
    is_block_protected pb l b =
      match pb_lookup pb b with
      | some x => decide (x > l)
      | none => false := by
  induction pb with
  | nil => rfl
  | cons p pb ih =>
    by_cases h : p.pb_block = b
    · by_cases h2 : p.pb_lsn > l <;> simp [is_block_protected, pb_lookup, h, h2]
    · simp [is_block_protected, pb_lookup, h, ih]

theorem is_block_in_array_eq (pb : List protected_block) (b : Nat) :
    is_block_in_array pb b = (pb_lookup pb b).isSome := by
  induction pb with
  | nil => rfl
  | cons p pb ih =>
    by_cases h : p.pb_block = b
    · simp [is_block_in_array, pb_lookup, h]
    · simp [is_block_in_array, pb_lookup, h, ih]

theorem pb_lookup_append (pb qb : List protected_block) (b : Nat) :
    pb_lookup (pb ++ qb) b =
      match pb_lookup pb b with
      | some x => some x
      | none => pb_lookup qb b := by
  induction pb with
  | nil => rfl
  | cons p pb ih =>
    by_cases h : p.pb_block = b
    · simp [pb_lookup, h]
    · simp [pb_lookup, h, ih]

theorem pb_lookup_add (pb : List protected_block) (l b c : Nat) :
    pb_lookup (add_protected_block pb l c) b =
      match pb_lookup pb b with
      | some x => some x
      | none => if c = b then some l else none := by
  unfold add_protected_block
  rw [is_block_in_array_eq]
  cases hc : pb_lookup pb c with
  | some y =>
    simp only [Option.isSome_some, if_true]
    cases hb : pb_lookup pb b with
    | some x => rfl
    | none =>
      by_cases hcb : c = b
      · rw [hcb, hb] at hc; cases hc
      · simp [hcb]
  | none =>
    simp only [Option.isSome_none, Bool.false_eq_true, if_false, pb_lookup_append, pb_lookup]

theorem check_step_lookup (b : Nat) (st : check_state) (e : jentry) :
    pb_lookup (check_step st e).protected_blocks b =
      match pb_lookup st.protected_blocks b with
      | some x => some x
      | none => if is_alloc_of b e = true then some e.lsn else none := by
  unfold check_step is_alloc_of
  cases hr : e.record
  case ALLOC_BLOCK d =>
    simp only [pb_lookup_add]
    cases pb_lookup st.protected_blocks b <;> simp
  case START_TRANSACTION d =>
    simp only
    cases find_tnx st.ended_tx d.le_tnx <;> cases pb_lookup st.protected_blocks b <;> simp
  all_goals
    simp only
    cases pb_lookup st.protected_blocks b <;> simp

theorem check_loop_lookup_none (b : Nat) (J : Journal)
    (h : ∀ x ∈ J, is_alloc_of b x = false) :
    pb_lookup (check_loop J).protected_blocks b = none := by
  induction J with
  | nil => rfl
  | cons e J ih =>
    rw [check_loop_cons, check_step_lookup, ih (fun x hx => h x (by simp [hx]))]
    simp [h e (by simp)]

theorem check_loop_lookup_some (b l : Nat) (pre J : Journal)
    (h : pb_lookup (check_loop J).protected_blocks b = some l) :
    pb_lookup (check_loop (pre ++ J)).protected_blocks b = some l := by
  induction pre with
  | nil => exact h
  | cons e pre ih =>
    rw [List.cons_append, check_loop_cons, check_step_lookup, ih]

/-- The check pass stores, for a block with an alloc-block record, the LSN
of the newest such record. -/
theorem check_pass_lookup (J : Journal) (b : Nat) (a : jentry) (ha : newest_alloc J b a) :
    pb_lookup (check_pass J).protected_blocks b = some a.lsn := by
  obtain ⟨pre, post, rfl, h1, h2⟩ := ha
  have : (check_pass (pre ++ a :: post)).protected_blocks =
      (check_loop (pre ++ a :: post)).protected_blocks := rfl
  rw [this]
  apply check_loop_lookup_some
  rw [check_loop_cons, check_step_lookup, check_loop_lookup_none b post h2]
  simp [h1]

/-- C3. Protected-block safety. Let `a` be the newest alloc-block record of
block `b` in the journal and let `e` be a record that names `b` as its
target (write-block, zero-block, change-block-object or an inode-field
record on inode block `b`) with an LSN lower than that of `a`. Then, with
the tables built by the check pass, the undo-pass step at `e` succeeds and
leaves the whole undo state as it was, and the redo-pass step at `e`
succeeds and leaves the volume as it was, from every state and for every
latest-writes table: `e` does not modify block `b` in either pass. -/
theorem protected_block_safety (ops : sfs_dirops) (J : Journal) (b : Nat) (a e : jentry)
    (ha : newest_alloc J b a) (ht : record_target e.record = some b)
    (hlsn : e.lsn < a.lsn) :
    (∀ st : undo_state,
      undo_step ops (check_pass J).protected_blocks (check_pass J).aborted_tx st e
        = some st) ∧
    (∀ (latest_writes : List protected_block) (sfs : sfs_fs),
      redo_step ops (check_pass J).protected_blocks latest_writes (check_pass J).aborted_tx
        sfs e = some sfs) := by
  have hp : is_block_protected (check_pass J).protected_blocks e.lsn b = true := by
    rw [is_block_protected_eq, check_pass_lookup J b a ha]
    simpa using hlsn
  constructor
  · intro st
    unfold undo_step
    cases hr : e.record <;> rw [hr] at ht <;> simp [record_target] at ht <;> subst ht <;>
      simp [process_journal_entry, parse_change_size, parse_change_link_cnt,
        parse_change_indirect_ptr, parse_change_direct_ptr, parse_change_ino_in_indirect,
        parse_change_block_obj, parse_change_inode_type, parse_zero_block, hp]
  · intro lw sfs
    unfold redo_step
    cases hr : e.record <;> rw [hr] at ht <;> simp [record_target] at ht <;> subst ht <;>
      simp [process_journal_entry, parse_change_size, parse_change_link_cnt,
        parse_change_indirect_ptr, parse_change_direct_ptr, parse_change_ino_in_indirect,
        parse_change_block_obj, parse_change_inode_type, parse_zero_block, hp]

theorem protected_block_safety_witness :
    newest_alloc realloc_journal 7 ⟨5, .ALLOC_BLOCK ⟨3, 7⟩⟩ ∧
    record_target (jrecord.CHANGE_BLOCK_OBJ ⟨1, 7, 0, 0, 9⟩) = some 7 ∧
    (2 : Nat) < 5 ∧
    ((∀ st : undo_state,
      undo_step no_dirops (check_pass realloc_journal).protected_blocks
        (check_pass realloc_journal).aborted_tx st ⟨2, .CHANGE_BLOCK_OBJ ⟨1, 7, 0, 0, 9⟩⟩
        = some st) ∧
    (∀ (latest_writes : List protected_block) (sfs : sfs_fs),
      redo_step no_dirops (check_pass realloc_journal).protected_blocks latest_writes
        (check_pass realloc_journal).aborted_tx sfs ⟨2, .CHANGE_BLOCK_OBJ ⟨1, 7, 0, 0, 9⟩⟩
        = some sfs)) :=
  ⟨⟨[⟨2, .CHANGE_BLOCK_OBJ ⟨1, 7, 0, 0, 9⟩⟩], [], rfl, by decide, by simp⟩, rfl, by decide,
    protected_block_safety no_dirops realloc_journal 7 ⟨5, .ALLOC_BLOCK ⟨3, 7⟩⟩
      ⟨2, .CHANGE_BLOCK_OBJ ⟨1, 7, 0, 0, 9⟩⟩
      ⟨[⟨2, .CHANGE_BLOCK_OBJ ⟨1, 7, 0, 0, 9⟩⟩], [], rfl, by decide, by simp⟩ rfl (by decide)⟩

/-! ### Running recovery twice -/

set_option maxRecDepth 100000 in
/-- What `as_copy` leaves on `fork_vm` when the allocation of the child's
second-level table fails: the result code, the owner, address and flags of
frame 2, and whether the child (handle 2) has a PTE for that address. -/
theorem as_copy_enomem_eval :
    (as_copy small_cfg fork_vm 1 2).toOption.map (fun r => (r.2, r.1.cm_num_pages))
      = some (ENOMEM, 4) ∧
    (as_copy small_cfg fork_vm 1 2).toOption.map (fun r => r.1.cm_entries 2)
      = some { cme_as := some 2, cme_vaddr := PAGE_SIZE, cme_swap_location := 0,
               cme_owner_cpu := some 0, cme_dirty := false, cme_tlb := false,
               cme_busy := true, cme_kernel := false, cme_kpage := false,
               cme_exists := true } ∧
    (as_copy small_cfg fork_vm 1 2).toOption.map (fun r => get_pte r.1 2 0 1) = some none := by
  refine ⟨by decide, by decide, by decide⟩

/-- C7, failing run. `fork_vm` satisfies the frame-ownership invariant. On it
`as_copy` obtains frame 2 for the child's copy of the page at `PAGE_SIZE`
and records the child as its owner; the allocation of the child's
second-level table then fails and `as_copy` returns `ENOMEM`. In the state
it leaves, the invariant does not hold: frame 2 exists, is not a kernel
page and is owned by (child, `PAGE_SIZE`), and the child has no PTE there. -/
theorem as_copy_error_breaks_ownership :
    frame_ownership small_cfg fork_vm ∧
    ∃ s1, as_copy small_cfg fork_vm 1 2 = .ok (s1, ENOMEM) ∧
      ¬ frame_ownership small_cfg s1 := by
  constructor
  · constructor
    · intro a pdi pti pte h hp
      simp only [get_pte, fork_vm, full_vm] at h
      split at h
      · cases h
      · rename_i asp hasp
        split at hasp
        · rename_i ha
          cases hasp
          simp only at h
          split at h
          · cases h
          · rename_i pde hpde
            split at hpde
            · rename_i hpdi
              cases hpde
              cases h
              by_cases hpti : pti = 1
              · subst ha hpdi hpti
                decide
              · simp [hpti, pgt_init] at hp
            · cases hpde
        · cases hasp
    · intro f a hf he hk ha
      have hf4 : f < 4 := hf
      interval_cases f
      · simp [fork_vm, kernel_cme, free_cme] at hk
      · refine ⟨present_pte 1, ?_, rfl, rfl⟩
        have : a = 1 := by
          simp [fork_vm, user_cme, free_cme] at ha
          exact ha.symm
        subst this
        decide
      · simp [fork_vm, free_cme] at ha
      · simp [fork_vm, free_cme] at ha
  · have key := as_copy_enomem_eval
    cases h : as_copy small_cfg fork_vm 1 2 with
    | error x => rw [h] at key; simp [Except.toOption] at key
    | ok r =>
      rw [h] at key
      simp only [Except.toOption, Option.map_some', Option.some.injEq, Prod.mk.injEq] at key
      obtain ⟨⟨k1, k6⟩, kc, k7⟩ := key
      refine ⟨r.1, ?_, ?_⟩
      · rw [← k1]
      · rintro ⟨-, h2⟩
        obtain ⟨pte, hpte, -, -⟩ := h2 2 2 (by rw [k6]; decide) (by rw [kc]) (by rw [kc])
          (by rw [kc])
        rw [kc] at hpte
        simp only at hpte
        have e1 : VADDR_TO_PT small_cfg PAGE_SIZE = 0 := by decide
        have e2 : VADDR_TO_PTE small_cfg PAGE_SIZE = 1 := by decide
        rw [e1, e2, k7] at hpte
        cases hpte

/-! ### Write protection -/

set_option maxRecDepth 100000 in
/-- C10 (counterexample). On `readonly_vm` the PTE of the page at
`PAGE_SIZE` is valid, absent, demand-zero and not writeable. A write fault
there returns 0, leaves the PTE present and writeable (the swap-in makes
every page it brings in writeable), and installs a valid, dirty TLB entry
for the page in slot `6 % 4 = 2`, where there was none. -/
theorem vm_fault_write_on_readonly_counterexample :
    get_pte readonly_vm 1 0 1 =
      some { pte_valid := true, pte_present := false, pte_writeable := false,
             pte_zeroed := true, pte_ppn := 0 } ∧
    tlb_probe small_cfg readonly_vm PAGE_SIZE = none ∧
    (vm_fault small_cfg readonly_vm VM_FAULT_WRITE PAGE_SIZE 6).toOption.map (fun r =>
      (r.2, get_pte r.1 1 0 1, r.1.tlb 2))
      = some (0, some (present_pte 1),
          { tlb_hi := PAGE_SIZE, tlb_ppn := 1, tlb_valid := true, tlb_dirty := true }) := by
  refine ⟨by decide, by decide, by decide⟩

/-! ### A successful write fault -/

theorem get_pte_of_as_table (s t : vm_state) (h : t.as_table = s.as_table) (a pdi pti : Nat) :
    get_pte t a pdi pti = get_pte s a pdi pti := by
  simp [get_pte, h]

theorem pte_release_ok (s t : vm_state) (rel : Option Nat) (h : pte_release s rel = .ok t) :
    t.as_table = s.as_table ∧ t.tlb = s.tlb ∧ t.ram = s.ram ∧ t.swap_data = s.swap_data ∧
    ∀ i, (t.cm_entries i).cme_busy = false ∧ (t.cm_entries i).cme_dirty = (s.cm_entries i).cme_dirty ∧
      (t.cm_entries i).cme_tlb = (s.cm_entries i).cme_tlb ∨ t.cm_entries i = s.cm_entries i := by
  unfold pte_release at h
  split at h
  · cases h
    exact ⟨rfl, rfl, rfl, rfl, fun i => Or.inr rfl⟩
  · rename_i p
    split at h
    · cases h
      refine ⟨rfl, rfl, rfl, rfl, fun i => ?_⟩
      by_cases hi : i = p
      · subst hi
        left
        simp [set_cme]
      · right
        simp [set_cme, Function.update_noteq hi]
    · cases h

theorem vm_fault_map_write (cfg : vm_config) (s : vm_state) (fa ppn rnd : Nat)
    (hp : tlb_probe cfg s fa = none) :
    (vm_fault_map cfg s VM_FAULT_WRITE fa ppn rnd).tlb (rnd % cfg.NUM_TLB) =
      { tlb_hi := fa, tlb_ppn := ppn, tlb_valid := true, tlb_dirty := true } ∧
    ((vm_fault_map cfg s VM_FAULT_WRITE fa ppn rnd).cm_entries ppn).cme_dirty = true ∧
    ((vm_fault_map cfg s VM_FAULT_WRITE fa ppn rnd).cm_entries ppn).cme_tlb = true ∧
    ((vm_fault_map cfg s VM_FAULT_WRITE fa ppn rnd).cm_entries ppn).cme_busy = false ∧
    (vm_fault_map cfg s VM_FAULT_WRITE fa ppn rnd).as_table = s.as_table := by
  have hw : decide (VM_FAULT_WRITE = VM_FAULT_WRITE ∨ VM_FAULT_WRITE = VM_FAULT_READONLY)
      = true := by decide
  have hd : ∀ (st : vm_state) (w : Bool), w = true →
      ((mark_dirty st ppn w).cm_entries ppn).cme_dirty = true := by
    intro st w hwt
    subst hwt
    unfold mark_dirty
    split
    · simp [set_cme]
    · rename_i hh
      simpa using hh
  have ha : ∀ (st : vm_state) (w : Bool), (mark_dirty st ppn w).as_table = st.as_table := by
    intro st w
    unfold mark_dirty
    split <;> rfl
  have he : (tlb_evict cfg s fa (rnd % cfg.NUM_TLB)).as_table = s.as_table := by
    unfold tlb_evict
    rw [hp]
    dsimp only
    split <;> rfl
  simp only [vm_fault_map, tlb_choose, hp]
  refine ⟨?_, ?_, ?_, ?_, ?_⟩
  · simp [set_cme, tlb_write, hw]
  · simp only [set_cme, tlb_write, Function.update_same]
    exact hd _ _ hw
  · simp [set_cme]
  · simp [set_cme]
  · simp only [set_cme, tlb_write]
    rw [ha, he]

theorem vm_fault_install_write (cfg : vm_config) (s s1 : vm_state) (a fa rnd : Nat)
    (rel : Option Nat) (hn : 0 < cfg.NUM_TLB)
    (h : vm_fault_install cfg s a VM_FAULT_WRITE fa rel rnd = .ok (s1, 0)) :
    ∃ pte index, get_pte s1 a (VADDR_TO_PT cfg fa) (VADDR_TO_PTE cfg fa) = some pte ∧
      pte.pte_present = true ∧ index < cfg.NUM_TLB ∧
      s1.tlb index =
        { tlb_hi := fa, tlb_ppn := pte.pte_ppn, tlb_valid := true, tlb_dirty := true } ∧
      (s1.cm_entries pte.pte_ppn).cme_dirty = true ∧
      (s1.cm_entries pte.pte_ppn).cme_tlb = true ∧
      (s1.cm_entries pte.pte_ppn).cme_busy = false := by
  unfold vm_fault_install at h
  split at h
  · cases h
  · rename_i pte hpte
    split at h
    · rename_i hpres
      dsimp only at h
      split at h
      · split at h
        · -- the write-protection exit returns `EFAULT`
          split at h
          · cases h
          · simp [EFAULT] at h
        · split at h
          · cases h
          · rename_i hw hprobe
            have hnone : tlb_probe cfg
                (set_cme s pte.pte_ppn { (s.cm_entries pte.pte_ppn) with cme_busy := true }) fa
                  = none := by
              cases hp : tlb_probe cfg
                (set_cme s pte.pte_ppn { (s.cm_entries pte.pte_ppn) with cme_busy := true }) fa
              · rfl
              · exfalso
                apply hprobe
                simp [hp, VM_FAULT_WRITE]
            split at h
            · cases h
            · rename_i s6 hrel
              simp only [Except.ok.injEq, Prod.mk.injEq, and_true] at h
              subst h
              obtain ⟨r1, r2, -, -, r5⟩ := pte_release_ok _ _ _ hrel
              obtain ⟨m1, m2, m3, m4, m5⟩ := vm_fault_map_write cfg _ fa pte.pte_ppn rnd hnone
              refine ⟨pte, rnd % cfg.NUM_TLB, ?_, hpres.1, Nat.mod_lt _ hn, ?_, ?_⟩
              · rw [get_pte_of_as_table _ _ r1, get_pte_of_as_table _ _ m5]
                exact hpte
              · rw [r2]
                exact m1
              · rcases r5 pte.pte_ppn with ⟨b1, b2, b3⟩ | b
                · exact ⟨b2.trans m2, b3.trans m3, b1⟩
                · rw [b]
                  exact ⟨m2, m3, m4⟩
      · cases h
    · cases h

/-- C9. After every `vm_fault(VM_FAULT_WRITE, v)` that returns 0 (on a
machine with at least one TLB slot), the PTE of the page of `v` in the
current address space is present, some TLB slot holds the entry for that
page with the PTE's frame number and the valid and dirty bits set, and the
coremap entry of that frame has `cme_dirty` = 1, `cme_tlb` = 1 and
`cme_busy` = 0. -/
theorem vm_fault_write_postcondition (cfg : vm_config) (s s1 : vm_state) (v rnd : Nat)
    (hn : 0 < cfg.NUM_TLB)
    (h : vm_fault cfg s VM_FAULT_WRITE v rnd = .ok (s1, 0)) :
    ∃ a pte index, s.curproc_as = some a ∧
      get_pte s1 a (VADDR_TO_PT cfg (PAGE_ALIGN v)) (VADDR_TO_PTE cfg (PAGE_ALIGN v))
        = some pte ∧
      pte.pte_present = true ∧ index < cfg.NUM_TLB ∧
      s1.tlb index =
        { tlb_hi := PAGE_ALIGN v, tlb_ppn := pte.pte_ppn, tlb_valid := true,
          tlb_dirty := true } ∧
      (s1.cm_entries pte.pte_ppn).cme_dirty = true ∧
      (s1.cm_entries pte.pte_ppn).cme_tlb = true ∧
      (s1.cm_entries pte.pte_ppn).cme_busy = false := by
  unfold vm_fault at h
  dsimp only at h
  split at h
  · cases h
  · rename_i a ha
    refine ⟨a, ?_⟩
    split at h
    · cases h
    · rename_i asp hasp
      split at h
      · simp [EINVAL] at h
      · split at h
        · simp [EFAULT] at h
        · split at h
          · cases h
          · rename_i s2 res htab
            split at h
            · rename_i hres
              simp only [Except.ok.injEq, Prod.mk.injEq] at h
              exact absurd h.2 hres
            · split at h
              · cases h
              · rename_i pte hpte
                split at h
                · cases h
                · rename_i s3 rel hacq
                  split at h
                  · split at h
                    · cases h
                    · rename_i s4 res2 hpf
                      split at h
                      · rename_i hres2
                        split at h
                        · cases h
                        · simp only [Except.ok.injEq, Prod.mk.injEq] at h
                          exact absurd h.2 hres2
                      · obtain ⟨pte1, index, q⟩ :=
                          vm_fault_install_write cfg _ _ a _ rnd rel hn h
                        exact ⟨pte1, index, ha, q⟩
                  · obtain ⟨pte1, index, q⟩ :=
                      vm_fault_install_write cfg _ _ a _ rnd rel hn h
                    exact ⟨pte1, index, ha, q⟩

/-- A run whose result code is known to be `c` returns `c` with the state
that the run leaves. -/
theorem except_ok_of_code {ε σ : Type} (r : Except ε (σ × Nat)) (d : σ) (c : Nat)
    (h : r.toOption.map (fun p => p.2) = some c) :
    r = .ok ((match r with
              | .ok p => p.1
              | .error _ => d), c) := by
  cases r with
  | error x => simp [Except.toOption] at h
  | ok p =>
    simp only [Except.toOption, Option.map_some', Option.some.injEq] at h
    cases p
    simp_all

set_option maxRecDepth 100000 in
theorem faulted_vm_eq :
    vm_fault small_cfg fork_vm VM_FAULT_WRITE PAGE_SIZE 6 = .ok (faulted_vm, 0) :=
  except_ok_of_code _ fork_vm 0 (by decide)

theorem vm_fault_write_postcondition_witness :
    0 < small_cfg.NUM_TLB ∧
    vm_fault small_cfg fork_vm VM_FAULT_WRITE PAGE_SIZE 6 = .ok (faulted_vm, 0) ∧
    ∃ a pte index, fork_vm.curproc_as = some a ∧
      get_pte faulted_vm a (VADDR_TO_PT small_cfg (PAGE_ALIGN PAGE_SIZE))
        (VADDR_TO_PTE small_cfg (PAGE_ALIGN PAGE_SIZE)) = some pte ∧
      pte.pte_present = true ∧ index < small_cfg.NUM_TLB ∧
      faulted_vm.tlb index =
        { tlb_hi := PAGE_ALIGN PAGE_SIZE, tlb_ppn := pte.pte_ppn, tlb_valid := true,
          tlb_dirty := true } ∧
      (faulted_vm.cm_entries pte.pte_ppn).cme_dirty = true ∧
      (faulted_vm.cm_entries pte.pte_ppn).cme_tlb = true ∧
      (faulted_vm.cm_entries pte.pte_ppn).cme_busy = false :=
  ⟨by decide, faulted_vm_eq,
    vm_fault_write_postcondition small_cfg fork_vm faulted_vm PAGE_SIZE 6 (by decide)
      faulted_vm_eq⟩

/-! ### Eviction and swap-in -/

theorem get_pte_set_pte_same (s : vm_state) (a pdi pti : Nat) (pte0 pte : pt_entry)
    (h : get_pte s a pdi pti = some pte0) :
    get_pte (set_pte s a pdi pti pte) a pdi pti = some pte := by
  unfold get_pte at h
  unfold set_pte
  cases ha : s.as_table a with
  | none => simp [ha] at h
  | some asp =>
    simp only [ha] at h ⊢
    cases hp : asp.as_pd pdi with
    | none => simp [hp] at h
    | some pde => simp [get_pte]

theorem get_pte_set_pte_ne (s : vm_state) (a pdi pti b qdi qti : Nat) (pte : pt_entry)
    (h : ¬ (b = a ∧ qdi = pdi ∧ qti = pti)) :
    get_pte (set_pte s a pdi pti pte) b qdi qti = get_pte s b qdi qti := by
  unfold set_pte
  cases ha : s.as_table a with
  | none => rfl
  | some asp =>
    simp only
    cases hp : asp.as_pd pdi with
    | none => rfl
    | some pde =>
      simp only [get_pte]
      by_cases hb : b = a
      · subst hb
        simp only [Function.update_same, ha]
        by_cases hq : qdi = pdi
        · subst hq
          simp only [Function.update_same, hp]
          have : qti ≠ pti := fun hc => h ⟨rfl, rfl, hc⟩
          simp [Function.update_noteq this]
        · simp [Function.update_noteq hq]
      · simp [Function.update_noteq hb]

theorem set_pte_twice (s : vm_state) (a pdi pti : Nat) (p1 p2 : pt_entry) :
    (set_pte (set_pte s a pdi pti p1) a pdi pti p2).as_table =
      (set_pte s a pdi pti p2).as_table := by
  unfold set_pte
  cases ha : s.as_table a with
  | none => simp [ha]
  | some asp =>
    simp only
    cases hp : asp.as_pd pdi with
    | none => simp [ha, hp]
    | some pde => simp [Function.update_idem]

theorem set_pte_congr (s t : vm_state) (h : t.as_table = s.as_table) (a pdi pti : Nat)
    (p : pt_entry) : (set_pte t a pdi pti p).as_table = (set_pte s a pdi pti p).as_table := by
  unfold set_pte
  rw [h]
  cases s.as_table a with
  | none => exact h
  | some asp =>
    simp only
    cases asp.as_pd pdi with
    | none => exact h
    | some pde => simp [h]

@[simp] theorem set_pte_swap_data (s : vm_state) (a pdi pti : Nat) (pte : pt_entry) :
    (set_pte s a pdi pti pte).swap_data = s.swap_data := by
  unfold set_pte
  split
  · rfl
  · split <;> rfl

@[simp] theorem set_pte_ram (s : vm_state) (a pdi pti : Nat) (pte : pt_entry) :
    (set_pte s a pdi pti pte).ram = s.ram := by
  unfold set_pte
  split
  · rfl
  · split <;> rfl

@[simp] theorem set_pte_cm_entries (s : vm_state) (a pdi pti : Nat) (pte : pt_entry) :
    (set_pte s a pdi pti pte).cm_entries = s.cm_entries := by
  unfold set_pte
  split
  · rfl
  · split <;> rfl

@[simp] theorem set_pte_cm_num_pages (s : vm_state) (a pdi pti : Nat) (pte : pt_entry) :
    (set_pte s a pdi pti pte).cm_num_pages = s.cm_num_pages := by
  unfold set_pte
  split
  · rfl
  · split <;> rfl

@[simp] theorem set_pte_curproc_as (s : vm_state) (a pdi pti : Nat) (pte : pt_entry) :
    (set_pte s a pdi pti pte).curproc_as = s.curproc_as := by
  unfold set_pte
  split
  · rfl
  · split <;> rfl

@[simp] theorem set_pte_cm_clock_head (s : vm_state) (a pdi pti : Nat) (pte : pt_entry) :
    (set_pte s a pdi pti pte).cm_clock_head = s.cm_clock_head := by
  unfold set_pte
  split
  · rfl
  · split <;> rfl

@[simp] theorem set_pte_curcpu (s : vm_state) (a pdi pti : Nat) (pte : pt_entry) :
    (set_pte s a pdi pti pte).curcpu = s.curcpu := by
  unfold set_pte
  split
  · rfl
  · split <;> rfl

@[simp] theorem set_pte_st_size (s : vm_state) (a pdi pti : Nat) (pte : pt_entry) :
    (set_pte s a pdi pti pte).st_size = s.st_size := by
  unfold set_pte
  split
  · rfl
  · split <;> rfl

@[simp] theorem set_pte_tlb (s : vm_state) (a pdi pti : Nat) (pte : pt_entry) :
    (set_pte s a pdi pti pte).tlb = s.tlb := by
  unfold set_pte
  split
  · rfl
  · split <;> rfl

theorem cme_same_but_tlb_refl (c : cm_entry) : cme_same_but_tlb c c :=
  ⟨rfl, rfl, rfl, rfl, rfl, rfl, rfl, rfl, rfl⟩

theorem vm_tlbshootdown_one_ok (cfg : vm_config) (s t : vm_state) (cpu : Option Nat)
    (va : Nat) (h : vm_tlbshootdown cfg s cpu va false = .ok t) :
    same_memory s t ∧ t.cm_clock_head = s.cm_clock_head ∧
    ∀ i, cme_same_but_tlb (t.cm_entries i) (s.cm_entries i) := by
  unfold vm_tlbshootdown at h
  split at h
  · cases h
    exact ⟨⟨rfl, rfl, rfl, rfl, rfl, rfl, rfl, rfl⟩, rfl, fun i => cme_same_but_tlb_refl _⟩
  · dsimp only at h
    simp only [Bool.false_eq_true, if_false] at h
    split at h
    · cases h
      exact ⟨⟨rfl, rfl, rfl, rfl, rfl, rfl, rfl, rfl⟩, rfl, fun i => cme_same_but_tlb_refl _⟩
    · split at h
      · cases h
        refine ⟨⟨rfl, rfl, rfl, rfl, rfl, rfl, rfl, rfl⟩, rfl, fun i => ?_⟩
        simp only [set_cme, tlb_write]
        rename_i index _ _
        by_cases hi : i = (s.tlb index).tlb_ppn
        · subst hi
          simp only [Function.update_same]
          exact ⟨rfl, rfl, rfl, rfl, rfl, rfl, rfl, rfl, rfl⟩
        · rw [Function.update_noteq hi]
          exact cme_same_but_tlb_refl _
      · cases h

theorem shootdown_frame_ok (cfg : vm_config) (s t : vm_state) (p : Nat)
    (h : shootdown_frame cfg s p = .ok t) :
    same_memory s t ∧ t.cm_clock_head = s.cm_clock_head ∧
    ∀ i, cme_same_but_tlb (t.cm_entries i) (s.cm_entries i) := by
  unfold shootdown_frame at h
  split at h
  · split at h
    · cases h
    · rename_i s1 hs1
      split at h
      · cases h
      · cases h
        exact vm_tlbshootdown_one_ok cfg s _ _ _ hs1
  · cases h
    exact ⟨⟨rfl, rfl, rfl, rfl, rfl, rfl, rfl, rfl⟩, rfl, fun i => cme_same_but_tlb_refl _⟩

theorem swap_find_free_ok (s t : vm_state) (L : Nat) (h : swap_find_free s = .ok (t, L)) :
    s.st_bitmap L = false ∧ t.as_table = s.as_table ∧ t.swap_data = s.swap_data ∧
    t.ram = s.ram ∧ t.cm_entries = s.cm_entries ∧ t.cm_num_pages = s.cm_num_pages ∧
    t.curproc_as = s.curproc_as ∧ t.cm_clock_head = s.cm_clock_head ∧ t.curcpu = s.curcpu := by
  unfold swap_find_free at h
  split at h
  · cases h
  · rename_i index hidx
    cases h
    refine ⟨?_, rfl, rfl, rfl, rfl, rfl, rfl, rfl, rfl⟩
    have := List.find?_some hidx
    simpa using this

theorem swap_write_ok (s t : vm_state) (p L : Nat) (h : swap_write s p L = .ok t) :
    t = { s with swap_data := Function.update s.swap_data L (s.ram p) } ∧ 0 < L := by
  unfold swap_write at h
  split at h
  · rename_i hc
    cases h
    exact ⟨rfl, hc.2.1⟩
  · cases h

/-- What `page_write_out` does to the memory: the frame's bytes go to a
non-zero slot `L`, which is the frame's old slot or a slot that was free;
a PTE changes only when a slot had to be found, and then only the
`pte_zeroed` bit of the owner's PTE. -/
theorem page_write_out_ok (cfg : vm_config) (s t : vm_state) (p : Nat)
    (h : page_write_out cfg s p = .ok t) :
    ∃ L, L ≠ 0 ∧ t.swap_data = Function.update s.swap_data L (s.ram p) ∧
      t.ram = s.ram ∧ t.curproc_as = s.curproc_as ∧ t.cm_num_pages = s.cm_num_pages ∧
      t.cm_clock_head = s.cm_clock_head ∧ t.curcpu = s.curcpu ∧
      (t.cm_entries p).cme_swap_location = L ∧
      (t.cm_entries p).cme_as = (s.cm_entries p).cme_as ∧
      (t.cm_entries p).cme_vaddr = (s.cm_entries p).cme_vaddr ∧
      (((s.cm_entries p).cme_swap_location = L ∧ t.as_table = s.as_table) ∨
       ((s.cm_entries p).cme_swap_location = 0 ∧ s.st_bitmap L = false ∧
        ∃ a pte, (s.cm_entries p).cme_as = some a ∧
          get_pte s a (VADDR_TO_PT cfg (s.cm_entries p).cme_vaddr)
            (VADDR_TO_PTE cfg (s.cm_entries p).cme_vaddr) = some pte ∧
          t.as_table = (set_pte s a (VADDR_TO_PT cfg (s.cm_entries p).cme_vaddr)
            (VADDR_TO_PTE cfg (s.cm_entries p).cme_vaddr)
            { pte with pte_zeroed := false }).as_table)) := by
  unfold page_write_out at h
  dsimp only at h
  split at h
  · split at h
    · cases h
    · rename_i s1 L hloc
      split at h
      · cases h
      · rename_i s2 hsw
        obtain ⟨hs2, hLpos⟩ := swap_write_ok _ _ _ _ hsw
        obtain ⟨⟨m1, m2, m3, -, -, m6, m7, m8⟩, m9, mc⟩ := shootdown_frame_ok cfg _ _ _ h
        have hcp := mc p
        simp only [set_cme, Function.update_same] at hcp
        obtain ⟨c1, c2, c3, -⟩ := hcp
        subst hs2
        simp only [set_cme] at m1 m2 m3 m6 m7 m8 m9 c1 c2 c3
        -- where the slot came from
        split at hloc
        · rename_i hzero
          split at hloc
          · cases hloc
          · rename_i a hown
            split at hloc
            · cases hloc
            · rename_i pte hpte
              split at hloc
              · cases hloc
              · rename_i s0 L0 hff
                obtain ⟨f1, f2, f3, f4, f5, f6, f7, f8, f9⟩ := swap_find_free_ok _ _ _ hff
                split at hloc
                · cases hloc
                · simp only [Except.ok.injEq, Prod.mk.injEq] at hloc
                  obtain ⟨rfl, rfl⟩ := hloc
                  simp only [set_pte_swap_data, set_pte_ram, set_pte_cm_entries,
                    set_pte_cm_num_pages, set_pte_curproc_as, set_pte_cm_clock_head,
                    set_pte_curcpu] at m2 m3 m6 m7 m8 m9 c1 c2
                  refine ⟨L0, by omega, ?_, m3.trans f4, m7.trans f7, m6.trans f6, m9.trans f8,
                    m8.trans f9, c3, ?_, ?_, Or.inr ⟨hzero, f1, a, pte, hown, hpte, ?_⟩⟩
                  · rw [m2, f3, f4]
                  · rw [c1, f5]
                  · rw [c2, f5]
                  · rw [m1]
                    exact set_pte_congr _ _ f2 _ _ _ _
        · simp only [Except.ok.injEq, Prod.mk.injEq] at hloc
          obtain ⟨rfl, rfl⟩ := hloc
          refine ⟨_, by omega, m2, m3, m7, m6, m9, m8, c3, c1, c2, Or.inl ⟨rfl, m1⟩⟩
  · cases h

theorem clock_advance_lt (s : vm_state) (h : s.cm_clock_head < s.cm_num_pages) :
    (clock_advance s).cm_clock_head < (clock_advance s).cm_num_pages := by
  unfold clock_advance
  dsimp only
  split <;> omega

theorem page_get_clean_loop_ok (n : Nat) (s t : vm_state) (r : Option Nat)
    (h : page_get_clean_loop n s = (t, r)) :
    same_memory s t ∧ t.cm_entries = s.cm_entries ∧
    (s.cm_clock_head < s.cm_num_pages → t.cm_clock_head < t.cm_num_pages) ∧
    ∀ c, r = some c → (s.cm_entries c).cme_as = none := by
  induction n generalizing s with
  | zero =>
    simp only [page_get_clean_loop, Prod.mk.injEq] at h
    obtain ⟨rfl, rfl⟩ := h
    exact ⟨⟨rfl, rfl, rfl, rfl, rfl, rfl, rfl, rfl⟩, rfl, id, by simp⟩
  | succ n ih =>
    simp only [page_get_clean_loop] at h
    split at h
    · rename_i hc
      simp only [Prod.mk.injEq] at h
      obtain ⟨rfl, rfl⟩ := h
      refine ⟨⟨rfl, rfl, rfl, rfl, rfl, rfl, rfl, rfl⟩, rfl, id, ?_⟩
      intro c hcc
      cases hcc
      exact hc.1
    · obtain ⟨⟨a1, a2, a3, a4, a5, a6, a7, a8⟩, b, c, d⟩ := ih (clock_advance s) h
      exact ⟨⟨a1, a2, a3, a4, a5, a6, a7, a8⟩, b, fun hh => c (clock_advance_lt s hh), d⟩

theorem page_get_victim_loop_ok (n : Nat) (s t : vm_state) (c : Nat)
    (h : page_get_victim_loop n s = .ok (t, c)) :
    same_memory s t ∧ t.cm_entries = s.cm_entries ∧
    (s.cm_clock_head < s.cm_num_pages → c < s.cm_num_pages) := by
  induction n generalizing s with
  | zero => simp [page_get_victim_loop] at h
  | succ n ih =>
    simp only [page_get_victim_loop] at h
    split at h
    · obtain ⟨⟨a1, a2, a3, a4, a5, a6, a7, a8⟩, b, d⟩ := ih (clock_advance s) h
      exact ⟨⟨a1, a2, a3, a4, a5, a6, a7, a8⟩, b, fun hh => d (clock_advance_lt s hh)⟩
    · simp only [Except.ok.injEq, Prod.mk.injEq] at h
      obtain ⟨rfl, rfl⟩ := h
      exact ⟨⟨rfl, rfl, rfl, rfl, rfl, rfl, rfl, rfl⟩, rfl, id⟩

/-- What `page_get_reclaim` does to the memory: the owner's PTE becomes
absent with the frame's non-zero swap slot as `pte_ppn`; swap and frame
contents stay. -/
theorem page_get_reclaim_ok (cfg : vm_config) (s t : vm_state) (c g : Nat)
    (h : page_get_reclaim cfg s c = .ok (t, g)) :
    g = c ∧ t.swap_data = s.swap_data ∧ t.ram = s.ram ∧ t.curproc_as = s.curproc_as ∧
    t.cm_num_pages = s.cm_num_pages ∧ t.curcpu = s.curcpu ∧
    (t.cm_entries c).cme_as = none ∧
    ∃ a pte, (s.cm_entries c).cme_as = some a ∧
      get_pte s a (VADDR_TO_PT cfg (s.cm_entries c).cme_vaddr)
        (VADDR_TO_PTE cfg (s.cm_entries c).cme_vaddr) = some pte ∧
      (s.cm_entries c).cme_swap_location ≠ 0 ∧
      t.as_table = (set_pte s a (VADDR_TO_PT cfg (s.cm_entries c).cme_vaddr)
        (VADDR_TO_PTE cfg (s.cm_entries c).cme_vaddr)
        { pte with pte_ppn := (s.cm_entries c).cme_swap_location,
                   pte_present := false }).as_table := by
  unfold page_get_reclaim at h
  dsimp only at h
  split at h
  · cases h
  · split at h
    · cases h
    · rename_i a hown
      split at h
      · cases h
      · split at h
        · cases h
        · rename_i s1 hsd
          obtain ⟨⟨m1, m2, m3, -, -, m6, m7, m8⟩, -, mc⟩ := shootdown_frame_ok cfg _ _ _ hsd
          obtain ⟨-, -, c3, -⟩ := mc c
          split at h
          · cases h
          · rename_i pte hpte
            split at h
            · cases h
            · rename_i hchk
              simp only [Except.ok.injEq, Prod.mk.injEq] at h
              obtain ⟨rfl, rfl⟩ := h
              rw [get_pte_of_as_table _ _ m1] at hpte
              refine ⟨rfl, ?_, ?_, ?_, ?_, ?_, ?_, a, pte, hown, hpte, ?_, ?_⟩
              · simp [set_cme, m2]
              · simp [set_cme, m3]
              · simp [set_cme, m7]
              · simp [set_cme, m6]
              · simp [set_cme, m8]
              · simp [set_cme]
              · rw [← c3]
                intro hz
                exact hchk (Or.inr hz)
              · simp only [set_cme]
                rw [c3]
                exact set_pte_congr _ _ m1 _ _ _ _

/-- What `page_get` does to the memory. Either the frame it returns was
free, and page tables and swap are untouched; or the frame had an owner,
its bytes are in a non-zero swap slot `L` (the frame's old slot, or a slot
that was free) and the owner's PTE is absent with `pte_ppn = L`. Frame
contents never change. -/
theorem page_get_ok (cfg : vm_config) (s t : vm_state) (ff : Bool) (g : Nat)
    (h : page_get cfg s ff = .ok (t, g)) :
    t.ram = s.ram ∧ t.curproc_as = s.curproc_as ∧ t.cm_num_pages = s.cm_num_pages ∧
    t.curcpu = s.curcpu ∧
    (((s.cm_entries g).cme_as = none ∧ t.as_table = s.as_table ∧
        t.swap_data = s.swap_data) ∨
      ∃ a pte L, (s.cm_entries g).cme_as = some a ∧
        get_pte s a (VADDR_TO_PT cfg (s.cm_entries g).cme_vaddr)
          (VADDR_TO_PTE cfg (s.cm_entries g).cme_vaddr) = some pte ∧
        L ≠ 0 ∧ (s.cm_clock_head < s.cm_num_pages → g < s.cm_num_pages) ∧
        ((s.cm_entries g).cme_swap_location = L ∨
          ((s.cm_entries g).cme_swap_location = 0 ∧ s.st_bitmap L = false)) ∧
        t.swap_data = Function.update s.swap_data L (s.ram g) ∧
        t.as_table = (set_pte s a (VADDR_TO_PT cfg (s.cm_entries g).cme_vaddr)
          (VADDR_TO_PTE cfg (s.cm_entries g).cme_vaddr)
          { pte with
            pte_zeroed :=
              if (s.cm_entries g).cme_swap_location = 0 then false else pte.pte_zeroed,
            pte_ppn := L, pte_present := false }).as_table) := by
  unfold page_get at h
  split at h
  · -- a free frame
    rename_i i hi
    simp only [Except.ok.injEq, Prod.mk.injEq] at h
    obtain ⟨rfl, rfl⟩ := h
    refine ⟨rfl, rfl, rfl, rfl, Or.inl ⟨?_, rfl, rfl⟩⟩
    have := List.find?_some hi
    simp only [Bool.and_eq_true, decide_eq_true_eq] at this
    exact this.1.1
  · split at h
    · -- the clean-frame search found a frame: it has no owner, so the reclaim panics
      rename_i s1 clean hcl
      obtain ⟨-, e, -, d⟩ := page_get_clean_loop_ok _ _ _ _ hcl
      obtain ⟨hg, -, -, -, -, -, -, a, pte, hown, -⟩ := page_get_reclaim_ok cfg _ _ _ _ h
      simp only [set_cme, Function.update_same] at hown
      rw [e, d clean rfl] at hown
      cases hown
    · rename_i s1 hcl
      obtain ⟨⟨a1, a2, a3, a4, a5, a6, a7, a8⟩, e1, hd1, -⟩ :=
        page_get_clean_loop_ok _ _ _ _ hcl
      split at h
      · cases h
      · rename_i s2 c hv
        obtain ⟨⟨b1, b2, b3, b4, b5, b6, b7, b8⟩, e2, hd2⟩ := page_get_victim_loop_ok _ _ _ _ hv
        split at h
        · cases h
        · rename_i s3 hw
          obtain ⟨L, hL, w2, w3, w4, w5, w6, w7, w8, w9, w10, w11⟩ :=
            page_write_out_ok cfg _ _ _ hw
          simp only [set_cme, Function.update_same] at w2 w3 w4 w5 w6 w7 w8 w9 w10 w11
          have ec : s2.cm_entries c = s.cm_entries c := by rw [e2, e1]
          rw [ec] at w9 w10 w11
          dsimp only at h
          -- the statistics update does not touch the memory
          have key : ∃ s4 : vm_state, s4.as_table = s3.as_table ∧
              s4.swap_data = s3.swap_data ∧ s4.ram = s3.ram ∧
              s4.curproc_as = s3.curproc_as ∧ s4.cm_num_pages = s3.cm_num_pages ∧
              s4.curcpu = s3.curcpu ∧ s4.cm_entries = s3.cm_entries ∧
              page_get_reclaim cfg s4 c = .ok (t, g) := by
            by_cases hff : ff = true
            · simp only [hff, if_true] at h
              refine ⟨_, ?_, ?_, ?_, ?_, ?_, ?_, ?_, h⟩ <;> rfl
            · simp only [hff, if_false] at h
              exact ⟨_, rfl, rfl, rfl, rfl, rfl, rfl, rfl, h⟩
          obtain ⟨s4, q1, q2, q3, q4, q5, q6, q7, hr⟩ := key
          clear h
          · obtain ⟨hg, r2, r3, r4, r5, r6, -, a, pte4, hown, hpte4, -, hat⟩ :=
              page_get_reclaim_ok cfg _ _ _ _ hr
            subst hg
            rw [q7] at hown hpte4 hat
            rw [w9] at hown
            rw [w10] at hpte4 hat
            rw [w8] at hat
            rw [get_pte_of_as_table _ _ q1] at hpte4
            refine ⟨by rw [r3, q3, w3, b3, a3], by rw [r4, q4, w4, b7, a7],
              by rw [r5, q5, w5, b6, a6], by rw [r6, q6, w7, b8, a8], Or.inr ?_⟩
            have hlt : s.cm_clock_head < s.cm_num_pages → g < s.cm_num_pages := by
              intro hh
              have := hd2 (hd1 hh)
              rw [a6] at this
              exact this
            have hsw : t.swap_data = Function.update s.swap_data L (s.ram g) := by
              rw [r2, q2, w2, b2, a2, b3, a3]
            rcases w11 with ⟨hsl, hat3⟩ | ⟨hsl, hbm, a', pte', hown', hpte', hat3⟩
            · -- the frame already had a slot
              have hat3' : s3.as_table = s.as_table := by
                rw [hat3, b1, a1]
              rw [get_pte_of_as_table _ _ hat3'] at hpte4
              refine ⟨a, pte4, L, hown, hpte4, hL, hlt, Or.inl hsl, hsw, ?_⟩
              rw [hat]
              have hne : ¬ (s.cm_entries g).cme_swap_location = 0 := by
                rw [hsl]; exact hL
              simp only [hne, if_false]
              exact set_pte_congr _ _ (q1.trans hat3') _ _ _ _
            · -- a slot was found for it
              rw [hown] at hown'
              cases hown'
              have hat0 : s2.as_table = s.as_table := by rw [b1, a1]
              have hpte'' : get_pte s a (VADDR_TO_PT cfg (s.cm_entries g).cme_vaddr)
                  (VADDR_TO_PTE cfg (s.cm_entries g).cme_vaddr) = some pte' := by
                rw [← hpte']
                refine (get_pte_of_as_table s _ ?_ _ _ _).symm
                exact hat0
              have hbm' : s.st_bitmap L = false := by
                rw [← a4, ← b4]; exact hbm
              have hat3' : s3.as_table = (set_pte s a
                  (VADDR_TO_PT cfg (s.cm_entries g).cme_vaddr)
                  (VADDR_TO_PTE cfg (s.cm_entries g).cme_vaddr)
                  { pte' with pte_zeroed := false }).as_table := by
                rw [hat3]
                refine set_pte_congr s _ ?_ _ _ _ _
                exact hat0
              rw [get_pte_of_as_table _ _ hat3', get_pte_set_pte_same _ _ _ _ _ _ hpte''] at hpte4
              cases hpte4
              refine ⟨a, pte', L, hown, hpte'', hL, hlt, Or.inr ⟨hsl, hbm'⟩, hsw, ?_⟩
              rw [hat, set_pte_congr _ _ (q1.trans hat3'), set_pte_twice]
              simp [hsl]

/-- The eviction half of the round trip: when `page_get` returns a frame
that was owned by `A` and whose PTE was valid and not demand-zero, that PTE
is afterwards valid, not demand-zero and absent, its `pte_ppn` is a
non-zero swap slot, and the slot holds the bytes the frame held. -/
theorem page_get_eviction (cfg : vm_config) (s0 s1 : vm_state) (ff : Bool) (f A : Nat)
    (pte0 : pt_entry)
    (hget : page_get cfg s0 ff = .ok (s1, f))
    (hown : (s0.cm_entries f).cme_as = some A)
    (hpte0 : get_pte s0 A (VADDR_TO_PT cfg (s0.cm_entries f).cme_vaddr)
      (VADDR_TO_PTE cfg (s0.cm_entries f).cme_vaddr) = some pte0)
    (hv : pte0.pte_valid = true) (hz : pte0.pte_zeroed = false) :
    ∃ pte1, get_pte s1 A (VADDR_TO_PT cfg (s0.cm_entries f).cme_vaddr)
        (VADDR_TO_PTE cfg (s0.cm_entries f).cme_vaddr) = some pte1 ∧
      pte1.pte_valid = true ∧ pte1.pte_zeroed = false ∧ pte1.pte_present = false ∧
      pte1.pte_ppn ≠ 0 ∧ s1.swap_data pte1.pte_ppn = s0.ram f := by
  obtain ⟨-, -, -, -, hcase⟩ := page_get_ok cfg s0 s1 ff f hget
  rcases hcase with ⟨hnone, -, -⟩ | ⟨a, pte, L, hown', hpte, hL, -, -, hsw, hat⟩
  · rw [hown] at hnone
    cases hnone
  · rw [hown] at hown'
    cases hown'
    rw [hpte0] at hpte
    cases hpte
    refine ⟨{ pte0 with
        pte_zeroed :=
          if (s0.cm_entries f).cme_swap_location = 0 then false else pte0.pte_zeroed,
        pte_ppn := L, pte_present := false }, ?_, hv, ?_, rfl, hL, ?_⟩
    · rw [get_pte_of_as_table _ _ hat]
      exact get_pte_set_pte_same _ _ _ _ _ _ hpte0
    · simp only
      split
      · rfl
      · exact hz
    · simp [hsw]

theorem vm_fault_map_memory (cfg : vm_config) (s : vm_state) (ft fa ppn rnd : Nat) :
    (vm_fault_map cfg s ft fa ppn rnd).as_table = s.as_table ∧
    (vm_fault_map cfg s ft fa ppn rnd).ram = s.ram := by
  have ha : ∀ (st : vm_state) (w : Bool), (mark_dirty st ppn w).as_table = st.as_table ∧
      (mark_dirty st ppn w).ram = st.ram := by
    intro st w
    unfold mark_dirty
    split <;> exact ⟨rfl, rfl⟩
  have he : ∀ i, (tlb_evict cfg s fa i).as_table = s.as_table ∧
      (tlb_evict cfg s fa i).ram = s.ram := by
    intro i
    unfold tlb_evict
    split
    · exact ⟨rfl, rfl⟩
    · split <;> exact ⟨rfl, rfl⟩
  simp only [vm_fault_map, set_cme, tlb_write]
  exact ⟨(ha _ _).1.trans (he _).1, (ha _ _).2.trans (he _).2⟩

theorem vm_fault_install_memory (cfg : vm_config) (s t : vm_state) (a ft fa rnd c : Nat)
    (rel : Option Nat) (h : vm_fault_install cfg s a ft fa rel rnd = .ok (t, c)) :
    t.as_table = s.as_table ∧ t.ram = s.ram := by
  unfold vm_fault_install at h
  split at h
  · cases h
  · split at h
    · dsimp only at h
      split at h
      · split at h
        · split at h
          · cases h
          · rename_i s2 hrel
            simp only [Except.ok.injEq, Prod.mk.injEq] at h
            obtain ⟨rfl, -⟩ := h
            obtain ⟨r1, -, r3, -⟩ := pte_release_ok _ _ _ hrel
            exact ⟨r1, r3⟩
        · split at h
          · cases h
          · split at h
            · cases h
            · rename_i s6 hrel
              simp only [Except.ok.injEq, Prod.mk.injEq] at h
              obtain ⟨rfl, -⟩ := h
              obtain ⟨r1, -, r3, -⟩ := pte_release_ok _ _ _ hrel
              obtain ⟨m1, m2⟩ := vm_fault_map_memory cfg
                (set_cme s _ _) ft fa _ rnd
              exact ⟨r1.trans m1, r3.trans m2⟩
      · cases h
    · cases h

/-- The swap-in half of the round trip, at `page_swapin`. -/
theorem page_swapin_reads_swap (cfg : vm_config) (s t : vm_state) (A fa c : Nat)
    (pte : pt_entry)
    (hcur : s.curproc_as = some A)
    (hpte : get_pte s A (VADDR_TO_PT cfg fa) (VADDR_TO_PTE cfg fa) = some pte)
    (hv : pte.pte_valid = true) (hz : pte.pte_zeroed = false) (hL : pte.pte_ppn ≠ 0)
    (hbm : s.st_bitmap pte.pte_ppn = true)
    (hslot : ∀ i, i < s.cm_num_pages → (s.cm_entries i).cme_swap_location ≠ pte.pte_ppn)
    (howner : ∀ i, i < s.cm_num_pages →
      ¬ ((s.cm_entries i).cme_as = some A ∧
        VADDR_TO_PT cfg (s.cm_entries i).cme_vaddr = VADDR_TO_PT cfg fa ∧
        VADDR_TO_PTE cfg (s.cm_entries i).cme_vaddr = VADDR_TO_PTE cfg fa))
    (hhead : s.cm_clock_head < s.cm_num_pages)
    (h : page_swapin cfg s fa = .ok (t, c)) :
    ∃ pte3, get_pte t A (VADDR_TO_PT cfg fa) (VADDR_TO_PTE cfg fa) = some pte3 ∧
      pte3.pte_present = true ∧ t.ram pte3.pte_ppn = s.swap_data pte.pte_ppn := by
  unfold page_swapin at h
  rw [hcur] at h
  dsimp only at h
  split at h
  · cases h
  · rename_i sg g hget
    obtain ⟨g1, g2, g3, g4, hcase⟩ := page_get_ok cfg s sg true g hget
    -- the PTE of the page and its swap slot survive `page_get`
    have keep : get_pte sg A (VADDR_TO_PT cfg fa) (VADDR_TO_PTE cfg fa) = some pte ∧
        sg.swap_data pte.pte_ppn = s.swap_data pte.pte_ppn := by
      rcases hcase with ⟨-, hat, hsw⟩ | ⟨a, pteg, L, hown, hpteg, hLg, hlt, hwhere, hsw, hat⟩
      · exact ⟨by rw [get_pte_of_as_table _ _ hat]; exact hpte, by rw [hsw]⟩
      · have hg := hlt hhead
        constructor
        · rw [get_pte_of_as_table _ _ hat, get_pte_set_pte_ne]
          · exact hpte
          · rintro ⟨rfl, e1, e2⟩
            exact howner g hg ⟨hown, e1.symm, e2.symm⟩
        · rw [hsw]
          have hne : pte.pte_ppn ≠ L := by
            rcases hwhere with hw | ⟨-, hw⟩
            · intro hc
              exact hslot g hg (hw.trans hc.symm)
            · intro hc
              rw [← hc, hbm] at hw
              cases hw
          simp [Function.update_noteq hne]
    obtain ⟨kp, ks⟩ := keep
    split at h
    · rw [kp] at h
      dsimp only at h
      have hsl : (if pte.pte_valid = true ∧ pte.pte_zeroed = false then pte.pte_ppn else 0)
          = pte.pte_ppn := by simp [hv, hz]
      rw [hsl] at h
      simp only [hL, ne_eq, not_false_eq_true, if_true] at h
      split at h
      · cases h
      · rename_i s2 hrd
        unfold swap_read at hrd
        split at hrd
        · cases hrd
          split at h
          · cases h
          · simp only [Except.ok.injEq, Prod.mk.injEq] at h
            obtain ⟨rfl, -⟩ := h
            refine ⟨pt_entry.mk true true true false g, ?_, rfl, ?_⟩
            · apply get_pte_set_pte_same _ _ _ _ pte
              simp only [set_cme]
              rw [← kp]
              exact get_pte_of_as_table _ _ rfl _ _ _
            · simp [set_cme, ks]
        · cases hrd
    · cases h

/-- The swap-in half of the round trip, at `vm_fault`: a fault that returns 0
on a page whose PTE is valid, not demand-zero and absent with the non-zero
swap slot `pte_ppn` leaves the PTE present on a frame that holds what the
slot held, provided the slot is marked used, no frame has it as its swap
location, no frame is recorded for the page, and the clock head is in
range. -/
theorem vm_fault_reads_swap (cfg : vm_config) (s t : vm_state) (A kind v rnd : Nat)
    (pte : pt_entry)
    (hcur : s.curproc_as = some A)
    (hpte : get_pte s A (VADDR_TO_PT cfg (PAGE_ALIGN v)) (VADDR_TO_PTE cfg (PAGE_ALIGN v))
      = some pte)
    (hv : pte.pte_valid = true) (hz : pte.pte_zeroed = false) (hp : pte.pte_present = false)
    (hL : pte.pte_ppn ≠ 0)
    (hbm : s.st_bitmap pte.pte_ppn = true)
    (hslot : ∀ i, i < s.cm_num_pages → (s.cm_entries i).cme_swap_location ≠ pte.pte_ppn)
    (howner : ∀ i, i < s.cm_num_pages →
      ¬ ((s.cm_entries i).cme_as = some A ∧
        VADDR_TO_PT cfg (s.cm_entries i).cme_vaddr = VADDR_TO_PT cfg (PAGE_ALIGN v) ∧
        VADDR_TO_PTE cfg (s.cm_entries i).cme_vaddr = VADDR_TO_PTE cfg (PAGE_ALIGN v)))
    (hhead : s.cm_clock_head < s.cm_num_pages)
    (h : vm_fault cfg s kind v rnd = .ok (t, 0)) :
    ∃ pte3, get_pte t A (VADDR_TO_PT cfg (PAGE_ALIGN v)) (VADDR_TO_PTE cfg (PAGE_ALIGN v))
        = some pte3 ∧
      pte3.pte_present = true ∧ t.ram pte3.pte_ppn = s.swap_data pte.pte_ppn := by
  unfold vm_fault at h
  dsimp only at h
  split at h
  · cases h
  · rename_i a ha
    have haA : a = A := by
      have e : s.curproc_as = some a := ha
      rw [hcur] at e
      exact (Option.some.inj e).symm
    subst haA
    split at h
    · cases h
    · rename_i asp hasp
      split at h
      · simp [EINVAL] at h
      · split at h
        · simp [EFAULT] at h
        · split at h
          · cases h
          · rename_i s2 res htab
            have hs2 : s2 = { s with k_vmstats :=
                { s.k_vmstats with vms_vm_faults := s.k_vmstats.vms_vm_faults + 1 } } ∧
                res = 0 := by
              have hasp' : s.as_table a = some asp := hasp
              unfold get_pte at hpte
              rw [hasp'] at hpte
              dsimp only at hpte
              cases hh : asp.as_pd (VADDR_TO_PT cfg (PAGE_ALIGN v)) with
              | none => rw [hh] at hpte; cases hpte
              | some pde =>
                rw [hh] at htab
                simp only [Except.ok.injEq, Prod.mk.injEq] at htab
                exact ⟨htab.1.symm, htab.2.symm⟩
            obtain ⟨rfl, rfl⟩ := hs2
            simp only [ne_eq, not_true_eq_false, if_false] at h
            split at h
            · cases h
            · rename_i pte' hpte'
              have e : get_pte s a (VADDR_TO_PT cfg (PAGE_ALIGN v))
                  (VADDR_TO_PTE cfg (PAGE_ALIGN v)) = some pte' := hpte'
              rw [hpte] at e
              cases e
              split at h
              · cases h
              · rename_i s3 rel hacq
                have hacq' : s3 = { s with k_vmstats :=
                    { s.k_vmstats with vms_vm_faults := s.k_vmstats.vms_vm_faults + 1 } } := by
                  unfold pte_acquire at hacq
                  simp only [hp, Bool.false_eq_true, if_false, Except.ok.injEq,
                    Prod.mk.injEq] at hacq
                  exact hacq.1.symm
                subst hacq'
                simp only [hp, true_or, if_true] at h
                split at h
                · cases h
                · rename_i s4 res hpf
                  split at h
                  · rename_i hres
                    split at h
                    · cases h
                    · simp only [Except.ok.injEq, Prod.mk.injEq] at h
                      exact absurd h.2 hres
                  · obtain ⟨i1, i2⟩ := vm_fault_install_memory cfg _ _ _ _ _ _ _ _ h
                    -- the page fault
                    unfold page_fault at hpf
                    dsimp only at hpf
                    split at hpf
                    · cases hpf
                    · rename_i b hb
                      have hbA : b = a := by
                        have e : s.curproc_as = some b := hb
                        rw [hcur] at e
                        exact (Option.some.inj e).symm
                      subst hbA
                      split at hpf
                      · cases hpf
                      · split at hpf
                        · cases hpf
                        · split at hpf
                          · cases hpf
                          · obtain ⟨pte3, q1, q2, q3⟩ :=
                              page_swapin_reads_swap cfg _ s4 b (PAGE_ALIGN v)
                                res pte (by exact hcur) (by exact hpte) hv hz hL (by exact hbm)
                                (by exact hslot) (by exact howner) (by exact hhead) hpf
                            refine ⟨pte3, ?_, q2, ?_⟩
                            · rw [get_pte_of_as_table _ _ i1]
                              exact q1
                            · rw [i2]
                              exact q3

/-- C8. Eviction round trip. Let the page of `v` in address space `A` be
resident in frame `f` (its PTE valid and not demand-zero), and let
`page_get` return `f`, so that `f` is taken from its owner. Then the PTE of
the page is absent with a non-zero swap slot as `pte_ppn`, and the slot
holds the bytes of `f`. If later, in a state where that PTE and the content
of that slot are as the eviction left them (no write to the page in
between), the slot is still marked used and is no frame's swap location, no
frame is recorded for the page and the clock head is in range, a `vm_fault`
on `v` in `A` returns 0, then the PTE is present and the frame it names
holds exactly the bytes `f` held before the eviction. -/
theorem eviction_round_trip (cfg : vm_config) (s0 s1 s2 s3 : vm_state) (ff : Bool)
    (f A kind v rnd : Nat) (pte0 : pt_entry)
    (hown : (s0.cm_entries f).cme_as = some A)
    (hva : (s0.cm_entries f).cme_vaddr = PAGE_ALIGN v)
    (hpte0 : get_pte s0 A (VADDR_TO_PT cfg (PAGE_ALIGN v)) (VADDR_TO_PTE cfg (PAGE_ALIGN v))
      = some pte0)
    (hv : pte0.pte_valid = true) (hz : pte0.pte_zeroed = false)
    (hget : page_get cfg s0 ff = .ok (s1, f))
    (hcur : s2.curproc_as = some A)
    (hpte : get_pte s2 A (VADDR_TO_PT cfg (PAGE_ALIGN v)) (VADDR_TO_PTE cfg (PAGE_ALIGN v)) =
      get_pte s1 A (VADDR_TO_PT cfg (PAGE_ALIGN v)) (VADDR_TO_PTE cfg (PAGE_ALIGN v)))
    (hswap : ∀ pte1,
      get_pte s1 A (VADDR_TO_PT cfg (PAGE_ALIGN v)) (VADDR_TO_PTE cfg (PAGE_ALIGN v))
        = some pte1 →
      s2.swap_data pte1.pte_ppn = s1.swap_data pte1.pte_ppn ∧
      s2.st_bitmap pte1.pte_ppn = true ∧
      ∀ i, i < s2.cm_num_pages → (s2.cm_entries i).cme_swap_location ≠ pte1.pte_ppn)
    (howner : ∀ i, i < s2.cm_num_pages →
      ¬ ((s2.cm_entries i).cme_as = some A ∧
        VADDR_TO_PT cfg (s2.cm_entries i).cme_vaddr = VADDR_TO_PT cfg (PAGE_ALIGN v) ∧
        VADDR_TO_PTE cfg (s2.cm_entries i).cme_vaddr = VADDR_TO_PTE cfg (PAGE_ALIGN v)))
    (hhead : s2.cm_clock_head < s2.cm_num_pages)
    (hfault : vm_fault cfg s2 kind v rnd = .ok (s3, 0)) :
    (∃ pte1, get_pte s1 A (VADDR_TO_PT cfg (PAGE_ALIGN v)) (VADDR_TO_PTE cfg (PAGE_ALIGN v))
        = some pte1 ∧
      pte1.pte_present = false ∧ pte1.pte_ppn ≠ 0 ∧ s1.swap_data pte1.pte_ppn = s0.ram f) ∧
    ∃ pte3, get_pte s3 A (VADDR_TO_PT cfg (PAGE_ALIGN v)) (VADDR_TO_PTE cfg (PAGE_ALIGN v))
        = some pte3 ∧
      pte3.pte_present = true ∧ s3.ram pte3.pte_ppn = s0.ram f := by
  rw [← hva] at hpte0
  obtain ⟨pte1, e1, e2, e3, e4, e5, e6⟩ :=
    page_get_eviction cfg s0 s1 ff f A pte0 hget hown hpte0 hv hz
  rw [hva] at e1
  refine ⟨⟨pte1, e1, e4, e5, e6⟩, ?_⟩
  obtain ⟨w1, w2, w3⟩ := hswap pte1 e1
  obtain ⟨pte3, q1, q2, q3⟩ := vm_fault_reads_swap cfg s2 s3 A kind v rnd pte1 hcur
    (hpte.trans e1) e2 e3 e4 e5 w2 w3 howner hhead hfault
  exact ⟨pte3, q1, q2, by rw [q3, w1, e6]⟩

set_option maxRecDepth 100000 in
theorem evicted_vm_eq : page_get small_cfg full_vm false = .ok (evicted_vm, 1) :=
  except_ok_of_code _ full_vm 1 (by decide)

set_option maxRecDepth 100000 in
theorem refaulted_vm_eq :
    vm_fault small_cfg evicted_vm VM_FAULT_READ PAGE_SIZE 7 = .ok (refaulted_vm, 0) :=
  except_ok_of_code _ evicted_vm 0 (by decide)

set_option maxRecDepth 100000 in
theorem evicted_vm_pte :
    get_pte evicted_vm 1 (VADDR_TO_PT small_cfg (PAGE_ALIGN PAGE_SIZE))
      (VADDR_TO_PTE small_cfg (PAGE_ALIGN PAGE_SIZE)) =
      some { pte_valid := true, pte_present := false, pte_writeable := true,
             pte_zeroed := false, pte_ppn := 1 } := by
  decide

set_option maxRecDepth 100000 in
theorem evicted_vm_slot (pte1 : pt_entry)
    (h : get_pte evicted_vm 1 (VADDR_TO_PT small_cfg (PAGE_ALIGN PAGE_SIZE))
      (VADDR_TO_PTE small_cfg (PAGE_ALIGN PAGE_SIZE)) = some pte1) :
    evicted_vm.swap_data pte1.pte_ppn = evicted_vm.swap_data pte1.pte_ppn ∧
    evicted_vm.st_bitmap pte1.pte_ppn = true ∧
    ∀ i, i < evicted_vm.cm_num_pages →
      (evicted_vm.cm_entries i).cme_swap_location ≠ pte1.pte_ppn := by
  rw [evicted_vm_pte] at h
  cases h
  exact ⟨rfl, by decide, by decide⟩

set_option maxRecDepth 100000 in
theorem eviction_round_trip_witness :
    (full_vm.cm_entries 1).cme_as = some 1 ∧
    (full_vm.cm_entries 1).cme_vaddr = PAGE_ALIGN PAGE_SIZE ∧
    get_pte full_vm 1 (VADDR_TO_PT small_cfg (PAGE_ALIGN PAGE_SIZE))
      (VADDR_TO_PTE small_cfg (PAGE_ALIGN PAGE_SIZE)) = some (present_pte 1) ∧
    page_get small_cfg full_vm false = .ok (evicted_vm, 1) ∧
    evicted_vm.curproc_as = some 1 ∧
    evicted_vm.cm_clock_head < evicted_vm.cm_num_pages ∧
    vm_fault small_cfg evicted_vm VM_FAULT_READ PAGE_SIZE 7 = .ok (refaulted_vm, 0) ∧
    ((∃ pte1, get_pte evicted_vm 1 (VADDR_TO_PT small_cfg (PAGE_ALIGN PAGE_SIZE))
        (VADDR_TO_PTE small_cfg (PAGE_ALIGN PAGE_SIZE)) = some pte1 ∧
      pte1.pte_present = false ∧ pte1.pte_ppn ≠ 0 ∧
      evicted_vm.swap_data pte1.pte_ppn = full_vm.ram 1) ∧
    ∃ pte3, get_pte refaulted_vm 1 (VADDR_TO_PT small_cfg (PAGE_ALIGN PAGE_SIZE))
        (VADDR_TO_PTE small_cfg (PAGE_ALIGN PAGE_SIZE)) = some pte3 ∧
      pte3.pte_present = true ∧ refaulted_vm.ram pte3.pte_ppn = full_vm.ram 1) :=
  ⟨by decide, by decide, by decide, evicted_vm_eq, by decide, by decide, refaulted_vm_eq,
    eviction_round_trip small_cfg full_vm evicted_vm evicted_vm refaulted_vm false 1 1
      VM_FAULT_READ PAGE_SIZE 7 (present_pte 1) (by decide) (by decide) (by decide) rfl rfl
      evicted_vm_eq (by decide) rfl evicted_vm_slot (by decide) (by decide) refaulted_vm_eq⟩

/-! ## Recovery as two folds over the journal -/

theorem build_record_plain (record_type tnx : Nat) (args : record_args)
    (h : plain_record_type record_type = true) :
    ∃ r, build_record record_type tnx args = some r := by
  simp only [plain_record_type, CHANGE_DIRENTRY, CHANGE_BLOCK_OBJ, decide_eq_true_eq] at h
  obtain ⟨h1, h2⟩ := h
  interval_cases record_type <;> exact ⟨_, rfl⟩

theorem write_record_plain (st : log_state) (record_type : Nat) (args : record_args)
    (alloc_ok : Bool) (hw : st.writermode = true) (ht : st.t_tnx ≠ 0)
    (h : plain_record_type record_type = true) :
    ∃ st1, write_record st record_type args alloc_ok = some st1 ∧
      st1.writermode = true ∧ st1.t_tnx = st.t_tnx ∧
      st1.sfs_active_tnx = st.sfs_active_tnx := by
  obtain ⟨r, hr⟩ := build_record_plain record_type st.t_tnx args h
  simp only [plain_record_type, CHANGE_DIRENTRY, CHANGE_BLOCK_OBJ, decide_eq_true_eq] at h
  have h3 : record_type ≠ START_TRANSACTION := by simp only [START_TRANSACTION]; omega
  have h4 : record_type ≠ ABORT_TRANSACTION := by simp only [ABORT_TRANSACTION]; omega
  have h5 : record_type ≠ END_TRANSACTION := by simp only [END_TRANSACTION]; omega
  refine ⟨sfs_jphys_write st r, ?_, hw, rfl, rfl⟩
  simp [write_record, hw, ht, h3, h4, h5, hr]

theorem write_records_plain (st : log_state) (mid : List (Nat × record_args))
    (hw : st.writermode = true) (ht : st.t_tnx ≠ 0)
    (h : ∀ x ∈ mid, plain_record_type x.1 = true) :
    ∃ st1, write_records st mid = some st1 ∧
      st1.writermode = true ∧ st1.t_tnx = st.t_tnx ∧
      st1.sfs_active_tnx = st.sfs_active_tnx := by
  induction mid generalizing st with
  | nil => exact ⟨st, rfl, hw, rfl, rfl⟩
  | cons x rest ih =>
    obtain ⟨st1, h1, hw1, ht1, ha1⟩ :=
      write_record_plain st x.1 x.2 true hw ht (h x (List.mem_cons_self _ _))
    obtain ⟨st2, h2, hw2, ht2, ha2⟩ :=
      ih st1 hw1 (by rw [ht1]; exact ht) (fun y hy => h y (List.mem_cons_of_mem _ hy))
    refine ⟨st2, ?_, hw2, ht2.trans ht1, ha2.trans ha1⟩
    obtain ⟨ty, args⟩ := x
    simp only [write_records]
    simp only at h1
    rw [h1]
    exact h2

theorem write_record_start (st : log_state) (args : record_args)
    (hw : st.writermode = true) :
    write_record st START_TRANSACTION args true =
      some (sfs_jphys_write
        { st with t_tnx := st.nextlsn, sfs_active_tnx := st.sfs_active_tnx ++ [st.nextlsn] }
        (.START_TRANSACTION ⟨st.nextlsn, args.words.getD 0 0⟩)) := by
  simp [write_record, hw, build_record, START_TRANSACTION, END_TRANSACTION, ABORT_TRANSACTION]

theorem write_record_finish (st : log_state) (end_type : Nat) (args : record_args)
    (alloc_ok : Bool) (hw : st.writermode = true) (ht : st.t_tnx ≠ 0)
    (he : end_type = END_TRANSACTION ∨ end_type = ABORT_TRANSACTION)
    (hm : st.t_tnx ∈ st.sfs_active_tnx) :
    ∃ st1, write_record st end_type args alloc_ok = some st1 ∧ st1.t_tnx = 0 ∧
      st1.sfs_active_tnx = st.sfs_active_tnx.erase st.t_tnx := by
  cases hf : find_tnx st.sfs_active_tnx st.t_tnx with
  | none => exact absurd hm ((find_tnx_none _ _).1 hf)
  | some indx =>
    have hx := find_tnx_some _ _ _ hf
    rcases he with he | he <;> subst he
    · refine ⟨{ sfs_jphys_write st (.END_TRANSACTION ⟨st.t_tnx, args.words.getD 0 0⟩) with
        sfs_active_tnx := st.sfs_active_tnx.eraseIdx indx, t_tnx := 0 }, ?_, rfl, hx⟩
      simp [write_record, hw, ht, build_record, sfs_jphys_write, hf, START_TRANSACTION,
        END_TRANSACTION, ABORT_TRANSACTION]
    · refine ⟨{ sfs_jphys_write st (.ABORT_TRANSACTION ⟨st.t_tnx, args.words.getD 0 0⟩) with
        sfs_active_tnx := st.sfs_active_tnx.eraseIdx indx, t_tnx := 0 }, ?_, rfl, hx⟩
      simp [write_record, hw, ht, build_record, sfs_jphys_write, hf, START_TRANSACTION,
        END_TRANSACTION, ABORT_TRANSACTION]

/-- C20: in writer mode, with a non-zero next LSN, `write_record` of a
start-transaction returns with the thread's transaction id set to the next
LSN and that id appended to the active list. After any further records of
the thread that are not start, end or abort, the id and the list are as the
start left them, and `write_record` of an end-transaction or an
abort-transaction then returns with the id reset to 0 and one occurrence of
the id removed from the list, which then holds the ids it held before the
start, each as often as before. -/
theorem transaction_bracket (st : log_state) (args0 args1 : record_args)
    (mid : List (Nat × record_args)) (end_type : Nat)
    (hw : st.writermode = true) (hl : st.nextlsn ≠ 0)
    (hmid : ∀ x ∈ mid, plain_record_type x.1 = true)
    (he : end_type = END_TRANSACTION ∨ end_type = ABORT_TRANSACTION) :
    ∃ st1 st2 st3,
      write_record st START_TRANSACTION args0 true = some st1 ∧
      st1.t_tnx = st.nextlsn ∧
      st1.sfs_active_tnx = st.sfs_active_tnx ++ [st.nextlsn] ∧
      write_records st1 mid = some st2 ∧
      st2.t_tnx = st.nextlsn ∧ st2.sfs_active_tnx = st1.sfs_active_tnx ∧
      write_record st2 end_type args1 true = some st3 ∧
      st3.t_tnx = 0 ∧
      st3.sfs_active_tnx = (st.sfs_active_tnx ++ [st.nextlsn]).erase st.nextlsn ∧
      st3.sfs_active_tnx.Perm st.sfs_active_tnx ∧
      (st.nextlsn ∉ st.sfs_active_tnx → st3.sfs_active_tnx = st.sfs_active_tnx) := by
  have h1 := write_record_start st args0 hw
  obtain ⟨st2, h2, hw2, ht2, ha2⟩ := write_records_plain _ mid
    (show (sfs_jphys_write
        { st with t_tnx := st.nextlsn, sfs_active_tnx := st.sfs_active_tnx ++ [st.nextlsn] }
        (.START_TRANSACTION ⟨st.nextlsn, args0.words.getD 0 0⟩)).writermode = true from hw)
    hl hmid
  have ht2a : st2.t_tnx = st.nextlsn := ht2
  have ha2a : st2.sfs_active_tnx = st.sfs_active_tnx ++ [st.nextlsn] := ha2
  obtain ⟨st3, h3, ht3, ha3⟩ := write_record_finish st2 end_type args1 true hw2
    (by rw [ht2a]; exact hl) he (by rw [ht2a, ha2a]; simp)
  rw [ht2a, ha2a] at ha3
  have hperm : ((st.sfs_active_tnx ++ [st.nextlsn]).erase st.nextlsn).Perm
      st.sfs_active_tnx := by
    have hp : (st.sfs_active_tnx ++ [st.nextlsn]).Perm (st.nextlsn :: st.sfs_active_tnx) :=
      List.perm_append_singleton _ _
    have := hp.erase st.nextlsn
    simpa using this
  refine ⟨_, st2, st3, h1, rfl, rfl, h2, ht2a, ha2, h3, ht3, ha3, ?_, ?_⟩
  · rw [ha3]
    exact hperm
  · intro hn
    rw [ha3, List.erase_append_right _ hn]
    simp

theorem transaction_bracket_witness :
    ∃ st1 st2 st3,
      write_record sample_log START_TRANSACTION ⟨[0], [], []⟩ true = some st1 ∧
      st1.t_tnx = 12 ∧ st1.sfs_active_tnx = [4, 9, 12] ∧
      write_records st1 [(CHANGE_SIZE, ⟨[7, 0, 300, 1], [], []⟩)] = some st2 ∧
      st2.t_tnx = 12 ∧ st2.sfs_active_tnx = st1.sfs_active_tnx ∧
      write_record st2 END_TRANSACTION ⟨[0], [], []⟩ true = some st3 ∧
      st3.t_tnx = 0 ∧ st3.sfs_active_tnx = ([4, 9] ++ [12]).erase 12 ∧
      st3.sfs_active_tnx.Perm [4, 9] ∧
      ((12 : Nat) ∉ [4, 9] → st3.sfs_active_tnx = [4, 9]) :=
  transaction_bracket sample_log ⟨[0], [], []⟩ ⟨[0], [], []⟩
    [(CHANGE_SIZE, ⟨[7, 0, 300, 1], [], []⟩)] END_TRANSACTION rfl (by decide) (by decide)
    (Or.inl rfl)

/-! ### Regions and unaligned addresses -/

set_option maxRecDepth 100000 in
/-- C19, failing run. `as_define_region` is asked for the two bytes at
`PAGE_SIZE + 4095` and `PAGE_SIZE + 4096`, which lie in the pages at
`PAGE_SIZE` and `2 * PAGE_SIZE`. It returns 0 with a valid PTE for the first
page and an invalid one for the second. -/
theorem as_define_region_unaligned_eval :
    (PAGE_SIZE + 4095 ≤ 2 * PAGE_SIZE ∧ 2 * PAGE_SIZE < PAGE_SIZE + 4095 + 2) ∧
    (VADDR_TO_PT small_cfg (2 * PAGE_SIZE) = 0 ∧ VADDR_TO_PTE small_cfg (2 * PAGE_SIZE) = 2) ∧
    (as_define_region small_cfg define_vm (some 1) (PAGE_SIZE + 4095) 2 1).toOption.map
      (fun r => (r.2, (get_pte r.1 1 0 1).map (fun pte => pte.pte_valid),
        (get_pte r.1 1 0 2).map (fun pte => pte.pte_valid)))
      = some (0, some true, some false) := by
  refine ⟨by decide, by decide, by decide⟩

/-! ### Fork of a demand-zero page -/

set_option maxRecDepth 100000 in
/-- C17, failing run. The parent's page at `PAGE_SIZE` is valid, absent and
demand-zero, and frames 1, 2 and 3 are free. `as_copy` returns 0; the
parent's PTE is then present in frame 1, the child's PTE is present and not
zeroed in frame 2, and both frames are owned. -/
theorem as_copy_demand_zero_eval :
    get_pte forkzero_vm 1 0 1 =
      some { pte_valid := true, pte_present := false, pte_writeable := false,
             pte_zeroed := true, pte_ppn := 0 } ∧
    ((forkzero_vm.cm_entries 1).cme_as = none ∧ (forkzero_vm.cm_entries 2).cme_as = none) ∧
    (as_copy small_cfg forkzero_vm 1 2).toOption.map (fun r =>
      (r.2, get_pte r.1 1 0 1, get_pte r.1 2 0 1))
      = some (0, some (present_pte 1), some (present_pte 2)) ∧
    (as_copy small_cfg forkzero_vm 1 2).toOption.map (fun r =>
      ((r.1.cm_entries 1).cme_as, (r.1.cm_entries 2).cme_as))
      = some (some 1, some 2) := by
  refine ⟨by decide, by decide, by decide, by decide⟩

/-! ### A fault on a page that was never defined -/

set_option maxRecDepth 100000 in
/-- C11, failing run. In `gap_vm` the page at `2 * PAGE_SIZE` lies in no
region, below the heap and below the stack, and its PTE is invalid in a
table that exists for its neighbours. A read fault there returns 0, makes
the PTE valid and present in frame 3, which was free, and records the
address space as the owner of the frame. -/
theorem vm_fault_undefined_page_eval :
    get_pte gap_vm 1 0 2 = some (pgt_init 0) ∧
    (gap_vm.cm_entries 3).cme_as = none ∧
    (vm_fault small_cfg gap_vm VM_FAULT_READ (2 * PAGE_SIZE) 5).toOption.map (fun r =>
      (r.2, get_pte r.1 1 0 2, (r.1.cm_entries 3).cme_as, (r.1.cm_entries 3).cme_vaddr))
      = some (0, some (present_pte 3), some 1, 2 * PAGE_SIZE) := by
  refine ⟨by decide, by decide, by decide⟩

/-! ### Growing the heap -/

set_option maxRecDepth 100000 in
/-- C15, failing run. On `fork_vm` the heap is empty and ends at
`2 * PAGE_SIZE`. `sys_sbrk(PAGE_SIZE)` returns 0 with the old break, and the
PTE of the new heap page is absent, demand-zero and writeable with frame
number 0, and not valid. -/
theorem sys_sbrk_grow_eval :
    (sys_sbrk small_cfg fork_vm PAGE_SIZE).toOption.map (fun r =>
      (r.2.1, r.2.2, get_pte r.1 1 0 2))
      = some (0, 2 * (PAGE_SIZE : Int),
          some { pte_valid := false, pte_present := false, pte_writeable := true,
                 pte_zeroed := true, pte_ppn := 0 }) := by
  decide

/-! ### The user-page reserve -/

set_option maxRecDepth 100000 in
/-- C12, failing run. In `tight_vm` two of the four frames are kernel pages
and `cm_num_kpages` is 2; three more kernel pages would leave -1 user
frames, less than `MIN_USER_PAGES = 1`. `alloc_kpages(3)` does not return:
the unsigned test lets the request pass, the scan finds no block, and the
eviction that follows panics in `swap_find_free`. -/
theorem alloc_kpages_negative_reserve_eval :
    tight_vm.cm_num_kpages = 2 ∧
    ((List.range tight_vm.cm_num_pages).filter
      (fun i => (tight_vm.cm_entries i).cme_kpage)).length = 2 ∧
    (tight_vm.cm_num_pages : Int) - (tight_vm.cm_num_kpages + 3) < small_kc.MIN_USER_PAGES ∧
    (match alloc_kpages small_cfg small_kc tight_vm 3 with
      | .error x => some x
      | .ok _ => none) = some vm_stop.panic := by
  refine ⟨by decide, by decide, by decide, by decide⟩

/-! ### What `page_get` does to the coremap -/

theorem cme_same_but_tlb_trans (c d e : cm_entry) (h1 : cme_same_but_tlb c d)
    (h2 : cme_same_but_tlb d e) : cme_same_but_tlb c e := by
  obtain ⟨a1, a2, a3, a4, a5, a6, a7, a8, a9⟩ := h1
  obtain ⟨b1, b2, b3, b4, b5, b6, b7, b8, b9⟩ := h2
  exact ⟨a1.trans b1, a2.trans b2, a3.trans b3, a4.trans b4, a5.trans b5, a6.trans b6,
    a7.trans b7, a8.trans b8, a9.trans b9⟩

theorem vm_tlbshootdown_one_counters (cfg : vm_config) (s t : vm_state) (cpu : Option Nat)
    (va : Nat) (h : vm_tlbshootdown cfg s cpu va false = .ok t) :
    t.cm_num_kpages = s.cm_num_kpages ∧ t.cm_num_dirty = s.cm_num_dirty ∧
    t.kmalloc_results = s.kmalloc_results := by
  unfold vm_tlbshootdown at h
  split at h
  · cases h
    exact ⟨rfl, rfl, rfl⟩
  · dsimp only at h
    simp only [Bool.false_eq_true, if_false] at h
    split at h
    · cases h
      exact ⟨rfl, rfl, rfl⟩
    · split at h
      · cases h
        exact ⟨rfl, rfl, rfl⟩
      · cases h

theorem shootdown_frame_counters (cfg : vm_config) (s t : vm_state) (p : Nat)
    (h : shootdown_frame cfg s p = .ok t) :
    t.cm_num_kpages = s.cm_num_kpages ∧ t.cm_num_dirty = s.cm_num_dirty ∧
    t.kmalloc_results = s.kmalloc_results := by
  unfold shootdown_frame at h
  split at h
  · split at h
    · cases h
    · rename_i s1 hs1
      split at h
      · cases h
      · cases h
        exact vm_tlbshootdown_one_counters cfg s _ _ _ hs1
  · cases h
    exact ⟨rfl, rfl, rfl⟩

theorem set_pte_cm_num_kpages (s : vm_state) (a pdi pti : Nat) (pte : pt_entry) :
    (set_pte s a pdi pti pte).cm_num_kpages = s.cm_num_kpages := by
  unfold set_pte
  split
  · rfl
  · split <;> rfl

theorem set_pte_kmalloc_results (s : vm_state) (a pdi pti : Nat) (pte : pt_entry) :
    (set_pte s a pdi pti pte).kmalloc_results = s.kmalloc_results := by
  unfold set_pte
  split
  · rfl
  · split <;> rfl

/-- What `page_write_out` does to the coremap: only the entry of the frame
changes, apart from `cme_tlb` bits, and in that entry only the slot, the
dirty bit and `cme_tlb`. -/
theorem page_write_out_coremap (cfg : vm_config) (s t : vm_state) (p : Nat)
    (h : page_write_out cfg s p = .ok t) :
    t.cm_num_kpages = s.cm_num_kpages ∧ t.kmalloc_results = s.kmalloc_results ∧
    (∀ i, i ≠ p → cme_same_but_tlb (t.cm_entries i) (s.cm_entries i)) ∧
    (t.cm_entries p).cme_busy = (s.cm_entries p).cme_busy ∧
    (t.cm_entries p).cme_kpage = (s.cm_entries p).cme_kpage ∧
    (t.cm_entries p).cme_kernel = (s.cm_entries p).cme_kernel ∧
    (t.cm_entries p).cme_exists = (s.cm_entries p).cme_exists ∧
    (t.cm_entries p).cme_owner_cpu = (s.cm_entries p).cme_owner_cpu := by
  unfold page_write_out at h
  dsimp only at h
  split at h
  · split at h
    · cases h
    · rename_i s1 L hloc
      split at h
      · cases h
      · rename_i s2 hsw
        obtain ⟨hs2, -⟩ := swap_write_ok _ _ _ _ hsw
        obtain ⟨-, -, mc⟩ := shootdown_frame_ok cfg _ _ _ h
        obtain ⟨k1, -, k3⟩ := shootdown_frame_counters cfg _ _ _ h
        subst hs2
        simp only [set_cme] at mc k1 k3
        have hs1 : s1.cm_entries = s.cm_entries ∧ s1.cm_num_kpages = s.cm_num_kpages ∧
            s1.kmalloc_results = s.kmalloc_results := by
          split at hloc
          · split at hloc
            · cases hloc
            · split at hloc
              · cases hloc
              · split at hloc
                · cases hloc
                · rename_i s0 L0 hff
                  have hff2 : s0.cm_entries = s.cm_entries ∧
                      s0.cm_num_kpages = s.cm_num_kpages ∧
                      s0.kmalloc_results = s.kmalloc_results := by
                    unfold swap_find_free at hff
                    split at hff
                    · cases hff
                    · cases hff
                      exact ⟨rfl, rfl, rfl⟩
                  split at hloc
                  · cases hloc
                  · simp only [Except.ok.injEq, Prod.mk.injEq] at hloc
                    obtain ⟨rfl, rfl⟩ := hloc
                    refine ⟨?_, ?_, ?_⟩
                    · rw [set_pte_cm_entries]; exact hff2.1
                    · rw [set_pte_cm_num_kpages]; exact hff2.2.1
                    · rw [set_pte_kmalloc_results]; exact hff2.2.2
          · simp only [Except.ok.injEq, Prod.mk.injEq] at hloc
            obtain ⟨rfl, rfl⟩ := hloc
            exact ⟨rfl, rfl, rfl⟩
        obtain ⟨e1, e2, e3⟩ := hs1
        refine ⟨k1.trans e2, k3.trans e3, fun i hi => ?_, ?_, ?_, ?_, ?_, ?_⟩
        · have := mc i
          rw [Function.update_noteq hi, e1] at this
          exact this
        all_goals
          have := mc p
          simp only [Function.update_same] at this
          obtain ⟨c1, c2, c3, c4, c5, c6, c7, c8, c9⟩ := this
          rw [e1] at c6 c7 c8 c9 c4
        · exact c6
        · exact c8
        · exact c7
        · exact c9
        · exact c4
  · cases h

theorem page_get_clean_loop_counters (n : Nat) (s t : vm_state) (r : Option Nat)
    (h : page_get_clean_loop n s = (t, r)) :
    t.cm_num_kpages = s.cm_num_kpages ∧ t.kmalloc_results = s.kmalloc_results := by
  induction n generalizing s with
  | zero =>
    simp only [page_get_clean_loop, Prod.mk.injEq] at h
    obtain ⟨rfl, rfl⟩ := h
    exact ⟨rfl, rfl⟩
  | succ n ih =>
    simp only [page_get_clean_loop] at h
    split at h
    · simp only [Prod.mk.injEq] at h
      obtain ⟨rfl, rfl⟩ := h
      exact ⟨rfl, rfl⟩
    · exact ih (clock_advance s) h

theorem page_get_victim_loop_counters (n : Nat) (s t : vm_state) (c : Nat)
    (h : page_get_victim_loop n s = .ok (t, c)) :
    t.cm_num_kpages = s.cm_num_kpages ∧ t.kmalloc_results = s.kmalloc_results ∧
    (s.cm_entries c).cme_kpage = false ∧ (s.cm_entries c).cme_busy = false := by
  induction n generalizing s with
  | zero => simp [page_get_victim_loop] at h
  | succ n ih =>
    simp only [page_get_victim_loop] at h
    split at h
    · exact ih (clock_advance s) h
    · rename_i hc
      simp only [Except.ok.injEq, Prod.mk.injEq] at h
      obtain ⟨rfl, rfl⟩ := h
      simp only [clock_advance, not_or, Bool.not_eq_true] at hc
      exact ⟨rfl, rfl, hc.1, hc.2⟩

/-- What `page_get_reclaim` does to the coremap: the entry of the frame is
wiped but for its busy bit; the others keep all but `cme_tlb`. -/
theorem page_get_reclaim_coremap (cfg : vm_config) (s t : vm_state) (c g : Nat)
    (h : page_get_reclaim cfg s c = .ok (t, g)) :
    t.cm_num_kpages = s.cm_num_kpages ∧ t.kmalloc_results = s.kmalloc_results ∧
    (∀ i, i ≠ c → cme_same_but_tlb (t.cm_entries i) (s.cm_entries i)) ∧
    t.cm_entries c =
      { cme_as := none, cme_vaddr := 0, cme_swap_location := 0, cme_owner_cpu := none,
        cme_dirty := false, cme_tlb := false, cme_busy := (s.cm_entries c).cme_busy,
        cme_kernel := false, cme_kpage := false, cme_exists := true } := by
  unfold page_get_reclaim at h
  dsimp only at h
  split at h
  · cases h
  · split at h
    · cases h
    · split at h
      · cases h
      · split at h
        · cases h
        · rename_i s1 hsd
          obtain ⟨-, -, mc⟩ := shootdown_frame_ok cfg _ _ _ hsd
          obtain ⟨k1, -, k3⟩ := shootdown_frame_counters cfg _ _ _ hsd
          split at h
          · cases h
          · split at h
            · cases h
            · simp only [Except.ok.injEq, Prod.mk.injEq] at h
              obtain ⟨rfl, rfl⟩ := h
              refine ⟨?_, ?_, fun i hi => ?_, ?_⟩
              · simp only [set_cme]
                rw [set_pte_cm_num_kpages]
                exact k1
              · simp only [set_cme]
                rw [set_pte_kmalloc_results]
                exact k3
              · simp only [set_cme, set_pte_cm_entries]
                rw [Function.update_noteq hi]
                exact mc i
              · simp only [set_cme, set_pte_cm_entries, Function.update_same]
                obtain ⟨-, -, -, -, -, c6, -⟩ := mc c
                rw [c6]

/-- What `page_get` does to the coremap. The frame it returns was neither
a kernel page nor busy. If it was free it lies below `cm_num_pages` and
only its busy bit changes; if it had an owner its entry is wiped, with the
busy bit set. Every other entry keeps all but `cme_tlb`. -/
theorem page_get_coremap (cfg : vm_config) (s t : vm_state) (ff : Bool) (g : Nat)
    (h : page_get cfg s ff = .ok (t, g)) :
    (s.cm_entries g).cme_kpage = false ∧ (s.cm_entries g).cme_busy = false ∧
    t.cm_num_kpages = s.cm_num_kpages ∧ t.kmalloc_results = s.kmalloc_results ∧
    (∀ i, i ≠ g → cme_same_but_tlb (t.cm_entries i) (s.cm_entries i)) ∧
    (((s.cm_entries g).cme_as = none ∧ g < s.cm_num_pages ∧
        t.cm_entries g = { (s.cm_entries g) with cme_busy := true }) ∨
      ((s.cm_entries g).cme_as ≠ none ∧
        t.cm_entries g =
          { cme_as := none, cme_vaddr := 0, cme_swap_location := 0, cme_owner_cpu := none,
            cme_dirty := false, cme_tlb := false, cme_busy := true, cme_kernel := false,
            cme_kpage := false, cme_exists := true })) := by
  unfold page_get at h
  split at h
  · -- a free frame
    rename_i i hi
    simp only [Except.ok.injEq, Prod.mk.injEq] at h
    obtain ⟨rfl, rfl⟩ := h
    have hp := List.find?_some hi
    have hm := List.mem_of_find?_eq_some hi
    simp only [Bool.and_eq_true, decide_eq_true_eq, Bool.not_eq_true'] at hp
    simp only [List.mem_range] at hm
    refine ⟨hp.1.2, hp.2, rfl, rfl, fun j hj => ?_, Or.inl ⟨hp.1.1, hm, ?_⟩⟩
    · simp only [set_cme]
      rw [Function.update_noteq hj]
      exact cme_same_but_tlb_refl _
    · simp [set_cme]
  · split at h
    · -- the clean-frame search found a frame: it has no owner, so the reclaim panics
      rename_i s1 clean hcl
      obtain ⟨-, e, -, d⟩ := page_get_clean_loop_ok _ _ _ _ hcl
      obtain ⟨hg, -, -, -, -, -, -, a, pte, hown, -⟩ := page_get_reclaim_ok cfg _ _ _ _ h
      simp only [set_cme, Function.update_same] at hown
      rw [e, d clean rfl] at hown
      cases hown
    · rename_i s1 hcl
      obtain ⟨-, e1, -, -⟩ := page_get_clean_loop_ok _ _ _ _ hcl
      obtain ⟨k1, k1'⟩ := page_get_clean_loop_counters _ _ _ _ hcl
      split at h
      · cases h
      · rename_i s2 c hv
        obtain ⟨-, e2, -⟩ := page_get_victim_loop_ok _ _ _ _ hv
        obtain ⟨k2, k2', v1, v2⟩ := page_get_victim_loop_counters _ _ _ _ hv
        split at h
        · cases h
        · rename_i s3 hw
          obtain ⟨w1, w1', w2, w3, w4, w5, w6, w7⟩ := page_write_out_coremap cfg _ _ _ hw
          obtain ⟨-, -, -, -, -, -, -, -, -, w9, -⟩ := page_write_out_ok cfg _ _ _ hw
          simp only [set_cme, Function.update_same] at w1 w1' w2 w3 w4 w5 w6 w7 w9
          dsimp only at h
          have key : ∃ s4 : vm_state, s4.cm_entries = s3.cm_entries ∧
              s4.cm_num_kpages = s3.cm_num_kpages ∧
              s4.kmalloc_results = s3.kmalloc_results ∧
              page_get_reclaim cfg s4 c = .ok (t, g) := by
            by_cases hff : ff = true
            · simp only [hff, if_true] at h
              refine ⟨_, ?_, ?_, ?_, h⟩ <;> rfl
            · simp only [hff, if_false] at h
              exact ⟨_, rfl, rfl, rfl, h⟩
          obtain ⟨s4, q1, q2, q3, hr⟩ := key
          clear h
          obtain ⟨hg, -, -, -, -, -, -, a, -, hown, -⟩ := page_get_reclaim_ok cfg _ _ _ _ hr
          obtain ⟨r1, r1', r2, r3⟩ := page_get_reclaim_coremap cfg _ _ _ _ hr
          subst hg
          have ec : s2.cm_entries = s.cm_entries := by rw [e2, e1]
          rw [e1] at v1 v2
          rw [q1, w9, ec] at hown
          refine ⟨v1, v2, ?_, ?_, fun i hi => ?_, Or.inr ⟨by rw [hown]; simp, ?_⟩⟩
          · rw [r1, q2, w1, k2, k1]
          · rw [r1', q3, w1', k2', k1']
          · have h1 := r2 i hi
            rw [q1] at h1
            have h2 := w2 i hi
            rw [Function.update_noteq hi, ec] at h2
            exact cme_same_but_tlb_trans _ _ _ h1 h2
          · rw [r3, q1, w3]

/-! ### The frame `page_get` hands out -/

/-- C14: in a coremap whose frames below `cm_num_pages` all exist, the
frame `p` that `page_get` returns is afterwards marked busy, has no owner,
is not a kernel page and exists; and if it had an owner `A` before the
call, the PTE of `A` at the frame's recorded address is afterwards absent
and its `pte_ppn` is a non-zero swap slot that holds the bytes of the
frame. -/
theorem page_get_postcondition (cfg : vm_config) (s s1 : vm_state) (from_page_fault : Bool)
    (p : Nat) (hex : ∀ i, i < s.cm_num_pages → (s.cm_entries i).cme_exists = true)
    (h : page_get cfg s from_page_fault = .ok (s1, p)) :
    (s1.cm_entries p).cme_busy = true ∧ (s1.cm_entries p).cme_as = none ∧
    (s1.cm_entries p).cme_kpage = false ∧ (s1.cm_entries p).cme_exists = true ∧
    ∀ A, (s.cm_entries p).cme_as = some A →
      ∃ pte, get_pte s1 A (VADDR_TO_PT cfg (s.cm_entries p).cme_vaddr)
          (VADDR_TO_PTE cfg (s.cm_entries p).cme_vaddr) = some pte ∧
        pte.pte_present = false ∧ pte.pte_ppn ≠ 0 ∧
        s1.swap_data pte.pte_ppn = s.ram p ∧ s1.ram p = s.ram p := by
  obtain ⟨hk, hb, -, -, -, hcase⟩ := page_get_coremap cfg s s1 from_page_fault p h
  obtain ⟨hram, -, -, -, hmem⟩ := page_get_ok cfg s s1 from_page_fault p h
  have hfront : (s1.cm_entries p).cme_busy = true ∧ (s1.cm_entries p).cme_as = none ∧
      (s1.cm_entries p).cme_kpage = false ∧ (s1.cm_entries p).cme_exists = true := by
    rcases hcase with ⟨hnone, hlt, he⟩ | ⟨-, he⟩
    · rw [he]
      exact ⟨rfl, hnone, hk, hex p hlt⟩
    · rw [he]
      exact ⟨rfl, rfl, rfl, rfl⟩
  refine ⟨hfront.1, hfront.2.1, hfront.2.2.1, hfront.2.2.2, fun A hA => ?_⟩
  rcases hmem with ⟨hnone, -, -⟩ | ⟨a, pte, L, hown, hpte, hL, -, -, hsw, hat⟩
  · rw [hA] at hnone
    cases hnone
  · rw [hA] at hown
    cases hown
    have hnew : get_pte s1 A (VADDR_TO_PT cfg (s.cm_entries p).cme_vaddr)
        (VADDR_TO_PTE cfg (s.cm_entries p).cme_vaddr) =
        some { pte with
          pte_zeroed := if (s.cm_entries p).cme_swap_location = 0 then false else pte.pte_zeroed,
          pte_ppn := L, pte_present := false } := by
      rw [get_pte_of_as_table _ _ hat]
      exact get_pte_set_pte_same _ _ _ _ _ _ hpte
    refine ⟨_, hnew, rfl, hL, ?_, by rw [hram]⟩
    simp [hsw]

set_option maxRecDepth 100000 in
theorem page_get_postcondition_witness :
    (full_vm.cm_entries 1).cme_as = some 1 ∧
    (evicted_vm.cm_entries 1).cme_busy = true ∧ (evicted_vm.cm_entries 1).cme_as = none ∧
    (evicted_vm.cm_entries 1).cme_kpage = false ∧ (evicted_vm.cm_entries 1).cme_exists = true ∧
    ∀ A, (full_vm.cm_entries 1).cme_as = some A →
      ∃ pte, get_pte evicted_vm A (VADDR_TO_PT small_cfg (full_vm.cm_entries 1).cme_vaddr)
          (VADDR_TO_PTE small_cfg (full_vm.cm_entries 1).cme_vaddr) = some pte ∧
        pte.pte_present = false ∧ pte.pte_ppn ≠ 0 ∧
        evicted_vm.swap_data pte.pte_ppn = full_vm.ram 1 ∧
        evicted_vm.ram 1 = full_vm.ram 1 :=
  ⟨by decide,
    page_get_postcondition small_cfg full_vm evicted_vm false 1 (by decide) evicted_vm_eq⟩

/-! ### Kernel blocks: allocation and release -/

theorem kernel_runs_wf_of_flags (s t : vm_state) (hwf : kernel_runs_wf s)
    (h : ∀ i, (t.cm_entries i).cme_kpage = (s.cm_entries i).cme_kpage ∧
      ((t.cm_entries i).cme_kernel = true → (s.cm_entries i).cme_kernel = true)) :
    kernel_runs_wf t := by
  intro i hk hi
  rw [(h i).1] at hk
  obtain ⟨h0, h1⟩ := hwf i hk ((h i).2 hi)
  exact ⟨h0, by rw [(h (i - 1)).1]; exact h1⟩

/-- After a `page_get` that returned `g`, with the busy bit of `g` set to
`b`: the kernel flags of the coremap. -/
theorem page_get_kflags (cfg : vm_config) (s t : vm_state) (ff : Bool) (g : Nat) (b : Bool)
    (h : page_get cfg s ff = .ok (t, g)) :
    (set_cme t g { (t.cm_entries g) with cme_busy := b }).cm_num_kpages = s.cm_num_kpages ∧
    ((set_cme t g { (t.cm_entries g) with cme_busy := b }).cm_entries g).cme_kpage = false ∧
    ∀ i, ((set_cme t g { (t.cm_entries g) with cme_busy := b }).cm_entries i).cme_kpage =
        (s.cm_entries i).cme_kpage ∧
      (((set_cme t g { (t.cm_entries g) with cme_busy := b }).cm_entries i).cme_kernel = true →
        (s.cm_entries i).cme_kernel = true) := by
  obtain ⟨hk, -, hn, -, hoth, hcase⟩ := page_get_coremap cfg s t ff g h
  have hg : (t.cm_entries g).cme_kpage = false ∧
      ((t.cm_entries g).cme_kernel = true → (s.cm_entries g).cme_kernel = true) := by
    rcases hcase with ⟨-, -, he⟩ | ⟨-, he⟩
    · rw [he]
      exact ⟨hk, id⟩
    · rw [he]
      exact ⟨rfl, by simp⟩
  refine ⟨hn, ?_, fun i => ?_⟩
  · simp only [set_cme, Function.update_same]
    exact hg.1
  · by_cases hi : i = g
    · subst hi
      simp only [set_cme, Function.update_same]
      exact ⟨hg.1.trans hk.symm, hg.2⟩
    · simp only [set_cme]
      rw [Function.update_noteq hi]
      obtain ⟨-, -, -, -, -, -, c7, c8, -⟩ := hoth i hi
      exact ⟨c8, by rw [c7]; exact id⟩

theorem alloc_evict_loop_kflags (cfg : vm_config) (n : Nat) (s t : vm_state)
    (h : alloc_evict_loop cfg n s = .ok t) :
    t.cm_num_kpages = s.cm_num_kpages ∧
    ∀ i, (t.cm_entries i).cme_kpage = (s.cm_entries i).cme_kpage ∧
      ((t.cm_entries i).cme_kernel = true → (s.cm_entries i).cme_kernel = true) := by
  induction n generalizing s with
  | zero =>
    simp only [alloc_evict_loop, Except.ok.injEq] at h
    subst h
    exact ⟨rfl, fun i => ⟨rfl, id⟩⟩
  | succ n ih =>
    simp only [alloc_evict_loop] at h
    split at h
    · cases h
    · rename_i s1 g hg
      obtain ⟨a1, -, a2⟩ := page_get_kflags cfg s s1 false g false hg
      obtain ⟨b1, b2⟩ := ih _ h
      exact ⟨b1.trans a1, fun i =>
        ⟨(b2 i).1.trans (a2 i).1, fun hh => (a2 i).2 ((b2 i).2 hh)⟩⟩

/-- The scan of `alloc_kpages`: when it ends with `npages` frames found,
`start_of_block` is set and the `npages` frames from it are not kernel
pages. -/
theorem alloc_scan_found (kc : coremap_config) (s : vm_state) (npages : Nat)
    (fuel cur_block pages_found : Nat) (start_of_block r : Option Nat)
    (hinv : pages_found = 0 ∨
      (pages_found ≤ cur_block ∧ start_of_block = some (cur_block - pages_found) ∧
        ∀ j, cur_block - pages_found ≤ j → j < cur_block →
          (s.cm_entries j).cme_kpage = false))
    (hlt : pages_found < npages)
    (h : alloc_scan kc s npages fuel cur_block pages_found start_of_block = (npages, r)) :
    ∃ start, r = some start ∧ ∀ i, i < npages → (s.cm_entries (start + i)).cme_kpage = false := by
  induction fuel generalizing cur_block pages_found start_of_block with
  | zero =>
    simp only [alloc_scan, Prod.mk.injEq] at h
    omega
  | succ fuel ih =>
    simp only [alloc_scan] at h
    split at h
    · split at h
      · rename_i hfree
        -- the invariant after this free frame
        have hinv1 : pages_found + 1 ≤ cur_block + 1 ∧
            (if pages_found = 0 then some cur_block else start_of_block) =
              some (cur_block + 1 - (pages_found + 1)) ∧
            ∀ j, cur_block + 1 - (pages_found + 1) ≤ j → j < cur_block + 1 →
              (s.cm_entries j).cme_kpage = false := by
          rcases hinv with h0 | ⟨h1, h2, h3⟩
          · subst h0
            refine ⟨by omega, by simp, fun j hj1 hj2 => ?_⟩
            have : j = cur_block := by omega
            subst this
            exact hfree.1
          · refine ⟨by omega, ?_, fun j hj1 hj2 => ?_⟩
            · by_cases hz : pages_found = 0
              · subst hz
                simp
              · simp only [hz, if_false]
                rw [h2]
                congr 1
                omega
            · by_cases hj : j = cur_block
              · subst hj
                exact hfree.1
              · exact h3 j (by omega) (by omega)
        split at h
        · rename_i hdone
          simp only [Prod.mk.injEq] at h
          obtain ⟨-, rfl⟩ := h
          refine ⟨cur_block + 1 - (pages_found + 1), hinv1.2.1, fun i hi => ?_⟩
          exact hinv1.2.2 _ (by omega) (by omega)
        · rename_i hnot
          split at h
          · simp only [Prod.mk.injEq] at h
            omega
          · exact ih (cur_block + 1) (pages_found + 1) _ (Or.inr hinv1) (by omega) h
      · split at h
        · simp only [Prod.mk.injEq] at h
          omega
        · exact ih (cur_block + 1) 0 none (Or.inl rfl) (by omega) h
    · simp only [Prod.mk.injEq] at h
      omega

/-- What the tries of `alloc_kpages` leave: the number of kernel pages and
the kernel flags are as before (inner-frame marks may be gone from frames
that are not kernel pages), and the frames of the block found are not
kernel pages. -/
theorem alloc_find_kflags (cfg : vm_config) (kc : coremap_config) (npages tries : Nat)
    (s t : vm_state) (start : Nat) (hn : 1 ≤ npages)
    (h : alloc_find cfg kc npages tries s = .ok (t, some start)) :
    t.cm_num_kpages = s.cm_num_kpages ∧
    (∀ i, (t.cm_entries i).cme_kpage = (s.cm_entries i).cme_kpage ∧
      ((t.cm_entries i).cme_kernel = true → (s.cm_entries i).cme_kernel = true)) ∧
    ∀ i, i < npages → (t.cm_entries (start + i)).cme_kpage = false := by
  induction tries generalizing s with
  | zero => simp [alloc_find] at h
  | succ tries ih =>
    simp only [alloc_find] at h
    split at h
    · rename_i hfound
      simp only [Except.ok.injEq, Prod.mk.injEq] at h
      obtain ⟨rfl, hr⟩ := h
      have hscan : alloc_scan kc s npages (kc.RAM_PAGES + 1) 0 0 none =
          (npages, (alloc_scan kc s npages (kc.RAM_PAGES + 1) 0 0 none).2) :=
        Prod.ext hfound rfl
      obtain ⟨st, hst, hrun⟩ := alloc_scan_found kc s npages _ 0 0 none _ (Or.inl rfl)
        (by omega) hscan
      rw [hr] at hst
      cases hst
      exact ⟨rfl, fun i => ⟨rfl, id⟩, hrun⟩
    · split at h
      · rename_i h1
        split at h
        · cases h
        · rename_i s1 p hp
          simp only [Except.ok.injEq, Prod.mk.injEq, Option.some.injEq] at h
          obtain ⟨rfl, rfl⟩ := h
          obtain ⟨hk, -, hnk, -, hoth, hcase⟩ := page_get_coremap cfg s s1 false p hp
          have hg : (s1.cm_entries p).cme_kpage = false ∧
              ((s1.cm_entries p).cme_kernel = true → (s.cm_entries p).cme_kernel = true) := by
            rcases hcase with ⟨-, -, he⟩ | ⟨-, he⟩
            · rw [he]
              exact ⟨hk, id⟩
            · rw [he]
              exact ⟨rfl, by simp⟩
          refine ⟨hnk, fun i => ?_, fun i hi => ?_⟩
          · by_cases hi : i = p
            · subst hi
              exact ⟨hg.1.trans hk.symm, hg.2⟩
            · obtain ⟨-, -, -, -, -, -, c7, c8, -⟩ := hoth i hi
              exact ⟨c8, by rw [c7]; exact id⟩
          · have : i = 0 := by omega
            subst this
            exact hg.1
      · split at h
        · cases h
        · rename_i s1 hev
          obtain ⟨a1, a2⟩ := alloc_evict_loop_kflags cfg _ s s1 hev
          obtain ⟨b1, b2, b3⟩ := ih s1 h
          exact ⟨b1.trans a1, fun i =>
            ⟨(b2 i).1.trans (a2 i).1, fun hh => (a2 i).2 ((b2 i).2 hh)⟩, b3⟩

theorem alloc_mark_loop_spec (cfg : vm_config) (start n i : Nat) (s : vm_state) :
    (alloc_mark_loop cfg start n i s).cm_num_kpages = s.cm_num_kpages ∧
    (∀ j, start + i ≤ j → j < start + i + n →
      ((alloc_mark_loop cfg start n i s).cm_entries j).cme_kpage = true ∧
      ((alloc_mark_loop cfg start n i s).cm_entries j).cme_kernel = decide (j - start ≠ 0) ∧
      ((alloc_mark_loop cfg start n i s).cm_entries j).cme_busy = false ∧
      ((alloc_mark_loop cfg start n i s).cm_entries j).cme_as = none) ∧
    ∀ j, (j < start + i ∨ start + i + n ≤ j) →
      (alloc_mark_loop cfg start n i s).cm_entries j = s.cm_entries j := by
  induction n generalizing i s with
  | zero =>
    refine ⟨rfl, fun j h1 h2 => ?_, fun j _ => rfl⟩
    omega
  | succ n ih =>
    simp only [alloc_mark_loop]
    obtain ⟨a1, a2, a3⟩ := ih (i + 1) (set_cme s (start + i)
      { (s.cm_entries (start + i)) with
        cme_as := none, cme_vaddr := CM_INDEX_TO_KVADDR cfg (start + i),
        cme_swap_location := 0, cme_owner_cpu := none, cme_dirty := false,
        cme_tlb := false, cme_kernel := decide (i ≠ 0), cme_busy := false,
        cme_kpage := true })
    refine ⟨a1, fun j h1 h2 => ?_, fun j hj => ?_⟩
    · by_cases hj : j = start + i
      · rw [a3 j (by omega)]
        subst hj
        simp [set_cme]
      · exact a2 j (by omega) (by omega)
    · rw [a3 j (by omega)]
      simp only [set_cme]
      rw [Function.update_noteq (by omega)]

theorem free_kpages_loop_run (m : Nat) (fuel ppn : Nat) (s : vm_state) (hfuel : m < fuel)
    (hrun : ∀ j, ppn ≤ j → j < ppn + m →
      (s.cm_entries j).cme_kernel = true ∧ (s.cm_entries j).cme_kpage = true ∧
      (s.cm_entries j).cme_busy = false ∧ (s.cm_entries j).cme_as = none)
    (hstop : ¬ ((s.cm_entries (ppn + m)).cme_kernel = true ∧
      (s.cm_entries (ppn + m)).cme_kpage = true)) :
    ∃ t, free_kpages_loop fuel ppn s = .ok t ∧ t.cm_num_kpages = s.cm_num_kpages - m ∧
      (∀ j, ppn ≤ j → j < ppn + m →
        (t.cm_entries j).cme_kpage = false ∧ (t.cm_entries j).cme_kernel = false) ∧
      ∀ j, (j < ppn ∨ ppn + m ≤ j) → t.cm_entries j = s.cm_entries j := by
  induction m generalizing fuel ppn s with
  | zero =>
    obtain ⟨fuel, rfl⟩ : ∃ f, fuel = f + 1 := ⟨fuel - 1, by omega⟩
    refine ⟨s, ?_, by simp, fun j h1 h2 => by omega, fun j _ => rfl⟩
    simp only [free_kpages_loop]
    rw [if_neg (by simpa using hstop)]
  | succ m ih =>
    obtain ⟨fuel, rfl⟩ : ∃ f, fuel = f + 1 := ⟨fuel - 1, by omega⟩
    obtain ⟨h1, h2, h3, h4⟩ := hrun ppn (le_refl _) (by omega)
    simp only [free_kpages_loop]
    rw [if_pos ⟨h1, h2⟩, if_pos ⟨h3, h4⟩]
    obtain ⟨t, ht, tk, tin, tout⟩ := ih fuel (ppn + 1)
      { set_cme s ppn { (s.cm_entries ppn) with cme_kpage := false, cme_kernel := false } with
        cm_num_kpages :=
          (set_cme s ppn
            { (s.cm_entries ppn) with cme_kpage := false, cme_kernel := false }).cm_num_kpages
            - 1 }
      (by omega)
      (fun j hj1 hj2 => by
        simp only [set_cme]
        rw [Function.update_noteq (by omega)]
        exact hrun j (by omega) (by omega))
      (by
        simp only [set_cme]
        rw [Function.update_noteq (by omega)]
        have : ppn + 1 + m = ppn + (m + 1) := by omega
        rw [this]
        exact hstop)
    refine ⟨t, ht, ?_, fun j hj1 hj2 => ?_, fun j hj => ?_⟩
    · rw [tk]
      simp only [set_cme]
      push_cast
      ring
    · by_cases hj : j = ppn
      · rw [tout j (by omega)]
        subst hj
        simp [set_cme]
      · exact tin j (by omega) (by omega)
    · rw [tout j (by omega)]
      simp only [set_cme]
      rw [Function.update_noteq (by omega)]

theorem KVADDR_TO_PPN_of_index (cfg : vm_config) (i : Nat) :
    KVADDR_TO_PPN cfg (CM_INDEX_TO_KVADDR cfg i) = i := by
  simp [KVADDR_TO_PPN, CM_INDEX_TO_KVADDR, PAGE_SIZE]

/-- C13: in a coremap whose kernel blocks are well formed, when
`alloc_kpages(n)` returns a block `k` (at frame `start`), its first frame is
a kernel page that is not an inner frame, the other `n - 1` frames are
kernel pages that are inner frames, and `cm_num_kpages` has grown by `n`;
`free_kpages(k)` then returns, after it none of the `n` frames is a kernel
page or an inner frame, `cm_num_kpages` has the value it had before the
allocation, and every frame outside the block has the entry it had after
the allocation, whatever stands in the frame right after the block. -/
theorem kpages_round_trip (cfg : vm_config) (kc : coremap_config) (s s1 : vm_state)
    (n k : Nat) (hn : 1 ≤ n) (hram : n ≤ kc.RAM_PAGES) (hwf : kernel_runs_wf s)
    (hk : k ≠ 0) (hend : k < cfg.KERNEL_VADDR_END)
    (halloc : alloc_kpages cfg kc s n = .ok (s1, k)) :
    ∃ start, k = CM_INDEX_TO_KVADDR cfg start ∧
      (∀ i, i < n → (s1.cm_entries (start + i)).cme_kpage = true ∧
        (s1.cm_entries (start + i)).cme_kernel = decide (i ≠ 0)) ∧
      s1.cm_num_kpages = s.cm_num_kpages + n ∧
      ∃ s2, free_kpages cfg kc s1 k = .ok s2 ∧
        (∀ i, i < n → (s2.cm_entries (start + i)).cme_kpage = false ∧
          (s2.cm_entries (start + i)).cme_kernel = false) ∧
        s2.cm_num_kpages = s.cm_num_kpages ∧
        ∀ j, (j < start ∨ start + n ≤ j) → s2.cm_entries j = s1.cm_entries j := by
  unfold alloc_kpages at halloc
  split at halloc
  · simp only [Except.ok.injEq, Prod.mk.injEq] at halloc
    exact absurd halloc.2.symm hk
  · split at halloc
    · cases halloc
    · simp only [Except.ok.injEq, Prod.mk.injEq] at halloc
      exact absurd halloc.2.symm hk
    · rename_i s0 start hfind
      simp only [Except.ok.injEq, Prod.mk.injEq] at halloc
      obtain ⟨hs1, rfl⟩ := halloc
      obtain ⟨f1, f2, f3⟩ := alloc_find_kflags cfg kc n _ s s0 start hn hfind
      have hwf0 : kernel_runs_wf s0 := kernel_runs_wf_of_flags s s0 hwf f2
      obtain ⟨m1, m2, m3⟩ := alloc_mark_loop_spec cfg start n 0 s0
      simp only [Nat.add_zero] at m2 m3
      -- the coremap after the allocation
      have e1 : s1.cm_entries = (alloc_mark_loop cfg start n 0 s0).cm_entries := by
        rw [← hs1]
      have k1 : s1.cm_num_kpages = s.cm_num_kpages + n := by
        rw [← hs1]
        simp only
        rw [m1, f1]
      have hin : ∀ j, start ≤ j → j < start + n →
          (s1.cm_entries j).cme_kpage = true ∧
          (s1.cm_entries j).cme_kernel = decide (j - start ≠ 0) ∧
          (s1.cm_entries j).cme_busy = false ∧ (s1.cm_entries j).cme_as = none := by
        intro j h1 h2
        rw [e1]
        exact m2 j h1 h2
      have hout : ∀ j, (j < start ∨ start + n ≤ j) → s1.cm_entries j = s0.cm_entries j := by
        intro j hj
        rw [e1]
        exact m3 j hj
      refine ⟨start, rfl, fun i hi => ?_, k1, ?_⟩
      · obtain ⟨a, b, -, -⟩ := hin (start + i) (by omega) (by omega)
        refine ⟨a, ?_⟩
        rw [b]
        congr 1
        simp
      · -- the release
        obtain ⟨h0k, h0n, h0b, h0a⟩ := hin start (le_refl _) (by omega)
        have h0n' : (s1.cm_entries start).cme_kernel = false := by
          rw [h0n]
          simp
        have hstop : ¬ ((s1.cm_entries (start + n)).cme_kernel = true ∧
            (s1.cm_entries (start + n)).cme_kpage = true) := by
          rw [hout (start + n) (by omega)]
          rintro ⟨hker, hkp⟩
          obtain ⟨-, hprev⟩ := hwf0 (start + n) hkp hker
          have := f3 (n - 1) (by omega)
          have e : start + (n - 1) = start + n - 1 := by omega
          rw [e] at this
          rw [this] at hprev
          cases hprev
        obtain ⟨t, ht, tk, tin, tout⟩ := free_kpages_loop_run (n - 1) kc.RAM_PAGES (start + 1)
          { set_cme s1 start { (s1.cm_entries start) with cme_kpage := false } with
            cm_num_kpages :=
              (set_cme s1 start
                { (s1.cm_entries start) with cme_kpage := false }).cm_num_kpages - 1 }
          (by omega)
          (fun j hj1 hj2 => by
            simp only [set_cme]
            rw [Function.update_noteq (by omega)]
            obtain ⟨a, b, c, d⟩ := hin j (by omega) (by omega)
            refine ⟨?_, a, c, d⟩
            rw [b]
            simp
            omega)
          (by
            simp only [set_cme]
            rw [Function.update_noteq (by omega)]
            have : start + 1 + (n - 1) = start + n := by omega
            rw [this]
            exact hstop)
        refine ⟨t, ?_, fun i hi => ?_, ?_, fun j hj => ?_⟩
        · unfold free_kpages
          rw [if_pos ⟨by simp [CM_INDEX_TO_KVADDR], hend⟩]
          simp only [KVADDR_TO_PPN_of_index]
          rw [if_pos ⟨h0b, h0k, h0n', h0a⟩]
          exact ht
        · by_cases hi0 : i = 0
          · subst hi0
            rw [Nat.add_zero, tout start (by omega)]
            simp only [set_cme, Function.update_same]
            exact ⟨trivial, h0n'⟩
          · exact tin (start + i) (by omega) (by omega)
        · rw [tk]
          simp only [set_cme]
          rw [k1]
          have : ((n - 1 : Nat) : Int) = (n : Int) - 1 := by omega
          rw [this]
          ring
        · rw [tout j (by omega)]
          simp only [set_cme]
          rw [Function.update_noteq (by omega)]

theorem fork_vm_kernel_runs_wf : kernel_runs_wf fork_vm := by
  intro i _ hker
  simp only [fork_vm] at hker
  split_ifs at hker <;> simp [kernel_cme, free_cme, user_cme] at hker

set_option maxRecDepth 100000 in
theorem kalloc_vm_eq :
    alloc_kpages small_cfg small_kc fork_vm 2 = .ok (kalloc_vm, 10 * PAGE_SIZE) :=
  except_ok_of_code _ fork_vm (10 * PAGE_SIZE) (by decide)

theorem kpages_round_trip_witness :
    alloc_kpages small_cfg small_kc fork_vm 2 = .ok (kalloc_vm, 10 * PAGE_SIZE) ∧
    ∃ start, 10 * PAGE_SIZE = CM_INDEX_TO_KVADDR small_cfg start ∧
      (∀ i, i < 2 → (kalloc_vm.cm_entries (start + i)).cme_kpage = true ∧
        (kalloc_vm.cm_entries (start + i)).cme_kernel = decide (i ≠ 0)) ∧
      kalloc_vm.cm_num_kpages = fork_vm.cm_num_kpages + (2 : Nat) ∧
      ∃ s2, free_kpages small_cfg small_kc kalloc_vm (10 * PAGE_SIZE) = .ok s2 ∧
        (∀ i, i < 2 → (s2.cm_entries (start + i)).cme_kpage = false ∧
          (s2.cm_entries (start + i)).cme_kernel = false) ∧
        s2.cm_num_kpages = fork_vm.cm_num_kpages ∧
        ∀ j, (j < start ∨ start + 2 ≤ j) → s2.cm_entries j = kalloc_vm.cm_entries j :=
  ⟨kalloc_vm_eq,
    kpages_round_trip small_cfg small_kc fork_vm kalloc_vm 2 (10 * PAGE_SIZE) (by decide)
      (by decide) fork_vm_kernel_runs_wf (by decide) (by decide) kalloc_vm_eq⟩

/-! ### `sys_sbrk`: results and heap bounds -/

theorem same_heap_refl (s : vm_state) (a : Nat) : same_heap s s a :=
  fun asp h => ⟨asp, h, rfl, rfl⟩

theorem same_heap_trans (s t u : vm_state) (a : Nat) (h1 : same_heap s t a)
    (h2 : same_heap t u a) : same_heap s u a := by
  intro asp h
  obtain ⟨asp1, e1, e2, e3⟩ := h1 asp h
  obtain ⟨asp2, f1, f2, f3⟩ := h2 asp1 e1
  exact ⟨asp2, f1, f2.trans e2, f3.trans e3⟩

theorem same_heap_of_as_table (s t : vm_state) (a : Nat) (h : t.as_table = s.as_table) :
    same_heap s t a :=
  fun asp hs => ⟨asp, by rw [h]; exact hs, rfl, rfl⟩

theorem same_heap_set_pte (s : vm_state) (a b pdi pti : Nat) (pte : pt_entry) :
    same_heap s (set_pte s b pdi pti pte) a := by
  intro asp h
  unfold set_pte
  split
  · exact ⟨asp, h, rfl, rfl⟩
  · rename_i aspb hb
    split
    · exact ⟨asp, h, rfl, rfl⟩
    · rename_i pde hpde
      by_cases hab : a = b
      · subst hab
        rw [hb] at h
        cases h
        exact ⟨_, Function.update_same _ _ _, rfl, rfl⟩
      · refine ⟨asp, ?_, rfl, rfl⟩
        simp only
        rw [Function.update_noteq hab]
        exact h

theorem kmalloc_fields (s : vm_state) :
    (kmalloc s).2.as_table = s.as_table ∧ (kmalloc s).2.cm_entries = s.cm_entries ∧
    (kmalloc s).2.st_bitmap = s.st_bitmap ∧ (kmalloc s).2.swap_data = s.swap_data ∧
    (kmalloc s).2.ram = s.ram ∧ (kmalloc s).2.cm_num_pages = s.cm_num_pages ∧
    (kmalloc s).2.curproc_as = s.curproc_as ∧ (kmalloc s).2.curcpu = s.curcpu := by
  unfold kmalloc
  split <;> exact ⟨rfl, rfl, rfl, rfl, rfl, rfl, rfl, rfl⟩

theorem pte_acquire_as_table (s t : vm_state) (a : Nat) (pte : pt_entry) (r : Option Nat)
    (h : pte_acquire s a pte = .ok (t, r)) :
    t.as_table = s.as_table ∧ t.kmalloc_results = s.kmalloc_results := by
  unfold pte_acquire at h
  split at h
  · split at h
    · split at h
      · cases h
      · split at h
        · cases h
          exact ⟨rfl, rfl⟩
        · cases h
          exact ⟨rfl, rfl⟩
    · cases h
  · cases h
    exact ⟨rfl, rfl⟩

theorem pte_release_as_table (s t : vm_state) (r : Option Nat)
    (h : pte_release s r = .ok t) :
    t.as_table = s.as_table ∧ t.kmalloc_results = s.kmalloc_results := by
  unfold pte_release at h
  split at h
  · cases h
    exact ⟨rfl, rfl⟩
  · split at h
    · cases h
      exact ⟨rfl, rfl⟩
    · cases h

theorem sbrk_grow_page_heap (cfg : vm_config) (s t : vm_state) (a vaddr err : Nat)
    (h : sbrk_grow_page cfg s a vaddr = .ok (t, err)) :
    same_heap s t a ∧ (err = 0 ∨ err = ENOMEM) := by
  unfold sbrk_grow_page at h
  split at h
  · cases h
  · rename_i asp hasp
    dsimp only at h
    split at h
    · cases h
    · rename_i s1 e1 htab
      have hs1 : same_heap s s1 a ∧ (e1 = 0 ∨ e1 = ENOMEM) := by
        split at htab
        · simp only [Except.ok.injEq, Prod.mk.injEq] at htab
          obtain ⟨rfl, rfl⟩ := htab
          exact ⟨same_heap_refl _ _, Or.inl rfl⟩
        · split at htab
          · rename_i sk hk
            have hsk : sk = (kmalloc s).2 := by rw [hk]
            simp only [Except.ok.injEq, Prod.mk.injEq] at htab
            obtain ⟨rfl, rfl⟩ := htab
            exact ⟨same_heap_of_as_table _ _ _ (by rw [hsk]; exact (kmalloc_fields s).1),
              Or.inr rfl⟩
          · rename_i sk hk
            simp only [Except.ok.injEq, Prod.mk.injEq] at htab
            obtain ⟨rfl, rfl⟩ := htab
            refine ⟨?_, Or.inl rfl⟩
            intro asp0 h0
            rw [hasp] at h0
            cases h0
            exact ⟨_, Function.update_same _ _ _, rfl, rfl⟩
      split at h
      · simp only [Except.ok.injEq, Prod.mk.injEq] at h
        obtain ⟨rfl, rfl⟩ := h
        exact hs1
      · split at h
        · cases h
        · split at h
          · cases h
          · rename_i s2 r2 hacq
            split at h
            · cases h
            · rename_i s3 hrel
              simp only [Except.ok.injEq, Prod.mk.injEq] at h
              obtain ⟨rfl, rfl⟩ := h
              refine ⟨?_, Or.inl rfl⟩
              exact same_heap_trans _ _ _ _ hs1.1
                (same_heap_trans _ _ _ _
                  (same_heap_of_as_table _ _ _ (pte_acquire_as_table _ _ _ _ _ hacq).1)
                  (same_heap_trans _ _ _ _ (same_heap_set_pte s2 a a _ _ _)
                    (same_heap_of_as_table _ _ _ (pte_release_as_table _ _ _ hrel).1)))

theorem sbrk_grow_loop_heap (cfg : vm_config) (a heap_end n i : Nat) (s t : vm_state)
    (err : Nat) (h : sbrk_grow_loop cfg a heap_end n i s = .ok (t, err)) :
    same_heap s t a ∧ (err = 0 ∨ err = ENOMEM) := by
  induction n generalizing i s with
  | zero =>
    simp only [sbrk_grow_loop, Except.ok.injEq, Prod.mk.injEq] at h
    obtain ⟨rfl, rfl⟩ := h
    exact ⟨same_heap_refl _ _, Or.inl rfl⟩
  | succ n ih =>
    simp only [sbrk_grow_loop] at h
    split at h
    · cases h
    · rename_i s1 e1 hp
      obtain ⟨p1, p2⟩ := sbrk_grow_page_heap cfg _ _ _ _ _ hp
      split at h
      · simp only [Except.ok.injEq, Prod.mk.injEq] at h
        obtain ⟨rfl, rfl⟩ := h
        exact ⟨p1, p2⟩
      · obtain ⟨q1, q2⟩ := ih _ _ h
        exact ⟨same_heap_trans _ _ _ _ p1 q1, q2⟩

theorem sbrk_grow_page_ptes (cfg : vm_config) (s t : vm_state) (a vaddr err : Nat)
    (h : sbrk_grow_page cfg s a vaddr = .ok (t, err)) (pdi pti : Nat) (pte : pt_entry)
    (hg : get_pte t a pdi pti = some pte) (hp : pte.pte_present = true) :
    get_pte s a pdi pti = some pte := by
  unfold sbrk_grow_page at h
  split at h
  · cases h
  · rename_i asp hasp
    dsimp only at h
    split at h
    · cases h
    · rename_i s1 e1 htab
      have hs1 : ∀ q, get_pte s1 a pdi pti = some q → q.pte_present = true →
          get_pte s a pdi pti = some q := by
        intro q hq hqp
        split at htab
        · simp only [Except.ok.injEq, Prod.mk.injEq] at htab
          obtain ⟨rfl, rfl⟩ := htab
          exact hq
        · rename_i hnone
          split at htab
          · rename_i sk hk
            have hsk : sk = (kmalloc s).2 := by rw [hk]
            simp only [Except.ok.injEq, Prod.mk.injEq] at htab
            obtain ⟨rfl, rfl⟩ := htab
            rw [← hq]
            exact (get_pte_of_as_table _ _ (by rw [hsk]; exact (kmalloc_fields s).1) _ _ _).symm
          · rename_i sk hk
            simp only [Except.ok.injEq, Prod.mk.injEq] at htab
            obtain ⟨rfl, rfl⟩ := htab
            simp only [get_pte, Function.update_same] at hq
            by_cases hd : pdi = VADDR_TO_PT cfg vaddr
            · subst hd
              simp only [Function.update_same, Option.some.injEq] at hq
              subst hq
              simp [pgt_init] at hqp
            · rw [Function.update_noteq hd] at hq
              simp only [get_pte, hasp]
              exact hq
      split at h
      · simp only [Except.ok.injEq, Prod.mk.injEq] at h
        obtain ⟨rfl, rfl⟩ := h
        exact hs1 _ hg hp
      · split at h
        · cases h
        · rename_i pte0 hpte0
          split at h
          · cases h
          · rename_i s2 r2 hacq
            split at h
            · cases h
            · rename_i s3 hrel
              simp only [Except.ok.injEq, Prod.mk.injEq] at h
              obtain ⟨rfl, rfl⟩ := h
              have h2 := (pte_acquire_as_table _ _ _ _ _ hacq).1
              have h3 := (pte_release_as_table _ _ _ hrel).1
              rw [get_pte_of_as_table _ _ h3] at hg
              by_cases hi : pdi = VADDR_TO_PT cfg vaddr ∧ pti = VADDR_TO_PTE cfg vaddr
              · obtain ⟨rfl, rfl⟩ := hi
                rw [get_pte_set_pte_same _ _ _ _ pte0 _
                  (by rw [get_pte_of_as_table _ _ h2]; exact hpte0)] at hg
                cases hg
                cases hp
              · rw [get_pte_set_pte_ne _ _ _ _ _ _ _ _ (fun hc => hi hc.2),
                  get_pte_of_as_table _ _ h2] at hg
                exact hs1 _ hg hp

theorem grow_page_ready_mono (cfg : vm_config) (s t : vm_state) (a v : Nat)
    (h : ∀ pdi pti pte, get_pte t a pdi pti = some pte → pte.pte_present = true →
      get_pte s a pdi pti = some pte)
    (hr : grow_page_ready cfg s a v = true) : grow_page_ready cfg t a v = true := by
  unfold grow_page_ready at hr ⊢
  cases ht : get_pte t a (VADDR_TO_PT cfg v) (VADDR_TO_PTE cfg v) with
  | none => rfl
  | some pte =>
    cases hp : pte.pte_present with
    | false => simp [hp]
    | true =>
      rw [h _ _ _ ht hp] at hr
      simp [hp] at hr

theorem sbrk_grow_page_total (cfg : vm_config) (s : vm_state) (a vaddr : Nat) (asp : addrspace)
    (hasp : s.as_table a = some asp) (hr : grow_page_ready cfg s a vaddr = true) :
    ∃ t err, sbrk_grow_page cfg s a vaddr = .ok (t, err) := by
  unfold grow_page_ready at hr
  unfold sbrk_grow_page
  simp only [hasp]
  cases hpd : asp.as_pd (VADDR_TO_PT cfg vaddr) with
  | some pde =>
    have hg : get_pte s a (VADDR_TO_PT cfg vaddr) (VADDR_TO_PTE cfg vaddr) =
        some (pde (VADDR_TO_PTE cfg vaddr)) := by simp [get_pte, hasp, hpd]
    rw [hg] at hr
    simp only [Bool.not_eq_true', ] at hr
    simp [hg, pte_acquire, hr, pte_release]
  | none =>
    cases hk : kmalloc s with
    | mk r sk =>
      cases r with
      | false => simp [ENOMEM]
      | true =>
        simp [get_pte, pgt_init, pte_acquire, pte_release]

theorem sbrk_grow_loop_total (cfg : vm_config) (a heap_end n i : Nat) (s : vm_state)
    (asp : addrspace) (hasp : s.as_table a = some asp)
    (hr : ∀ j, j < n →
      grow_page_ready cfg s a ((heap_end + (i + j) * PAGE_SIZE) % 4294967296) = true) :
    ∃ t err, sbrk_grow_loop cfg a heap_end n i s = .ok (t, err) := by
  induction n generalizing i s asp with
  | zero => exact ⟨s, 0, rfl⟩
  | succ n ih =>
    obtain ⟨s1, e1, h1⟩ := sbrk_grow_page_total cfg s a _ asp hasp (hr 0 (by omega))
    simp only [Nat.add_zero] at h1
    simp only [sbrk_grow_loop, h1]
    by_cases he : e1 ≠ 0
    · exact ⟨s1, e1, by simp [he]⟩
    · obtain ⟨asp1, hasp1, -, -⟩ := (sbrk_grow_page_heap cfg _ _ _ _ _ h1).1 asp hasp
      obtain ⟨t, err, ht⟩ := ih (i + 1) s1 asp1 hasp1 (fun j hj => by
        have := hr (j + 1) (by omega)
        rw [show i + (j + 1) = i + 1 + j by omega] at this
        exact grow_page_ready_mono cfg s s1 a _
          (fun pdi pti pte => sbrk_grow_page_ptes cfg s s1 a _ e1 h1 pdi pti pte) this)
      exact ⟨t, err, by simp [he, ht]⟩

theorem set_pte_frames (s : vm_state) (a pdi pti : Nat) (pte : pt_entry) :
    (set_pte s a pdi pti pte).cm_entries = s.cm_entries ∧
    (set_pte s a pdi pti pte).cm_num_pages = s.cm_num_pages := by
  unfold set_pte
  split
  · exact ⟨rfl, rfl⟩
  · split <;> exact ⟨rfl, rfl⟩

theorem set_pte_cpu (s : vm_state) (a pdi pti : Nat) (pte : pt_entry) :
    (set_pte s a pdi pti pte).curcpu = s.curcpu ∧ (set_pte s a pdi pti pte).tlb = s.tlb := by
  unfold set_pte
  split
  · exact ⟨rfl, rfl⟩
  · split <;> exact ⟨rfl, rfl⟩

theorem tlb_probe_invalidated (cfg : vm_config) (s t : vm_state) (v w index : Nat)
    (hs : (s.tlb index).tlb_hi = v)
    (ht : t.tlb = Function.update s.tlb index (tlb_invalid index))
    (hvw : v ≠ w) (hw : w < 2147483648) :
    tlb_probe cfg t w = tlb_probe cfg s w ∧
      ∀ j, tlb_probe cfg s w = some j → t.tlb j = s.tlb j := by
  have hpred : (fun i => decide ((t.tlb i).tlb_hi = w)) =
      (fun i => decide ((s.tlb i).tlb_hi = w)) := by
    funext i
    rw [ht]
    by_cases hi : i = index
    · subst hi
      have h1 : (tlb_invalid i).tlb_hi ≠ w := by
        simp only [tlb_invalid, PAGE_SIZE]
        omega
      have h2 : (s.tlb i).tlb_hi ≠ w := by
        rw [hs]
        exact hvw
      simp [Function.update_same, h1, h2]
    · rw [Function.update_noteq hi]
  refine ⟨?_, fun j hj => ?_⟩
  · unfold tlb_probe
    rw [hpred]
  · unfold tlb_probe at hj
    have hfound := List.find?_some hj
    simp only [decide_eq_true_eq] at hfound
    rw [ht, Function.update_noteq]
    rintro rfl
    exact hvw (hs.symm.trans hfound)

theorem shrink_step_rel_refl (cfg : vm_config) (s : vm_state) (a v : Nat) :
    shrink_step_rel cfg s s a v :=
  ⟨same_heap_refl _ _, rfl, rfl, fun _ _ _ => rfl, fun _ => Or.inl rfl, Or.inl rfl⟩

theorem sbrk_shrink_finish (cfg : vm_config) (s s5 : vm_state) (a v ppn : Nat)
    (pte1 : pt_entry)
    (hat : s5.as_table = s.as_table) (hn : s5.cm_num_pages = s.cm_num_pages)
    (hcpu : s5.curcpu = s.curcpu)
    (hk5 : (s5.cm_entries ppn).cme_kpage = false)
    (ht5 : (s5.cm_entries ppn).cme_tlb = true →
      (s.cm_entries ppn).cme_tlb = true ∧ (s.cm_entries ppn).cme_vaddr = v)
    (hfr : ∀ f, f ≠ ppn → s5.cm_entries f = s.cm_entries f)
    (htlb : s5.tlb = s.tlb ∨
      ∃ index, (s.tlb index).tlb_hi = v ∧
        s5.tlb = Function.update s.tlb index (tlb_invalid index)) :
    ∃ t, pte_release (set_pte s5 a (VADDR_TO_PT cfg v) (VADDR_TO_PTE cfg v) pte1)
        (some ppn) = .ok t ∧ shrink_step_rel cfg s t a v := by
  have hfrm := set_pte_frames s5 a (VADDR_TO_PT cfg v) (VADDR_TO_PTE cfg v) pte1
  have hcp := set_pte_cpu s5 a (VADDR_TO_PT cfg v) (VADDR_TO_PTE cfg v) pte1
  unfold pte_release
  simp only [hfrm.1, hk5, if_true]
  refine ⟨_, rfl, ?_, ?_, ?_, fun qdi qti hne => ?_, fun f => ?_, ?_⟩
  · exact same_heap_trans _ s5 _ _ (same_heap_of_as_table _ _ _ hat)
      (same_heap_trans _ (set_pte s5 a _ _ pte1) _ _ (same_heap_set_pte _ _ _ _ _ _)
        (same_heap_of_as_table _ _ _ rfl))
  · simp only [set_cme]
    rw [hfrm.2, hn]
  · simp only [set_cme]
    rw [hcp.1, hcpu]
  · refine (get_pte_of_as_table (set_pte s5 a _ _ pte1) _ rfl _ _ _).trans ?_
    rw [get_pte_set_pte_ne _ _ _ _ _ _ _ _ (fun hc => hne hc.2), get_pte_of_as_table _ _ hat]
  · simp only [set_cme, hfrm.1]
    by_cases hfp : f = ppn
    · subst hfp
      rw [Function.update_same]
      exact Or.inr ⟨rfl, rfl, ht5⟩
    · rw [Function.update_noteq hfp, hfr f hfp]
      exact Or.inl rfl
  · simp only [set_cme]
    rw [hcp.2]
    exact htlb

theorem sbrk_shrink_page_run (cfg : vm_config) (s : vm_state) (a vaddr : Nat) (asp : addrspace)
    (hasp : s.as_table a = some asp) (hr : shrink_page_ready cfg s a vaddr = true) :
    ∃ t, sbrk_shrink_page cfg s a vaddr = .ok t ∧ shrink_step_rel cfg s t a vaddr := by
  unfold shrink_page_ready at hr
  unfold sbrk_shrink_page
  simp only [hasp]
  cases hpd : asp.as_pd (VADDR_TO_PT cfg vaddr) with
  | none => exact ⟨s, rfl, shrink_step_rel_refl _ _ _ _⟩
  | some pde =>
    have hg : get_pte s a (VADDR_TO_PT cfg vaddr) (VADDR_TO_PTE cfg vaddr) =
        some (pde (VADDR_TO_PTE cfg vaddr)) := by simp [get_pte, hasp, hpd]
    rw [hg] at hr
    simp only at hr ⊢
    generalize pde (VADDR_TO_PTE cfg vaddr) = pte at hr hg ⊢
    cases hp : pte.pte_present with
    | false =>
      simp only [hp, Bool.false_eq_true, if_false, Bool.or_eq_true, decide_eq_true_eq] at hr
      simp only [pte_acquire, hp, Bool.false_eq_true, if_false]
      cases hz : pte.pte_zeroed with
      | true =>
        simp only [Bool.true_eq_false, if_false, pte_release]
        refine ⟨_, rfl, same_heap_set_pte _ _ _ _ _ _, (set_pte_frames _ _ _ _ _).2,
          (set_pte_cpu _ _ _ _ _).1,
          fun pdi pti hne => get_pte_set_pte_ne _ _ _ _ _ _ _ _ (fun hc => hne hc.2),
          fun f => ?_, ?_⟩
        · rw [(set_pte_frames _ _ _ _ _).1]
          exact Or.inl rfl
        · rw [(set_pte_cpu _ _ _ _ _).2]
          exact Or.inl rfl
      | false =>
        have hppn : 0 < pte.pte_ppn := by
          rcases hr with hr | hr
          · rw [hz] at hr
            cases hr
          · exact hr
        simp only [if_true, swap_destroy_block, gt_iff_lt, hppn, pte_release]
        refine ⟨_, rfl, ?_, ?_, ?_, fun pdi pti hne => ?_, fun f => ?_, ?_⟩
        · exact same_heap_trans _
            { s with st_bitmap := Function.update s.st_bitmap pte.pte_ppn false } _ _
            (same_heap_of_as_table _ _ _ rfl) (same_heap_set_pte _ _ _ _ _ _)
        · rw [(set_pte_frames _ _ _ _ _).2]
        · rw [(set_pte_cpu _ _ _ _ _).1]
        · rw [get_pte_set_pte_ne _ _ _ _ _ _ _ _ (fun hc => hne hc.2)]
          rfl
        · rw [(set_pte_frames _ _ _ _ _).1]
          exact Or.inl rfl
        · rw [(set_pte_cpu _ _ _ _ _).2]
          exact Or.inl rfl
    | true =>
      simp only [hp, if_true, Bool.and_eq_true, decide_eq_true_eq, Bool.not_eq_true',
        Bool.or_eq_true] at hr
      obtain ⟨⟨⟨hlt, hk⟩, hb⟩, htl⟩ := hr
      simp only [pte_acquire, hp, if_true, hlt, hk, hb, and_self, Bool.false_eq_true, if_false]
      cases htb : (s.cm_entries pte.pte_ppn).cme_tlb with
      | false =>
        by_cases hown : (s.cm_entries pte.pte_ppn).cme_as = some a
        · simp only [hown, ne_eq, not_true_eq_false, if_false, set_cme, Function.update_same,
            hk, htb, Bool.false_eq_true, swap_destroy_block]
          by_cases hsw : (s.cm_entries pte.pte_ppn).cme_swap_location = 0
          · simp only [hsw, not_true_eq_false, if_false, Function.update_same]
            exact sbrk_shrink_finish cfg s _ a vaddr _ _ rfl rfl rfl (by simp [hk])
              (by simp [htb]) (fun f hf => by simp [Function.update_noteq hf]) (Or.inl rfl)
          · have hpos : (s.cm_entries pte.pte_ppn).cme_swap_location > 0 := by omega
            simp only [hsw, not_false_eq_true, if_true, hpos, Function.update_same]
            exact sbrk_shrink_finish cfg s _ a vaddr _ _ rfl rfl rfl (by simp [hk])
              (by simp [htb]) (fun f hf => by simp [Function.update_noteq hf]) (Or.inl rfl)
        · simp only [hown, ne_eq, not_false_eq_true, if_true, set_cme, Function.update_same,
            hk, htb, Bool.false_eq_true, if_false, swap_destroy_block]
          by_cases hsw : (s.cm_entries pte.pte_ppn).cme_swap_location = 0
          · simp only [hsw, not_true_eq_false, if_false, Function.update_same]
            exact sbrk_shrink_finish cfg s _ a vaddr _ _ rfl rfl rfl (by simp [hk])
              (by simp [htb]) (fun f hf => by simp [Function.update_noteq hf]) (Or.inl rfl)
          · have hpos : (s.cm_entries pte.pte_ppn).cme_swap_location > 0 := by omega
            simp only [hsw, not_false_eq_true, if_true, hpos, Function.update_same]
            exact sbrk_shrink_finish cfg s _ a vaddr _ _ rfl rfl rfl (by simp [hk])
              (by simp [htb]) (fun f hf => by simp [Function.update_noteq hf]) (Or.inl rfl)
      | true =>
        rw [htb] at htl
        simp only [Bool.true_eq_false, false_or] at htl
        obtain ⟨⟨how, hva⟩, hpr⟩ := htl
        unfold tlb_probe at hpr
        by_cases hown : (s.cm_entries pte.pte_ppn).cme_as = some a
        · simp only [hown, ne_eq, not_true_eq_false, if_false, set_cme, Function.update_same,
            hk, htb, how, hva, Bool.false_eq_true, if_true, vm_tlbshootdown, tlb_probe,
            swap_destroy_block]
          cases hprobe : (List.range cfg.NUM_TLB).find?
              (fun i => decide ((s.tlb i).tlb_hi = vaddr)) with
          | none =>
            by_cases hsw : (s.cm_entries pte.pte_ppn).cme_swap_location = 0
            · simp only [hsw, not_true_eq_false, if_false, Function.update_same]
              exact sbrk_shrink_finish cfg s _ a vaddr _ _ rfl rfl rfl (by simp [hk])
                (fun _ => ⟨htb, hva⟩) (fun f hf => by simp [Function.update_noteq hf])
                (Or.inl rfl)
            · have hpos : (s.cm_entries pte.pte_ppn).cme_swap_location > 0 := by omega
              simp only [hsw, not_false_eq_true, if_true, hpos, Function.update_same]
              exact sbrk_shrink_finish cfg s _ a vaddr _ _ rfl rfl rfl (by simp [hk])
                (fun _ => ⟨htb, hva⟩) (fun f hf => by simp [Function.update_noteq hf])
                (Or.inl rfl)
          | some index =>
            have hfound := List.find?_some hprobe
            simp only [decide_eq_true_eq] at hfound
            rw [hprobe] at hpr
            simp only [decide_eq_true_eq] at hpr
            simp only [tlb_write]
            rw [hpr]
            simp only [Function.update_same, htb, hlt, and_self, if_true, Function.update_idem]
            by_cases hsw : (s.cm_entries pte.pte_ppn).cme_swap_location = 0
            · simp only [hsw, not_true_eq_false, if_false, Function.update_same,
                Function.update_idem]
              exact sbrk_shrink_finish cfg s _ a vaddr _ _ rfl rfl rfl (by simp [hk])
                (by simp) (fun f hf => by simp [Function.update_noteq hf])
                (Or.inr ⟨index, hfound, rfl⟩)
            · have hpos : (s.cm_entries pte.pte_ppn).cme_swap_location > 0 := by omega
              simp only [hsw, not_false_eq_true, if_true, hpos, Function.update_same,
                Function.update_idem]
              exact sbrk_shrink_finish cfg s _ a vaddr _ _ rfl rfl rfl (by simp [hk])
                (by simp) (fun f hf => by simp [Function.update_noteq hf])
                (Or.inr ⟨index, hfound, rfl⟩)
        · simp only [hown, ne_eq, not_false_eq_true, not_true_eq_false, if_false, set_cme,
            Function.update_same, hk, htb, how, hva, Bool.false_eq_true, if_true,
            vm_tlbshootdown, tlb_probe, swap_destroy_block]
          cases hprobe : (List.range cfg.NUM_TLB).find?
              (fun i => decide ((s.tlb i).tlb_hi = vaddr)) with
          | none =>
            by_cases hsw : (s.cm_entries pte.pte_ppn).cme_swap_location = 0
            · simp only [hsw, not_true_eq_false, if_false, Function.update_same]
              exact sbrk_shrink_finish cfg s _ a vaddr _ _ rfl rfl rfl (by simp [hk])
                (fun _ => ⟨htb, hva⟩) (fun f hf => by simp [Function.update_noteq hf])
                (Or.inl rfl)
            · have hpos : (s.cm_entries pte.pte_ppn).cme_swap_location > 0 := by omega
              simp only [hsw, not_false_eq_true, if_true, hpos, Function.update_same]
              exact sbrk_shrink_finish cfg s _ a vaddr _ _ rfl rfl rfl (by simp [hk])
                (fun _ => ⟨htb, hva⟩) (fun f hf => by simp [Function.update_noteq hf])
                (Or.inl rfl)
          | some index =>
            have hfound := List.find?_some hprobe
            simp only [decide_eq_true_eq] at hfound
            rw [hprobe] at hpr
            simp only [decide_eq_true_eq] at hpr
            simp only [tlb_write]
            rw [hpr]
            simp only [Function.update_same, htb, hlt, and_self, if_true, Function.update_idem]
            by_cases hsw : (s.cm_entries pte.pte_ppn).cme_swap_location = 0
            · simp only [hsw, not_true_eq_false, if_false, Function.update_same,
                Function.update_idem]
              exact sbrk_shrink_finish cfg s _ a vaddr _ _ rfl rfl rfl (by simp [hk])
                (by simp) (fun f hf => by simp [Function.update_noteq hf])
                (Or.inr ⟨index, hfound, rfl⟩)
            · have hpos : (s.cm_entries pte.pte_ppn).cme_swap_location > 0 := by omega
              simp only [hsw, not_false_eq_true, if_true, hpos, Function.update_same,
                Function.update_idem]
              exact sbrk_shrink_finish cfg s _ a vaddr _ _ rfl rfl rfl (by simp [hk])
                (by simp) (fun f hf => by simp [Function.update_noteq hf])
                (Or.inr ⟨index, hfound, rfl⟩)

theorem page_index_inj (cfg : vm_config) (v w : Nat)
    (hv : v % PAGE_SIZE = 0) (hw : w % PAGE_SIZE = 0)
    (h1 : VADDR_TO_PT cfg v = VADDR_TO_PT cfg w)
    (h2 : VADDR_TO_PTE cfg v = VADDR_TO_PTE cfg w) : v = w := by
  unfold VADDR_TO_PT at h1
  unfold VADDR_TO_PTE at h2
  rw [← Nat.div_div_eq_div_mul, ← Nat.div_div_eq_div_mul] at h1
  have e : v / PAGE_SIZE = w / PAGE_SIZE := by
    rw [← Nat.div_add_mod (v / PAGE_SIZE) cfg.PT_SIZE, ← Nat.div_add_mod (w / PAGE_SIZE) cfg.PT_SIZE,
      h1, h2]
  rw [← Nat.div_add_mod v PAGE_SIZE, ← Nat.div_add_mod w PAGE_SIZE, hv, hw, e]

theorem shrink_page_ready_keep (cfg : vm_config) (s t : vm_state) (a v w : Nat)
    (hrel : shrink_step_rel cfg s t a v)
    (hvw : ¬ (VADDR_TO_PT cfg w = VADDR_TO_PT cfg v ∧ VADDR_TO_PTE cfg w = VADDR_TO_PTE cfg v))
    (hw : w < 2147483648)
    (hr : shrink_page_ready cfg s a w = true) : shrink_page_ready cfg t a w = true := by
  obtain ⟨-, hn, hcpu, hg, hf, htlb⟩ := hrel
  have hne : v ≠ w := by
    rintro rfl
    exact hvw ⟨rfl, rfl⟩
  have hprobe : tlb_probe cfg t w = tlb_probe cfg s w ∧
      ∀ j, tlb_probe cfg s w = some j → t.tlb j = s.tlb j := by
    rcases htlb with h | ⟨index, h1, h2⟩
    · exact ⟨by unfold tlb_probe; rw [h], fun j _ => by rw [h]⟩
    · exact tlb_probe_invalidated cfg s t v w index h1 h2 hne hw
  unfold shrink_page_ready at hr ⊢
  rw [hg _ _ hvw, hn, hcpu, hprobe.1]
  cases hq : get_pte s a (VADDR_TO_PT cfg w) (VADDR_TO_PTE cfg w) with
  | none => rfl
  | some pte =>
    rw [hq] at hr
    simp only at hr ⊢
    by_cases hp : pte.pte_present = true
    · simp only [hp, if_true] at hr ⊢
      simp only [Bool.and_eq_true, Bool.or_eq_true, decide_eq_true_eq, Bool.not_eq_true'] at hr ⊢
      obtain ⟨⟨⟨hlt, hk⟩, hb⟩, htl⟩ := hr
      rcases hf pte.pte_ppn with he | ⟨hk2, hb2, ht2⟩
      · rw [he]
        refine ⟨⟨⟨hlt, hk⟩, hb⟩, ?_⟩
        rcases htl with h | ⟨⟨h1, h2⟩, h3⟩
        · exact Or.inl h
        · refine Or.inr ⟨⟨h1, h2⟩, ?_⟩
          cases hpr : tlb_probe cfg s w with
          | none => rfl
          | some j =>
            rw [hpr] at h3
            simp only at h3 ⊢
            rw [hprobe.2 j hpr]
            exact h3
      · refine ⟨⟨⟨hlt, hk2⟩, hb2⟩, ?_⟩
        cases htt : (t.cm_entries pte.pte_ppn).cme_tlb with
        | false => exact Or.inl rfl
        | true =>
          exfalso
          obtain ⟨hs1, hs2⟩ := ht2 htt
          rcases htl with h | ⟨⟨-, h2⟩, -⟩
          · rw [hs1] at h
            cases h
          · exact hne (hs2.symm.trans h2)
    · simp only [hp, if_false] at hr ⊢
      exact hr

theorem sbrk_shrink_loop_total (cfg : vm_config) (a heap_end n i : Nat)
    (s : vm_state) (asp : addrspace) (hasp : s.as_table a = some asp)
    (halign : heap_end % PAGE_SIZE = 0) (hb : (i + n) * PAGE_SIZE ≤ heap_end + PAGE_SIZE)
    (hlow : heap_end < 2147483648)
    (hr : ∀ j, j < n → shrink_page_ready cfg s a (heap_end - (i + j) * PAGE_SIZE) = true) :
    ∃ t, sbrk_shrink_loop cfg a heap_end n i s = .ok t ∧ same_heap s t a := by
  induction n generalizing i s asp with
  | zero => exact ⟨s, rfl, same_heap_refl _ _⟩
  | succ n ih =>
    obtain ⟨s1, h1, hrel⟩ := sbrk_shrink_page_run cfg s a _ asp hasp (hr 0 (by omega))
    simp only [Nat.add_zero] at h1 hrel
    have hheap := hrel.1
    obtain ⟨asp1, hasp1, -, -⟩ := hheap asp hasp
    obtain ⟨t, ht, hheap1⟩ := ih (i + 1) s1 asp1 hasp1
      (by simp only [PAGE_SIZE] at hb ⊢; omega)
      (fun j hj => by
        have hj1 := hr (j + 1) (by omega)
        rw [show i + (j + 1) = i + 1 + j by omega] at hj1
        refine shrink_page_ready_keep cfg s s1 a (heap_end - i * PAGE_SIZE) _ hrel ?_
          (by omega) hj1
        intro hc
        have := page_index_inj cfg _ _
          (by simp only [PAGE_SIZE] at hb halign ⊢; omega)
          (by simp only [PAGE_SIZE] at hb halign ⊢; omega) hc.1 hc.2
        simp only [PAGE_SIZE] at hb this
        omega)
    exact ⟨t, by simp only [sbrk_shrink_loop, h1, ht], same_heap_trans _ _ _ _ hheap hheap1⟩

theorem vm_tlbshootdown_as_table (cfg : vm_config) (s t : vm_state) (cpu : Option Nat)
    (va : Nat) (h : vm_tlbshootdown cfg s cpu va false = .ok t) :
    t.as_table = s.as_table := by
  unfold vm_tlbshootdown at h
  split at h
  · cases h
    rfl
  · dsimp only at h
    simp only [Bool.false_eq_true, if_false] at h
    split at h
    · cases h
      rfl
    · split at h
      · cases h
        rfl
      · cases h

theorem swap_destroy_block_as_table (s t : vm_state) (loc : Nat)
    (h : swap_destroy_block s loc = .ok t) : t.as_table = s.as_table := by
  unfold swap_destroy_block at h
  split at h
  · cases h
    rfl
  · cases h

theorem sbrk_shrink_page_heap (cfg : vm_config) (s t : vm_state) (a vaddr : Nat)
    (h : sbrk_shrink_page cfg s a vaddr = .ok t) : same_heap s t a := by
  unfold sbrk_shrink_page at h
  split at h
  · cases h
  · dsimp only at h
    split at h
    · cases h
      exact same_heap_refl _ _
    · split at h
      · cases h
      · rename_i s1 r hacq
        have h1 := (pte_acquire_as_table _ _ _ _ _ hacq).1
        split at h
        · cases h
        · rename_i s5 pte1 ppn hfreed
          have h5 : s5.as_table = s1.as_table := by
            split at hfreed
            · split at hfreed
              · cases hfreed
              · split at hfreed
                · cases hfreed
                · rename_i s2 hshot
                  have h2 : s2.as_table = s1.as_table := by
                    split at hshot
                    · split at hshot
                      · cases hshot
                      · exact vm_tlbshootdown_as_table _ _ _ _ _ hshot
                    · cases hshot
                      rfl
                  split at hfreed
                  · cases hfreed
                  · rename_i s3 hdes
                    have h3 : s3.as_table = s2.as_table := by
                      split at hdes
                      · exact swap_destroy_block_as_table _ _ _ hdes
                      · cases hdes
                        rfl
                    cases hfreed
                    exact h3.trans h2
            · split at hfreed
              · split at hfreed
                · cases hfreed
                · rename_i s2 hdes
                  cases hfreed
                  exact swap_destroy_block_as_table _ _ _ hdes
              · cases hfreed
                rfl
          exact same_heap_trans _ s5 _ _ (same_heap_of_as_table _ _ _ (h5.trans h1))
            (same_heap_trans _ (set_pte s5 a _ _ _) _ _ (same_heap_set_pte _ _ _ _ _ _)
              (same_heap_of_as_table _ _ _ (pte_release_as_table _ _ _ h).1))

theorem sbrk_shrink_loop_heap (cfg : vm_config) (a heap_end n i : Nat) (s t : vm_state)
    (h : sbrk_shrink_loop cfg a heap_end n i s = .ok t) : same_heap s t a := by
  induction n generalizing i s with
  | zero =>
    cases h
    exact same_heap_refl _ _
  | succ n ih =>
    simp only [sbrk_shrink_loop] at h
    split at h
    · cases h
    · rename_i s1 h1
      exact same_heap_trans _ _ _ _ (sbrk_shrink_page_heap cfg s s1 a _ h1) (ih _ _ h)

theorem sys_sbrk_loops (cfg : vm_config) (s : vm_state) (amount : Int) (a : Nat)
    (asp : addrspace) (hcur : s.curproc_as = some a) (hasp : s.as_table a = some asp)
    (halign : asp.as_heap_start % PAGE_SIZE = 0)
    (hstack : cfg.STACK_MIN < 2147483648)
    (h : amount % PAGE_SIZE = 0)
    (hfit : ((asp.as_heap_start + asp.as_heap_size : Nat) : Int) + amount ≤ cfg.STACK_MIN)
    (hnn : 0 ≤ (asp.as_heap_size : Int) + amount) (h0 : amount ≠ 0) :
    sys_sbrk cfg s amount =
      (match (if amount > 0 then
          sbrk_grow_loop cfg a (asp.as_heap_start + asp.as_heap_size)
            (amount / PAGE_SIZE).toNat 0 s
        else
          match sbrk_shrink_loop cfg a (asp.as_heap_start + asp.as_heap_size)
              (-amount / PAGE_SIZE).toNat 1 s with
          | .error x => .error x
          | .ok s1 => .ok (s1, 0)) with
      | .error x => .error x
      | .ok (s1, err) =>
        if err ≠ 0 then .ok (s1, err, -1)
        else
          match s1.as_table a with
          | none => .error .panic
          | some asp1 =>
            .ok ({ s1 with as_table := Function.update s1.as_table a (some { asp1 with as_heap_size := ((asp1.as_heap_size : Int) + amount).toNat }) },
              0, (asp1.as_heap_start : Int) + asp1.as_heap_size)) := by
  have halign4 : ¬ (asp.as_heap_start % PAGE_SIZE ≠ 0) := by simp [halign]
  have hg1 : ¬ ((((asp.as_heap_start + asp.as_heap_size : Nat) : Int) + amount) %
      4294967296 > cfg.STACK_MIN ∧ amount > 0) := by
    intro hc
    have hmod : ((asp.as_heap_start + asp.as_heap_size : Nat) + amount) % 4294967296 =
        (asp.as_heap_start + asp.as_heap_size : Nat) + amount :=
      Int.emod_eq_of_lt (by omega) (by omega)
    rw [hmod] at hc
    omega
  have hg2 : ¬ ((asp.as_heap_size : Int) + amount < 0 ∧ amount < 0) := by omega
  unfold sys_sbrk
  rw [if_neg (not_not.mpr h)]
  simp only [hcur, hasp]
  rw [if_neg halign4, if_neg h0, if_neg hg1, if_neg hg2]

/-- C16 (amended): for the current process, with a page-aligned heap of a
whole number of pages that ends at or below `STACK_MIN` (itself below 2^31)
and `amount` a C `int`: `sys_sbrk(amount)` returns `EINVAL` when `amount` is
not a multiple of the page size, `ENOMEM` when growing would put the heap
end above `STACK_MIN`, and `EINVAL` when shrinking would make the heap size
negative, each time with break -1 and the state unchanged. Otherwise every
result it returns is either 0, with the previous heap end as the break and a
heap size changed by exactly `amount`, still a multiple of the page size
with the heap end at or below `STACK_MIN`; or, only when growing (the
allocation of a page table failed), `ENOMEM` with break -1 and the heap
start and size unchanged. And it does return when the pages to add are not
resident and the pages to drop can be released (`sbrk_shrink_ready`: a
resident page sits in a user frame that is not busy, in the TLB or not). -/
theorem sys_sbrk_result (cfg : vm_config) (s : vm_state) (amount : Int) (a : Nat)
    (asp : addrspace) (hcur : s.curproc_as = some a) (hasp : s.as_table a = some asp)
    (halign : asp.as_heap_start % PAGE_SIZE = 0) (hsize : asp.as_heap_size % PAGE_SIZE = 0)
    (hend : asp.as_heap_start + asp.as_heap_size ≤ cfg.STACK_MIN)
    (hstack : cfg.STACK_MIN < 2147483648)
    (hlo : -2147483648 ≤ amount) (hhi : amount < 2147483648) :
    (amount % PAGE_SIZE ≠ 0 → sys_sbrk cfg s amount = .ok (s, EINVAL, -1)) ∧
    (amount % PAGE_SIZE = 0 → 0 < amount →
      (cfg.STACK_MIN : Int) < (asp.as_heap_start + asp.as_heap_size : Nat) + amount →
      sys_sbrk cfg s amount = .ok (s, ENOMEM, -1)) ∧
    (amount % PAGE_SIZE = 0 → amount < 0 → (asp.as_heap_size : Int) + amount < 0 →
      sys_sbrk cfg s amount = .ok (s, EINVAL, -1)) ∧
    (amount % PAGE_SIZE = 0 →
      ((asp.as_heap_start + asp.as_heap_size : Nat) : Int) + amount ≤ cfg.STACK_MIN →
      0 ≤ (asp.as_heap_size : Int) + amount →
      ∀ t err ret, sys_sbrk cfg s amount = .ok (t, err, ret) →
        ((err = 0 ∧ ret = ((asp.as_heap_start + asp.as_heap_size : Nat) : Int) ∧
          ∃ asp1, t.as_table a = some asp1 ∧ asp1.as_heap_start = asp.as_heap_start ∧
            (asp1.as_heap_size : Int) = asp.as_heap_size + amount ∧
            asp1.as_heap_size % PAGE_SIZE = 0 ∧
            asp1.as_heap_start + asp1.as_heap_size ≤ cfg.STACK_MIN) ∨
         (err = ENOMEM ∧ ret = -1 ∧ 0 < amount ∧
          ∃ asp1, t.as_table a = some asp1 ∧ asp1.as_heap_start = asp.as_heap_start ∧
            asp1.as_heap_size = asp.as_heap_size))) ∧
    (amount % PAGE_SIZE = 0 →
      ((asp.as_heap_start + asp.as_heap_size : Nat) : Int) + amount ≤ cfg.STACK_MIN →
      0 ≤ (asp.as_heap_size : Int) + amount →
      sbrk_grow_ready cfg s a (asp.as_heap_start + asp.as_heap_size)
        (amount / PAGE_SIZE).toNat →
      sbrk_shrink_ready cfg s a (asp.as_heap_start + asp.as_heap_size)
        (-amount / PAGE_SIZE).toNat →
      ∃ t err ret, sys_sbrk cfg s amount = .ok (t, err, ret)) := by
  have halign4 : ¬ (asp.as_heap_start % PAGE_SIZE ≠ 0) := by simp [halign]
  refine ⟨fun h => ?_, fun h hpos hover => ?_, fun h hneg hunder => ?_,
    fun h hfit hnn t err ret hrun => ?_, fun h hfit hnn hgrow hshrink => ?_⟩
  · unfold sys_sbrk
    simp [h]
  · have h0 : amount ≠ 0 := by omega
    have hmod : ((asp.as_heap_start + asp.as_heap_size : Nat) + amount) % 4294967296 =
        (asp.as_heap_start + asp.as_heap_size : Nat) + amount :=
      Int.emod_eq_of_lt (by omega) (by omega)
    unfold sys_sbrk
    rw [if_neg (not_not.mpr h)]
    simp only [hcur, hasp]
    rw [if_neg halign4, if_neg h0, if_pos ⟨by rw [hmod]; exact hover, hpos⟩]
  · have h0 : amount ≠ 0 := by omega
    have hnpos : ¬ (amount > 0) := by omega
    unfold sys_sbrk
    rw [if_neg (not_not.mpr h)]
    simp only [hcur, hasp]
    rw [if_neg halign4, if_neg h0, if_neg (fun hc => hnpos hc.2), if_pos ⟨hunder, hneg⟩]
  · by_cases h0 : amount = 0
    · have hzero : sys_sbrk cfg s amount =
          .ok (s, 0, ((asp.as_heap_start + asp.as_heap_size : Nat) : Int)) := by
        unfold sys_sbrk
        rw [if_neg (not_not.mpr h)]
        simp only [hcur, hasp]
        rw [if_neg halign4, if_pos h0]
      rw [hzero] at hrun
      cases hrun
      exact Or.inl ⟨rfl, rfl, asp, hasp, rfl, by simp [h0], hsize, hend⟩
    · rw [sys_sbrk_loops cfg s amount a asp hcur hasp halign hstack h hfit hnn h0]
        at hrun
      rcases lt_or_gt_of_ne h0 with hneg | hpos
      · rw [if_neg (by omega : ¬ amount > 0)] at hrun
        cases hl : sbrk_shrink_loop cfg a (asp.as_heap_start + asp.as_heap_size)
            (-amount / PAGE_SIZE).toNat 1 s with
        | error x =>
          rw [hl] at hrun
          cases hrun
        | ok s1 =>
          rw [hl] at hrun
          obtain ⟨asp1, hasp1, e1, e2⟩ := sbrk_shrink_loop_heap cfg a _ _ _ s s1 hl asp hasp
          simp only [hasp1, ne_eq, not_true_eq_false, if_false] at hrun
          cases hrun
          refine Or.inl ⟨rfl, ?_, _, Function.update_same _ _ _, e1, ?_, ?_, ?_⟩
          · rw [e1, e2]
            push_cast
            rfl
          · simp only [e2]
            omega
          · simp only [e2, PAGE_SIZE] at hsize h ⊢
            omega
          · simp only [e1, e2]
            omega
      · rw [if_pos hpos] at hrun
        cases hl : sbrk_grow_loop cfg a (asp.as_heap_start + asp.as_heap_size)
            (amount / PAGE_SIZE).toNat 0 s with
        | error x =>
          rw [hl] at hrun
          cases hrun
        | ok r =>
          obtain ⟨s1, err1⟩ := r
          rw [hl] at hrun
          obtain ⟨hheap, herr⟩ := sbrk_grow_loop_heap cfg a _ _ _ s s1 err1 hl
          obtain ⟨asp1, hasp1, e1, e2⟩ := hheap asp hasp
          rcases herr with rfl | rfl
          · simp only [hasp1, ne_eq, not_true_eq_false, if_false] at hrun
            cases hrun
            refine Or.inl ⟨rfl, ?_, _, Function.update_same _ _ _, e1, ?_, ?_, ?_⟩
            · rw [e1, e2]
              push_cast
              rfl
            · simp only [e2]
              omega
            · simp only [e2, PAGE_SIZE] at hsize h ⊢
              omega
            · simp only [e1, e2]
              omega
          · simp only [ENOMEM, ne_eq, OfNat.ofNat_ne_zero, not_false_eq_true, if_true] at hrun
            cases hrun
            exact Or.inr ⟨rfl, rfl, hpos, asp1, hasp1, e1, e2⟩
  · by_cases h0 : amount = 0
    · refine ⟨s, 0, ((asp.as_heap_start + asp.as_heap_size : Nat) : Int), ?_⟩
      unfold sys_sbrk
      rw [if_neg (not_not.mpr h)]
      simp only [hcur, hasp]
      rw [if_neg halign4, if_pos h0]
    · rw [sys_sbrk_loops cfg s amount a asp hcur hasp halign hstack h hfit hnn h0]
      have hend0 : (asp.as_heap_start + asp.as_heap_size) % PAGE_SIZE = 0 := by
        simp only [PAGE_SIZE] at halign hsize ⊢
        omega
      rcases lt_or_gt_of_ne h0 with hneg | hpos
      · have hn : (((-amount / PAGE_SIZE).toNat : Nat) : Int) * 4096 = -amount := by
          simp only [PAGE_SIZE] at h ⊢
          omega
        obtain ⟨s1, hl, hheap⟩ := sbrk_shrink_loop_total cfg a
          (asp.as_heap_start + asp.as_heap_size) (-amount / PAGE_SIZE).toNat 1 s asp hasp hend0
          (by simp only [PAGE_SIZE] at hn ⊢; omega) (by omega)
          (fun j hj => by rw [Nat.add_comm 1 j]; exact hshrink j hj)
        obtain ⟨asp1, hasp1, e1, e2⟩ := hheap asp hasp
        rw [if_neg (by omega : ¬ amount > 0), hl]
        simp only [hasp1, ne_eq, not_true_eq_false, if_false]
        exact ⟨_, _, _, rfl⟩
      · have hn : (((amount / PAGE_SIZE).toNat : Nat) : Int) * 4096 = amount := by
          simp only [PAGE_SIZE] at h ⊢
          omega
        obtain ⟨s1, err, hl⟩ := sbrk_grow_loop_total cfg a
          (asp.as_heap_start + asp.as_heap_size) (amount / PAGE_SIZE).toNat 0 s asp hasp
          (fun j hj => by
            rw [Nat.zero_add, Nat.mod_eq_of_lt]
            · exact hgrow j hj
            · simp only [PAGE_SIZE] at hn hj ⊢
              omega)
        obtain ⟨hheap, herr⟩ := sbrk_grow_loop_heap cfg a _ _ _ s s1 err hl
        obtain ⟨asp1, hasp1, e1, e2⟩ := hheap asp hasp
        rw [if_pos hpos, hl]
        rcases herr with rfl | rfl
        · simp only [hasp1, ne_eq, not_true_eq_false, if_false]
          exact ⟨_, _, _, rfl⟩
        · exact ⟨s1, ENOMEM, -1, by simp [ENOMEM]⟩

theorem option_some_getD {α : Type} (o : Option α) (d : α) (h : o.isSome = true) :
    o = some (o.getD d) := by
  cases o with
  | none => cases h
  | some x => rfl

set_option maxRecDepth 100000 in
/-- An instance of `sys_sbrk_result`: on `touched_vm` the heap of address
space 1 is one page, resident and in the TLB; `sys_sbrk(-PAGE_SIZE)`
returns 0 with the previous heap end `5*PAGE_SIZE` as the break and leaves
an empty heap. -/
theorem sys_sbrk_result_witness :
    (touched_as.as_heap_start, touched_as.as_heap_size) = (4 * PAGE_SIZE, PAGE_SIZE) ∧
    (get_pte touched_vm 1 1 0).map
      (fun p => (p.pte_present, (touched_vm.cm_entries p.pte_ppn).cme_tlb)) =
        some (true, true) ∧
    ∃ t err ret, sys_sbrk small_cfg touched_vm (-(PAGE_SIZE : Int)) = .ok (t, err, ret) ∧
      ((err = 0 ∧ ret = ((touched_as.as_heap_start + touched_as.as_heap_size : Nat) : Int) ∧
        ∃ asp1, t.as_table 1 = some asp1 ∧ asp1.as_heap_start = touched_as.as_heap_start ∧
          (asp1.as_heap_size : Int) = touched_as.as_heap_size + -(PAGE_SIZE : Int) ∧
          asp1.as_heap_size % PAGE_SIZE = 0 ∧
          asp1.as_heap_start + asp1.as_heap_size ≤ small_cfg.STACK_MIN) ∨
       (err = ENOMEM ∧ ret = -1 ∧ (0 : Int) < -(PAGE_SIZE : Int) ∧
        ∃ asp1, t.as_table 1 = some asp1 ∧ asp1.as_heap_start = touched_as.as_heap_start ∧
          asp1.as_heap_size = touched_as.as_heap_size)) := by
  have hres := sys_sbrk_result small_cfg touched_vm (-(PAGE_SIZE : Int)) 1 touched_as
    (by decide) (option_some_getD _ _ (by decide)) (by decide) (by decide) (by decide)
    (by decide) (by decide) (by decide)
  obtain ⟨t, err, ret, hrun⟩ :=
    hres.2.2.2.2 (by decide) (by decide) (by decide) (by decide) (by decide)
  exact ⟨by decide, by decide, t, err, ret, hrun,
    hres.2.2.2.1 (by decide) (by decide) (by decide) t err ret hrun⟩

set_option maxRecDepth 100000 in
/-- C16 as stated fails: on `tight_vm` (heap of address space 1 empty at
`3 * PAGE_SIZE`, `STACK_MIN` at `6 * PAGE_SIZE`, every `kmalloc` failing)
`sys_sbrk(2 * PAGE_SIZE)` is none of the three listed failures, yet it
returns `ENOMEM` with break -1 instead of the previous heap end, and the PTE
of the first new page has been rewritten. -/
theorem sys_sbrk_table_counterexample :
    tight_vm.curproc_as = some 1 ∧
    (tight_vm.as_table 1).map (fun x => (x.as_heap_start, x.as_heap_size)) =
      some (3 * PAGE_SIZE, 0) ∧
    ((2 * PAGE_SIZE : Nat) : Int) % PAGE_SIZE = 0 ∧
    3 * PAGE_SIZE + 0 + 2 * PAGE_SIZE ≤ small_cfg.STACK_MIN ∧
    (sys_sbrk small_cfg tight_vm ((2 * PAGE_SIZE : Nat) : Int)).toOption.map
      (fun r => (r.2.1, r.2.2)) = some (ENOMEM, -1) ∧
    (get_pte tight_vm 1 0 3).map (fun p => p.pte_zeroed) = some false ∧
    ((sys_sbrk small_cfg tight_vm ((2 * PAGE_SIZE : Nat) : Int)).toOption.bind
      (fun r => get_pte r.1 1 0 3)).map (fun p => p.pte_zeroed) = some true := by
  decide

/-! ### Fork: the copy of the resident pages -/

/-- C21 (evaluation). A record of one whole block (`len = 512`) does not
survive the header round trip: the halved length 256 does not fit the
8-bit length field and its top bit lands in the lowest bit of the type
field. For class 0, type 8, length 512 and LSN 5 the header decodes to
class 0, type 9, length 0 and LSN 5; length 511 behaves the same, while
length 510 decodes to type 8 and length 510. -/
theorem coninfo_whole_block_eval :
    SFS_CONINFO_CLASS (SFS_MKCONINFO 0 8 512 5) = 0 ∧
    SFS_CONINFO_TYPE (SFS_MKCONINFO 0 8 512 5) = 9 ∧
    SFS_CONINFO_LEN (SFS_MKCONINFO 0 8 512 5) = 0 ∧
    SFS_CONINFO_LSN (SFS_MKCONINFO 0 8 512 5) = 5 ∧
    SFS_CONINFO_TYPE (SFS_MKCONINFO 0 8 511 5) = 9 ∧
    SFS_CONINFO_LEN (SFS_MKCONINFO 0 8 511 5) = 0 ∧
    SFS_CONINFO_TYPE (SFS_MKCONINFO 0 8 510 5) = 8 ∧
    SFS_CONINFO_LEN (SFS_MKCONINFO 0 8 510 5) = 510 := by
  decide

/-- C22 (evaluation). On a freshly attached buffer the calls of
`update_buffer_metadata` with the ids 5 and then 3 leave `md_oldtnx = 5`,
which is the first id passed and not the smallest one; the same ids in the
order 3, 5 leave `md_oldtnx = 3`. In both orders `md_newtnx` is the largest
id, 5. -/
theorem update_buffer_metadata_order_eval :
    [5, 3].foldl update_buffer_metadata fresh_metadata = { md_oldtnx := 5, md_newtnx := 5 } ∧
    [3, 5].foldl update_buffer_metadata fresh_metadata = { md_oldtnx := 3, md_newtnx := 5 } := by
  decide

/-- C23. Aborted-transaction bitmap rollback. For an alloc-block or
free-block record of a transaction found in the aborted list, processing
in the redo direction returns the volume as it was (no freemap bit
changes), while processing in the undo direction succeeds and rolls the
bit back: after an alloc-block record the bit of the record's block is
free, after a free-block record it is used; the bit of every other block
and every disk block are as before. -/
theorem aborted_bitmap_rollback (ops : sfs_dirops) (b_le : block_le) (sfs : sfs_fs)
    (protected_blocks : List protected_block) (lsn : Nat) (aborted : List Nat)
    (hab : (find_tnx aborted b_le.le_tnx).isSome = true) :
    process_journal_entry ops (.ALLOC_BLOCK b_le) sfs P_REDO protected_blocks lsn aborted
      = some sfs ∧
    process_journal_entry ops (.FREE_BLOCK b_le) sfs P_REDO protected_blocks lsn aborted
      = some sfs ∧
    (∃ t, process_journal_entry ops (.ALLOC_BLOCK b_le) sfs P_UNDO protected_blocks lsn aborted
        = some t ∧ t.sfs_freemap b_le.le_blocknum = false ∧
      (∀ c, c ≠ b_le.le_blocknum → t.sfs_freemap c = sfs.sfs_freemap c) ∧
      t.blocks = sfs.blocks) ∧
    (∃ t, process_journal_entry ops (.FREE_BLOCK b_le) sfs P_UNDO protected_blocks lsn aborted
        = some t ∧ t.sfs_freemap b_le.le_blocknum = true ∧
      (∀ c, c ≠ b_le.le_blocknum → t.sfs_freemap c = sfs.sfs_freemap c) ∧
      t.blocks = sfs.blocks) := by
  refine ⟨?_, ?_, ?_, ?_⟩
  · simp [process_journal_entry, parse_alloc_block, hab]
  · simp [process_journal_entry, parse_free_block, hab]
  · have h : process_journal_entry ops (.ALLOC_BLOCK b_le) sfs P_UNDO protected_blocks lsn
        aborted = some { sfs with
          sfs_freemap := if sfs.sfs_freemap b_le.le_blocknum = true then
            Function.update sfs.sfs_freemap b_le.le_blocknum false else sfs.sfs_freemap,
          sfs_freemapdirty := true } := by
      simp [process_journal_entry, parse_alloc_block]
    rw [h]
    refine ⟨_, rfl, ?_, ?_, rfl⟩
    · cases h1 : sfs.sfs_freemap b_le.le_blocknum <;> simp [h1]
    · intro c hc
      cases h1 : sfs.sfs_freemap b_le.le_blocknum <;> simp [Function.update_noteq hc]
  · have h : process_journal_entry ops (.FREE_BLOCK b_le) sfs P_UNDO protected_blocks lsn
        aborted = some { sfs with
          sfs_freemap := if sfs.sfs_freemap b_le.le_blocknum = false then
            Function.update sfs.sfs_freemap b_le.le_blocknum true else sfs.sfs_freemap,
          sfs_freemapdirty := true } := by
      simp [process_journal_entry, parse_free_block]
    rw [h]
    refine ⟨_, rfl, ?_, ?_, rfl⟩
    · cases h1 : sfs.sfs_freemap b_le.le_blocknum <;> simp [h1]
    · intro c hc
      cases h1 : sfs.sfs_freemap b_le.le_blocknum <;> simp [Function.update_noteq hc]

/-- An instance of `aborted_bitmap_rollback`: transaction 4 is aborted and
its records name block 9 of the blank volume. -/
theorem aborted_bitmap_rollback_witness :
    (find_tnx [4] 4).isSome = true ∧
    process_journal_entry no_dirops (.ALLOC_BLOCK ⟨4, 9⟩) blank_fs P_REDO [] 7 [4]
      = some blank_fs ∧
    (∃ t, process_journal_entry no_dirops (.FREE_BLOCK ⟨4, 9⟩) blank_fs P_UNDO [] 7 [4]
        = some t ∧ t.sfs_freemap 9 = true ∧
      (∀ c, c ≠ 9 → t.sfs_freemap c = blank_fs.sfs_freemap c) ∧ t.blocks = blank_fs.blocks) :=
  ⟨by decide, (aborted_bitmap_rollback no_dirops ⟨4, 9⟩ blank_fs [] 7 [4] (by decide)).1,
    (aborted_bitmap_rollback no_dirops ⟨4, 9⟩ blank_fs [] 7 [4] (by decide)).2.2.2⟩

theorem is_block_in_array_entries (pb : List protected_block) (b : Nat) :
    is_block_in_array pb b = true ↔ pb_entries pb b ≠ [] := by
  induction pb with
  | nil => simp [is_block_in_array, pb_entries]
  | cons p pb ih =>
    unfold pb_entries at ih ⊢
    by_cases h : p.pb_block = b
    · simp [is_block_in_array, h, List.filter_cons]
    · simp [is_block_in_array, h, List.filter_cons, ih]

theorem add_protected_block_entries (pb : List protected_block) (l c b : Nat) :
    pb_entries (add_protected_block pb l c) b =
      if c = b ∧ pb_entries pb b = [] then [⟨b, l⟩] else pb_entries pb b := by
  unfold add_protected_block
  by_cases hin : is_block_in_array pb c = true
  · rw [if_pos hin]
    have := (is_block_in_array_entries pb c).1 hin
    by_cases hc : c = b
    · subst hc
      rw [if_neg (by simp [this])]
    · rw [if_neg (by simp [hc])]
  · rw [if_neg hin]
    have hn : pb_entries pb c = [] := by
      by_contra h
      exact hin ((is_block_in_array_entries pb c).2 h)
    by_cases hc : c = b
    · subst hc
      rw [if_pos ⟨rfl, hn⟩]
      unfold pb_entries at hn ⊢
      simp [List.filter_append, hn]
    · rw [if_neg (by simp [hc])]
      unfold pb_entries
      simp [List.filter_append, hc]

theorem check_step_entries (st : check_state) (e : jentry) (b : Nat) :
    pb_entries (check_step st e).protected_blocks b =
      if is_alloc_of b e = true ∧ pb_entries st.protected_blocks b = [] then [⟨b, e.lsn⟩]
      else pb_entries st.protected_blocks b := by
  unfold check_step is_alloc_of
  cases hr : e.record with
  | ALLOC_BLOCK d =>
    simp only [add_protected_block_entries, decide_eq_true_eq]
  | START_TRANSACTION d =>
    simp only
    cases find_tnx st.ended_tx d.le_tnx <;> simp
  | _ => simp

/-- C25. Protected-block table. Let the journal be in increasing LSN order
from its oldest record on, so that the check pass, which walks from the
newest record to the oldest, visits the records in decreasing LSN order.
After the check pass, for every block `b`: if some alloc-block record names
`b`, the table holds exactly one entry for `b`, and the LSN of that entry is
the LSN of an alloc-block record of `b` and is at least the LSN of every
alloc-block record of `b`; if no alloc-block record names `b`, the table
holds no entry for `b`. -/
theorem protected_table_newest (J : Journal)
    (hJ : J.Pairwise (fun x y => x.lsn < y.lsn)) (b : Nat) :
    ((∃ a ∈ J, is_alloc_of b a = true) →
      ∃ l, pb_entries (check_pass J).protected_blocks b = [⟨b, l⟩] ∧
        (∃ a ∈ J, is_alloc_of b a = true ∧ a.lsn = l) ∧
        ∀ x ∈ J, is_alloc_of b x = true → x.lsn ≤ l) ∧
    ((∀ x ∈ J, is_alloc_of b x = false) →
      pb_entries (check_pass J).protected_blocks b = []) := by
  have hcp : ∀ K : Journal, (check_pass K).protected_blocks = (check_loop K).protected_blocks :=
    fun _ => rfl
  rw [hcp]
  induction J with
  | nil =>
    refine ⟨?_, fun _ => rfl⟩
    rintro ⟨a, ha, _⟩
    simp at ha
  | cons e J ih =>
    rw [List.pairwise_cons] at hJ
    obtain ⟨ih1, ih2⟩ := ih hJ.2
    rw [check_loop_cons, check_step_entries]
    by_cases hex : ∃ a ∈ J, is_alloc_of b a = true
    · obtain ⟨l, hl, ⟨a, haJ, haa, hal⟩, hmax⟩ := ih1 hex
      refine ⟨fun _ => ⟨l, ?_, ⟨a, List.mem_cons_of_mem _ haJ, haa, hal⟩, ?_⟩, ?_⟩
      · rw [if_neg (by simp [hl]), hl]
      · intro x hx hxa
        rcases List.mem_cons.1 hx with rfl | hx
        · have := hJ.1 a haJ
          omega
        · exact hmax x hx hxa
      · intro hno
        obtain ⟨a, haJ, haa⟩ := hex
        have := hno a (List.mem_cons_of_mem _ haJ)
        rw [haa] at this
        cases this
    · have hnone : ∀ x ∈ J, is_alloc_of b x = false := by
        intro x hx
        cases hxa : is_alloc_of b x
        · rfl
        · exact absurd ⟨x, hx, hxa⟩ hex
      have h0 := ih2 hnone
      by_cases he : is_alloc_of b e = true
      · refine ⟨fun _ => ⟨e.lsn, ?_, ⟨e, List.mem_cons_self _ _, he, rfl⟩, ?_⟩, ?_⟩
        · rw [if_pos ⟨he, h0⟩]
        · intro x hx hxa
          rcases List.mem_cons.1 hx with rfl | hx
          · exact le_rfl
          · rw [hnone x hx] at hxa
            cases hxa
        · intro hno
          have := hno e (List.mem_cons_self _ _)
          rw [he] at this
          cases this
      · refine ⟨?_, fun _ => ?_⟩
        · rintro ⟨a, ha, haa⟩
          rcases List.mem_cons.1 ha with rfl | ha
          · exact absurd haa he
          · rw [hnone a ha] at haa
            cases haa
        · rw [if_neg (by simp [he]), h0]

/-- An instance of `protected_table_newest`: in `twice_alloc_journal` block
7 is allocated at LSN 2 and at LSN 5, and the table holds the single entry
`(7, 5)` for it. -/
theorem protected_table_newest_witness :
    twice_alloc_journal.Pairwise (fun x y => x.lsn < y.lsn) ∧
    (∃ a ∈ twice_alloc_journal, is_alloc_of 7 a = true) ∧
    pb_entries (check_pass twice_alloc_journal).protected_blocks 7 = [⟨7, 5⟩] ∧
    ∃ l, pb_entries (check_pass twice_alloc_journal).protected_blocks 7 = [⟨7, l⟩] ∧
      (∃ a ∈ twice_alloc_journal, is_alloc_of 7 a = true ∧ a.lsn = l) ∧
      ∀ x ∈ twice_alloc_journal, is_alloc_of 7 x = true → x.lsn ≤ l :=
  ⟨by decide, by decide, by decide,
    (protected_table_newest twice_alloc_journal (by decide) 7).1 (by decide)⟩

/-- C26 (counterexample). On `zero_journal` the undo pass enters block 9
into the latest-writes table with the LSN 2 of the zero-block record
itself and leaves the block as it was (word 10 is 7). In the redo pass the
zero-block record at LSN 2 is not skipped, although its block is present
in the table: the redo step zeroes block 9, and so does the whole
recovery. -/
theorem zero_block_redo_counterexample :
    (undo_pass no_dirops (check_pass zero_journal).protected_blocks
        (check_pass zero_journal).aborted_tx zero_journal zero_fs).map
      (fun st => (st.latest_writes, is_block_in_array st.latest_writes 9, st.sfs.blocks 9 10,
        (redo_step no_dirops (check_pass zero_journal).protected_blocks st.latest_writes
          (check_pass zero_journal).aborted_tx st.sfs ⟨2, .ZERO_BLOCK ⟨1, 9⟩⟩).map
          (fun s => s.blocks 9 10)))
      = some ([⟨9, 2⟩], true, 7, some 0) ∧
    (redo_step no_dirops [] [⟨9, 2⟩] [] zero_fs ⟨2, .ZERO_BLOCK ⟨1, 9⟩⟩).map
      (fun s => s.blocks 9) = some bzero_block ∧
    (recovery no_dirops zero_journal zero_fs).map (fun s => s.blocks 9) = some bzero_block := by
  refine ⟨by decide, rfl, rfl⟩

/-- C26 (amended). In a redo-pass step, a zero-block record whose block is
listed in the latest-writes table with an LSN greater than the LSN of the
record is skipped: the step returns the volume as it was. This holds for
every latest-writes table, in particular for the one built by the undo
pass. -/
theorem zero_block_redo_skip (ops : sfs_dirops)
    (protected_blocks latest_writes : List protected_block) (aborted_tx : List Nat)
    (sfs : sfs_fs) (e : jentry) (b_le : block_le) (l : Nat)
    (hr : e.record = .ZERO_BLOCK b_le)
    (hl : pb_lookup latest_writes b_le.le_blocknum = some l) (hlt : e.lsn < l) :
    redo_step ops protected_blocks latest_writes aborted_tx sfs e = some sfs := by
  unfold redo_step
  rw [hr]
  simp only
  rw [if_pos]
  rw [is_block_protected_eq, hl]
  simpa using hlt

/-- An instance of `zero_block_redo_skip`: block 9 is listed with LSN 3 and
the zero-block record has LSN 2. -/
theorem zero_block_redo_skip_witness :
    pb_lookup [⟨9, 3⟩] 9 = some 3 ∧
    redo_step no_dirops [] [⟨9, 3⟩] [] zero_fs ⟨2, .ZERO_BLOCK ⟨1, 9⟩⟩ = some zero_fs :=
  ⟨by decide, zero_block_redo_skip no_dirops [] [⟨9, 3⟩] [] zero_fs ⟨2, .ZERO_BLOCK ⟨1, 9⟩⟩
    ⟨1, 9⟩ 3 rfl (by decide) (by decide)⟩

theorem get_u32_set_u32 (b : Block) (k v : Nat) :
    get_u32 (set_u32 b k v) k = v % 4294967296 := by
  unfold get_u32 set_u32 get_u16
  rw [Function.update_same, Function.update_noteq (by omega), Function.update_same]
  omega

theorem set_u32_other (b : Block) (k v i : Nat) (h1 : i ≠ 2 * k) (h2 : i ≠ 2 * k + 1) :
    set_u32 b k v i = b i := by
  unfold set_u32
  rw [Function.update_noteq h2, Function.update_noteq h1]

theorem get_u16_set_u16 (b : Block) (i v : Nat) : get_u16 (set_u16 b i v) i = v % 65536 := by
  unfold get_u16 set_u16
  rw [Function.update_same]
  omega

theorem set_u16_other (b : Block) (i v j : Nat) (h : j ≠ i) : set_u16 b i v j = b j := by
  unfold set_u16
  rw [Function.update_noteq h]

theorem reinit_inode_same (x : Block) (ty : Nat) (h : sfi_type x = ty) :
    reinit_inode x ty ty = x := by
  unfold reinit_inode
  rw [if_neg (by simp [h])]

theorem reinit_inode_differs (x : Block) (ty : Nat) (h : sfi_type x ≠ ty) :
    reinit_inode x ty ty = set_sfi_type bzero_block ty := by
  unfold reinit_inode
  rw [if_pos h]

/-- C27. Inode-field records. Let the record belong to a transaction that
is not in the aborted list and let its inode block be unprotected at the
LSN of the record. Processing a change-size record, a change-link-count
record, a change-indirect-pointer record of level 0, 1 or 2, or a
change-direct-pointer record of a pointer index below `SFS_NDIRECT`
succeeds and replaces the image of the inode block by an image `img`
(every other block and the freemap bits are as before) in which the
targeted field holds the new value in redo and the old value in undo
(truncated to the width of the field). If the on-disk inode type equals the
type stored in the record, `img` agrees with the on-disk image at every
word outside the targeted field; if the type differs, `img` is the
all-zero image with the type of the record stored and the targeted field
set. The words of the fields are: size, words 0 and 1; link count, word 3;
indirect pointer of level `v`, the 32-bit slot `17 + v`; direct pointer
`k`, the 32-bit slot `2 + k`. -/
theorem inode_field_records (ops : sfs_dirops) (d : journal_direction_p)
    (protected_blocks : List protected_block) (lsn : Nat) (aborted : List Nat) (sfs : sfs_fs) :
    (∀ r : change_size_le, find_tnx aborted r.le_tnx = none →
      is_block_protected protected_blocks lsn r.le_ino = false →
      ∃ img, process_journal_entry ops (.CHANGE_SIZE r) sfs d protected_blocks lsn aborted
          = some (put_block sfs r.le_ino img) ∧
        sfi_size img = (if d = P_REDO then r.le_newsize else r.le_oldsize) % 4294967296 ∧
        (sfi_type (sfs.blocks r.le_ino) = r.le_type →
          ∀ i, i ≠ 0 → i ≠ 1 → img i = sfs.blocks r.le_ino i) ∧
        (sfi_type (sfs.blocks r.le_ino) ≠ r.le_type →
          img = set_sfi_size (set_sfi_type bzero_block r.le_type)
            (if d = P_REDO then r.le_newsize else r.le_oldsize))) ∧
    (∀ r : change_linkcount_le, find_tnx aborted r.le_tnx = none →
      is_block_protected protected_blocks lsn r.le_ino = false →
      ∃ img, process_journal_entry ops (.CHANGE_LINK_CNT r) sfs d protected_blocks lsn aborted
          = some (put_block sfs r.le_ino img) ∧
        sfi_linkcount img = (if d = P_REDO then r.le_newcount else r.le_oldcount) % 65536 ∧
        (sfi_type (sfs.blocks r.le_ino) = r.le_inodetype →
          ∀ i, i ≠ 3 → img i = sfs.blocks r.le_ino i) ∧
        (sfi_type (sfs.blocks r.le_ino) ≠ r.le_inodetype →
          img = set_sfi_linkcount (set_sfi_type bzero_block r.le_inodetype)
            (if d = P_REDO then r.le_newcount else r.le_oldcount))) ∧
    (∀ r : change_indirect_ptr_le, find_tnx aborted r.le_tnx = none →
      is_block_protected protected_blocks lsn r.le_ino = false → r.le_level ≤ 2 →
      ∃ img, process_journal_entry ops (.CHANGE_INDIRECT_PTR r) sfs d protected_blocks lsn
          aborted = some (put_block sfs r.le_ino img) ∧
        get_u32 img (17 + r.le_level)
          = (if d = P_REDO then r.le_newptr else r.le_oldptr) % 4294967296 ∧
        (sfi_type (sfs.blocks r.le_ino) = r.le_type →
          ∀ i, i ≠ 2 * (17 + r.le_level) → i ≠ 2 * (17 + r.le_level) + 1 →
            img i = sfs.blocks r.le_ino i) ∧
        (sfi_type (sfs.blocks r.le_ino) ≠ r.le_type →
          img = set_u32 (set_sfi_type bzero_block r.le_type) (17 + r.le_level)
            (if d = P_REDO then r.le_newptr else r.le_oldptr))) ∧
    (∀ r : change_ptr_le, find_tnx aborted r.le_tnx = none →
      is_block_protected protected_blocks lsn r.le_ino = false → r.le_ptrnum < SFS_NDIRECT →
      ∃ img, process_journal_entry ops (.CHANGE_DIRECT_PTR r) sfs d protected_blocks lsn
          aborted = some (put_block sfs r.le_ino img) ∧
        sfi_direct img r.le_ptrnum
          = (if d = P_REDO then r.le_newptr else r.le_oldptr) % 4294967296 ∧
        (sfi_type (sfs.blocks r.le_ino) = r.le_type →
          ∀ i, i ≠ 2 * (2 + r.le_ptrnum) → i ≠ 2 * (2 + r.le_ptrnum) + 1 →
            img i = sfs.blocks r.le_ino i) ∧
        (sfi_type (sfs.blocks r.le_ino) ≠ r.le_type →
          img = set_sfi_direct (set_sfi_type bzero_block r.le_type) r.le_ptrnum
            (if d = P_REDO then r.le_newptr else r.le_oldptr))) := by
  refine ⟨?_, ?_, ?_, ?_⟩
  · intro r hab hp
    have hrun : process_journal_entry ops (.CHANGE_SIZE r) sfs d protected_blocks lsn aborted
        = some (put_block sfs r.le_ino
          (set_sfi_size (reinit_inode (sfs.blocks r.le_ino) r.le_type r.le_type)
            (if d = P_REDO then r.le_newsize else r.le_oldsize))) := by
      simp only [process_journal_entry, parse_change_size, hab, hp, Option.isSome_none,
        Bool.false_eq_true, if_false]
    refine ⟨_, hrun, ?_, ?_, ?_⟩
    · exact get_u32_set_u32 _ _ _
    · intro ht i h0 h1
      rw [reinit_inode_same _ _ ht]
      exact set_u32_other _ _ _ _ (by omega) (by omega)
    · intro ht
      rw [reinit_inode_differs _ _ ht]
  · intro r hab hp
    have hrun : process_journal_entry ops (.CHANGE_LINK_CNT r) sfs d protected_blocks lsn
        aborted = some (put_block sfs r.le_ino
          (set_sfi_linkcount (reinit_inode (sfs.blocks r.le_ino) r.le_inodetype r.le_inodetype)
            (if d = P_REDO then r.le_newcount else r.le_oldcount))) := by
      simp only [process_journal_entry, parse_change_link_cnt, hab, hp, Option.isSome_none,
        Bool.false_eq_true, if_false]
    refine ⟨_, hrun, ?_, ?_, ?_⟩
    · exact get_u16_set_u16 _ _ _
    · intro ht i h3
      rw [reinit_inode_same _ _ ht]
      exact set_u16_other _ _ _ _ h3
    · intro ht
      rw [reinit_inode_differs _ _ ht]
  · intro r hab hp hlev
    have hcase : r.le_level = 0 ∨ r.le_level = 1 ∨ r.le_level = 2 := by omega
    have hrun : process_journal_entry ops (.CHANGE_INDIRECT_PTR r) sfs d protected_blocks lsn
        aborted = some (put_block sfs r.le_ino
          (set_u32 (reinit_inode (sfs.blocks r.le_ino) r.le_type r.le_type) (17 + r.le_level)
            (if d = P_REDO then r.le_newptr else r.le_oldptr))) := by
      simp only [process_journal_entry, parse_change_indirect_ptr, hab, hp, Option.isSome_none,
        Bool.false_eq_true, if_false, P_SINGLE, P_DOUBLE, P_TRIPLE]
      rcases hcase with h | h | h <;> rw [h] <;>
        simp [set_sfi_indirect, set_sfi_dindirect, set_sfi_tindirect]
    refine ⟨_, hrun, ?_, ?_, ?_⟩
    · exact get_u32_set_u32 _ _ _
    · intro ht i h0 h1
      rw [reinit_inode_same _ _ ht]
      exact set_u32_other _ _ _ _ h0 h1
    · intro ht
      rw [reinit_inode_differs _ _ ht]
  · intro r hab hp hnum
    have hrun : process_journal_entry ops (.CHANGE_DIRECT_PTR r) sfs d protected_blocks lsn
        aborted = some (put_block sfs r.le_ino
          (set_sfi_direct (reinit_inode (sfs.blocks r.le_ino) r.le_type r.le_type) r.le_ptrnum
            (if d = P_REDO then r.le_newptr else r.le_oldptr))) := by
      simp only [process_journal_entry, parse_change_direct_ptr, hab, hp, Option.isSome_none,
        Bool.false_eq_true, if_false, hnum, if_true]
    refine ⟨_, hrun, ?_, ?_, ?_⟩
    · exact get_u32_set_u32 _ _ _
    · intro ht i h0 h1
      rw [reinit_inode_same _ _ ht]
      exact set_u32_other _ _ _ _ h0 h1
    · intro ht
      rw [reinit_inode_differs _ _ ht]

/-- An instance of `inode_field_records`: on `crash_fs`, whose inode 7 is a
file of size 300, the undo of the change-size record of `crash_journal`
gives an image of size 100 that agrees with the old one outside words 0
and 1. -/
theorem inode_field_records_witness :
    find_tnx [] 10 = none ∧ is_block_protected [] 11 7 = false ∧
    sfi_type (crash_fs.blocks 7) = 1 ∧
    ∃ img, process_journal_entry no_dirops (.CHANGE_SIZE ⟨10, 7, 100, 300, 1⟩) crash_fs P_UNDO
        [] 11 [] = some (put_block crash_fs 7 img) ∧
      sfi_size img = (if P_UNDO = P_REDO then 300 else 100) % 4294967296 ∧
      (sfi_type (crash_fs.blocks 7) = 1 → ∀ i, i ≠ 0 → i ≠ 1 → img i = crash_fs.blocks 7 i) ∧
      (sfi_type (crash_fs.blocks 7) ≠ 1 →
        img = set_sfi_size (set_sfi_type bzero_block 1) (if P_UNDO = P_REDO then 300 else 100)) :=
  ⟨by decide, by decide, by decide,
    (inode_field_records no_dirops P_UNDO [] 11 [] crash_fs).1 ⟨10, 7, 100, 300, 1⟩
      (by decide) (by decide)⟩

theorem fletcher32_inner_snoc (data : Block) (n pos s1 s2 : Nat) :
    fletcher32_inner data (n + 1) pos s1 s2 =
      ((fletcher32_inner data n pos s1 s2).1 + 1,
       ((fletcher32_inner data n pos s1 s2).2.1 +
          get_u16 data (fletcher32_inner data n pos s1 s2).1) % 4294967296,
       ((fletcher32_inner data n pos s1 s2).2.2 +
          ((fletcher32_inner data n pos s1 s2).2.1 +
            get_u16 data (fletcher32_inner data n pos s1 s2).1) % 4294967296) % 4294967296) := by
  induction n generalizing pos s1 s2 with
  | zero => simp [fletcher32_inner]
  | succ n ih =>
    rw [fletcher32_inner, ih]
    simp only [fletcher32_inner]

theorem low_sum_le (data : Block) (k : Nat) : low_sum data k ≤ 65535 * (k + 1) := by
  induction k with
  | zero => simp [low_sum]
  | succ k ih =>
    have : get_u16 data k < 65536 := Nat.mod_lt _ (by norm_num)
    simp only [low_sum]
    omega

theorem high_sum_le (data : Block) (k : Nat) :
    2 * high_sum data k ≤ 65535 * (2 + k * (k + 3)) := by
  induction k with
  | zero => simp only [high_sum]; omega
  | succ k ih =>
    have h := low_sum_le data (k + 1)
    have e : (k + 1) * (k + 1 + 3) = k * (k + 3) + 2 * (k + 2) := by ring
    simp only [high_sum]
    rw [e]
    generalize k * (k + 3) = q at ih ⊢
    omega

theorem high_sum_lt (data : Block) (k : Nat) (hk : k ≤ 256) :
    high_sum data k < 4294967296 := by
  have h := high_sum_le data k
  have : k * (k + 3) ≤ 256 * 259 := Nat.mul_le_mul hk (by omega)
  omega

theorem low_sum_lt (data : Block) (k : Nat) (hk : k ≤ 256) :
    low_sum data k < 4294967296 := by
  have h := low_sum_le data k
  omega

theorem fletcher32_inner_sums (data : Block) (k : Nat) (hk : k ≤ 256) :
    fletcher32_inner data k 0 65535 65535 = (k, low_sum data k, high_sum data k) := by
  induction k with
  | zero => rfl
  | succ k ih =>
    rw [fletcher32_inner_snoc, ih (by omega)]
    have h1 := low_sum_lt data (k + 1) hk
    have h2 := high_sum_lt data (k + 1) hk
    simp only [low_sum, high_sum] at h1 h2 ⊢
    rw [Nat.mod_eq_of_lt h1, Nat.mod_eq_of_lt h2]

theorem low_sum_ge (data : Block) (k : Nat) : 65535 ≤ low_sum data k := by
  induction k with
  | zero => simp [low_sum]
  | succ k ih => simp only [low_sum]; omega

theorem high_sum_ge (data : Block) (k : Nat) : 65535 ≤ high_sum data k := by
  induction k with
  | zero => simp [high_sum]
  | succ k ih => simp only [high_sum]; omega

theorem low_sum_bzero (k : Nat) : low_sum bzero_block k = 65535 := by
  induction k with
  | zero => rfl
  | succ k ih => simp [low_sum, ih, get_u16, bzero_block]

theorem high_sum_bzero (k : Nat) : high_sum bzero_block k = 65535 * (k + 1) := by
  induction k with
  | zero => rfl
  | succ k ih =>
    simp only [high_sum, ih, low_sum_bzero]
    omega

theorem fold_once (x : Nat) :
    (x % 65536 + x / 65536) % 65535 = x % 65535 ∧ (1 ≤ x → 1 ≤ x % 65536 + x / 65536) ∧
    (x < 4294967296 → x % 65536 + x / 65536 ≤ 131070) ∧
    (x ≤ 131070 → x % 65536 + x / 65536 ≤ 65535) := by
  refine ⟨?_, ?_, ?_, ?_⟩ <;> omega

theorem fold_twice (x : Nat) (h1 : 65535 ≤ x) (h2 : x < 4294967296) :
    ((x % 65536 + x / 65536) % 65536 + (x % 65536 + x / 65536) / 65536) % 65535 = x % 65535 ∧
    1 ≤ (x % 65536 + x / 65536) % 65536 + (x % 65536 + x / 65536) / 65536 ∧
    (x % 65536 + x / 65536) % 65536 + (x % 65536 + x / 65536) / 65536 ≤ 65535 := by
  obtain ⟨a1, a2, a3, -⟩ := fold_once x
  obtain ⟨b1, b2, -, b4⟩ := fold_once (x % 65536 + x / 65536)
  exact ⟨b1.trans a1, b2 (a2 (by omega)), b4 (a3 h2)⟩

theorem fletcher32_fold (data : Block) :
    fletcher32 data =
      ((high_sum data 256 % 65536 + high_sum data 256 / 65536) % 65536 +
        (high_sum data 256 % 65536 + high_sum data 256 / 65536) / 65536) * 65536 +
      ((low_sum data 256 % 65536 + low_sum data 256 / 65536) % 65536 +
        (low_sum data 256 % 65536 + low_sum data 256 / 65536) / 65536) := by
  have h1 := low_sum_lt data 256 le_rfl
  have h2 := high_sum_lt data 256 le_rfl
  have e : fletcher32_outer data (SFS_BLOCKSIZE / 2) (SFS_BLOCKSIZE / 2) 0 65535 65535 =
      (low_sum data 256 % 65536 + low_sum data 256 / 65536,
       high_sum data 256 % 65536 + high_sum data 256 / 65536) := by
    have : SFS_BLOCKSIZE / 2 = 255 + 1 := by decide
    rw [this, fletcher32_outer]
    simp only [Nat.reduceAdd, Nat.reduceEqDiff, if_false, ge_iff_le, Nat.reduceLeDiff,
      Nat.reduceSub, fletcher32_inner_sums data 256 le_rfl]
    cases hf : (255 : Nat) with
    | zero => rfl
    | succ m => simp [fletcher32_outer]
  unfold fletcher32
  simp only [e]
  have hl0 : 65535 ≤ low_sum data 256 := low_sum_ge data 256
  have hh0 : 65535 ≤ high_sum data 256 := high_sum_ge data 256
  have hb : (low_sum data 256 % 65536 + low_sum data 256 / 65536) % 65536 +
      (low_sum data 256 % 65536 + low_sum data 256 / 65536) / 65536 < 2 ^ 16 := by
    have := (fold_twice _ hl0 h1).2.2
    omega
  have hh : (high_sum data 256 % 65536 + high_sum data 256 / 65536) % 65536 +
      (high_sum data 256 % 65536 + high_sum data 256 / 65536) / 65536 < 65536 := by
    have := (fold_twice _ hh0 h2).2.2
    omega
  rw [Nat.mod_eq_of_lt (by omega), Nat.mul_comm _ 65536]
  exact (Nat.mul_add_lt_is_or hb _).symm

/-- C30. `fletcher32` arithmetic. For every block, read as the 256 16-bit
words `get_u16 data 0`, ..., `get_u16 data 255`: (1) no accumulator
overflows: after every number `k ≤ 256` of rounds the two 32-bit
accumulators of the loop hold the sums `low_sum data k` and
`high_sum data k` computed in the natural numbers, which are below `2^32`;
(2) the low 16 bits of the result are congruent modulo 65535 to `0xffff`
plus the sum of the words (`low_sum data 256`); (3) the high 16 bits are
congruent modulo 65535 to `0xffff` plus the sum of the 256 running low sums
(`high_sum data 256`); (4) both halves lie between 1 and `0xffff`; (5) the
checksum of the all-zero block is `0xffffffff`. -/
theorem fletcher32_arithmetic (data : Block) :
    (∀ k ≤ 256, fletcher32_inner data k 0 65535 65535 = (k, low_sum data k, high_sum data k) ∧
      low_sum data k < 4294967296 ∧ high_sum data k < 4294967296) ∧
    fletcher32 data % 65536 % 65535 = low_sum data 256 % 65535 ∧
    fletcher32 data / 65536 % 65535 = high_sum data 256 % 65535 ∧
    (1 ≤ fletcher32 data % 65536 ∧ fletcher32 data % 65536 ≤ 65535) ∧
    (1 ≤ fletcher32 data / 65536 ∧ fletcher32 data / 65536 ≤ 65535) ∧
    fletcher32 bzero_block = 4294967295 := by
  have h1 := low_sum_lt data 256 le_rfl
  have h2 := high_sum_lt data 256 le_rfl
  obtain ⟨l1, l2, l3⟩ := fold_twice _ (low_sum_ge data 256) h1
  obtain ⟨g1, g2, g3⟩ := fold_twice _ (high_sum_ge data 256) h2
  have hf := fletcher32_fold data
  generalize (low_sum data 256 % 65536 + low_sum data 256 / 65536) % 65536 +
    (low_sum data 256 % 65536 + low_sum data 256 / 65536) / 65536 = L at hf l1 l2 l3
  generalize (high_sum data 256 % 65536 + high_sum data 256 / 65536) % 65536 +
    (high_sum data 256 % 65536 + high_sum data 256 / 65536) / 65536 = H at hf g1 g2 g3
  have eL : fletcher32 data % 65536 = L := by omega
  have eH : fletcher32 data / 65536 = H := by omega
  rw [eL, eH]
  refine ⟨fun k hk => ⟨fletcher32_inner_sums data k hk, low_sum_lt data k hk,
    high_sum_lt data k hk⟩, l1, g1, ⟨l2, l3⟩, ⟨g2, g3⟩, ?_⟩
  rw [fletcher32_fold, high_sum_bzero, low_sum_bzero]

/-- An instance of the first part of `fletcher32_arithmetic`: the
accumulators after all 256 rounds on `idem_block`. -/
theorem fletcher32_arithmetic_witness :
    256 ≤ 256 ∧
    (fletcher32_inner idem_block 256 0 65535 65535
        = (256, low_sum idem_block 256, high_sum idem_block 256) ∧
      low_sum idem_block 256 < 4294967296 ∧ high_sum idem_block 256 < 4294967296) :=
  ⟨le_rfl, (fletcher32_arithmetic idem_block).1 256 le_rfl⟩

/-- C24 (evaluation). In `clean_vm` no frame is free and frame 2 is owned by
a user address space, neither busy nor a kernel page, clean and backed by
swap slot 3. `page_get` does not reclaim it: the search for a clean frame
finds nothing, the clock hand takes the dirty frame 1, and `page_write_out`
allocates swap slot 1 and writes the bytes of frame 1 (11) to it. The
result is frame 1; frame 2 still belongs to address space 1. -/
theorem page_get_clean_frame_eval :
    page_get_free clean_vm = none ∧
    ((clean_vm.cm_entries 2).cme_as, (clean_vm.cm_entries 2).cme_busy,
      (clean_vm.cm_entries 2).cme_kpage) = (some 1, false, false) ∧
    ((clean_vm.cm_entries 2).cme_kernel, (clean_vm.cm_entries 2).cme_dirty,
      (clean_vm.cm_entries 2).cme_swap_location) = (false, false, 3) ∧
    (page_get_clean_loop clean_vm.cm_num_pages clean_vm).2 = none ∧
    (clean_vm.st_bitmap 1, clean_vm.swap_data 1 0) = (false, 0) ∧
    (page_get small_cfg clean_vm true).toOption.map
      (fun r => (r.2, (r.1.cm_entries 2).cme_as, r.1.st_bitmap 1, r.1.swap_data 1 0))
      = some (1, some 1, true, 11) ∧
    (page_get small_cfg clean_vm true).toOption.map
      (fun r => (r.1.k_vmstats.vms_write_page_faults, r.1.cm_num_dirty)) = some (1, 1) := by
  refine ⟨?_, ?_, ?_, ?_, ?_, ?_, ?_⟩
  · set_option maxRecDepth 100000 in decide
  · set_option maxRecDepth 100000 in decide
  · set_option maxRecDepth 100000 in decide
  · set_option maxRecDepth 100000 in decide
  · set_option maxRecDepth 100000 in decide
  · set_option maxRecDepth 100000 in decide
  · set_option maxRecDepth 100000 in decide

/-- C28 (evaluation). From `heap_vm`, where no frame is dirty and the
counter is 0: `sys_sbrk(PAGE_SIZE)` returns 0 and keeps both at 0; a write
fault at the new heap page returns 0 and leaves one dirty frame and the
counter at 1; `sys_sbrk(-PAGE_SIZE)` then returns 0, frees the dirty frame
and clears its dirty flag, so that no frame is dirty, but `cm_num_dirty` is
still 1. -/
theorem sbrk_shrink_dirty_counter_eval :
    (dirty_frames heap_vm, heap_vm.cm_num_dirty) = (0, 0) ∧
    (sys_sbrk small_cfg heap_vm PAGE_SIZE).toOption.map
      (fun r => (r.2.1, dirty_frames r.1, r.1.cm_num_dirty)) = some (0, 0, 0) ∧
    (vm_fault small_cfg grown_vm VM_FAULT_WRITE (4 * PAGE_SIZE) 0).toOption.map
      (fun r => (r.2, dirty_frames r.1, r.1.cm_num_dirty)) = some (0, 1, 1) ∧
    (sys_sbrk small_cfg touched_vm (-PAGE_SIZE)).toOption.map
      (fun r => (r.2.1, dirty_frames r.1, r.1.cm_num_dirty)) = some (0, 0, 1) := by
  refine ⟨?_, ?_, ?_, ?_⟩
  · set_option maxRecDepth 100000 in decide
  · set_option maxRecDepth 100000 in decide
  · set_option maxRecDepth 100000 in decide
  · set_option maxRecDepth 100000 in decide

/-- C29 (evaluation). On `heap_vm`, `sys_sbrk(PAGE_SIZE)` returns 0 and
makes the page at `4*PAGE_SIZE` part of the heap; the page is not touched.
`as_copy` of the address space into handle 2 returns 0 and gives the child
the same heap bounds, but no page table for the directory slot of the heap
page. A read fault at `4*PAGE_SIZE` with the child as the current address
space returns `EFAULT`; the same fault in the parent returns 0 and maps
frame 3, filled with zeros. -/
theorem fork_untouched_heap_eval :
    (sys_sbrk small_cfg heap_vm PAGE_SIZE).toOption.map (fun r => r.2.1) = some 0 ∧
    (as_copy small_cfg grown_vm 1 2).toOption.map (fun r => r.2) = some 0 ∧
    (heap_forked_vm.as_table 2).map
      (fun asp => (asp.as_heap_start, asp.as_heap_size, (asp.as_pd 1).isSome))
      = some (4 * PAGE_SIZE, PAGE_SIZE, false) ∧
    (heap_forked_vm.as_table 1).map
      (fun asp => (asp.as_heap_start, asp.as_heap_size, (asp.as_pd 1).isSome))
      = some (4 * PAGE_SIZE, PAGE_SIZE, true) ∧
    (vm_fault small_cfg { heap_forked_vm with curproc_as := some 2 } VM_FAULT_READ
        (4 * PAGE_SIZE) 0).toOption.map (fun r => r.2) = some EFAULT ∧
    (vm_fault small_cfg heap_forked_vm VM_FAULT_READ (4 * PAGE_SIZE) 0).toOption.map
      (fun r => (r.2, (get_pte r.1 1 1 0).map (fun pte => (pte.pte_present, pte.pte_ppn))))
      = some (0, some (true, 3)) ∧
    (vm_fault small_cfg heap_forked_vm VM_FAULT_READ (4 * PAGE_SIZE) 0).toOption.map
      (fun r => r.1.ram 3) = some zero_page := by
  refine ⟨?_, ?_, ?_, ?_, ?_, ?_, ?_⟩
  · set_option maxRecDepth 100000 in decide
  · set_option maxRecDepth 100000 in decide
  · set_option maxRecDepth 100000 in decide
  · set_option maxRecDepth 100000 in decide
  · set_option maxRecDepth 100000 in decide
  · set_option maxRecDepth 100000 in decide
  · rfl

theorem start_without_later_end_nil (T : Nat) : ¬ start_without_later_end [] T := by
  rintro ⟨pre, e, post, h, -⟩
  simp at h

theorem end_without_earlier_start_nil (T : Nat) : ¬ end_without_earlier_start [] T := by
  rintro ⟨pre, e, post, h, -⟩
  simp at h

/-- C4 (counterexample). In `double_start_journal` every start record of
transaction 1 is followed by an end record of 1 and the end record has a
start record of 1 before it, yet the check pass puts 1 in the aborted list:
the end record pairs with the newer start record only, and the older one
finds the ended list empty. In `double_end_journal` the start record is
followed by an end record and both end records have the start record before
them, and 1 is in the aborted list as well: the start record pairs with one
end record and the other is drained into the aborted list. -/
theorem check_pass_duplicate_counterexample :
    ((check_pass double_start_journal).aborted_tx = [1] ∧
      (check_pass double_start_journal).ended_tx = [] ∧
      start_followed_by_end double_start_journal 1 ∧
      ¬ (start_without_later_end double_start_journal 1 ∨
        end_without_earlier_start double_start_journal 1)) ∧
    ((check_pass double_end_journal).aborted_tx = [1] ∧
      (check_pass double_end_journal).ended_tx = [] ∧
      start_followed_by_end double_end_journal 1 ∧
      ¬ (start_without_later_end double_end_journal 1 ∨
        end_without_earlier_start double_end_journal 1)) := by
  refine ⟨⟨by decide, by decide, ?_, ?_⟩, ⟨by decide, by decide, ?_, ?_⟩⟩
  · exact ⟨[], _, [_], _, [], rfl, by decide, by decide⟩
  · simp [double_start_journal, start_without_later_end_cons, end_without_earlier_start_cons,
      start_without_later_end_nil, end_without_earlier_start_nil, is_start_of, is_end_of]
  · exact ⟨[], _, [], _, [_], rfl, by decide, by decide⟩
  · simp [double_end_journal, start_without_later_end_cons, end_without_earlier_start_cons,
      start_without_later_end_nil, end_without_earlier_start_nil, is_start_of, is_end_of]

theorem pte_acquire_tlb (s t : vm_state) (a : Nat) (pte : pt_entry) (r : Option Nat)
    (h : pte_acquire s a pte = .ok (t, r)) :
    t.as_table = s.as_table ∧ t.tlb = s.tlb := by
  unfold pte_acquire at h
  split at h
  · split at h
    · split at h
      · cases h
      · split at h
        · cases h
          exact ⟨rfl, rfl⟩
        · cases h
          exact ⟨rfl, rfl⟩
    · cases h
  · cases h
    exact ⟨rfl, rfl⟩

/-- C10 (amended). Write protection of a resident page. Let the PTE of the
page of `v` in the current address space be valid, present, not demand-zero
and not writeable. Then every result that a write or readonly fault at `v`
returns is `EFAULT`, with every TLB slot and the PTE as they were. And the
fault does return when the frame of the page is inside the coremap, not a
kernel page, not busy, and recorded there for this address space and
page. -/
theorem vm_fault_write_protected (cfg : vm_config) (s : vm_state) (a faulttype v rnd : Nat)
    (pte : pt_entry)
    (hft : faulttype = VM_FAULT_WRITE ∨ faulttype = VM_FAULT_READONLY)
    (hcur : s.curproc_as = some a)
    (hpte : get_pte s a (VADDR_TO_PT cfg (PAGE_ALIGN v)) (VADDR_TO_PTE cfg (PAGE_ALIGN v))
      = some pte)
    (hv : pte.pte_valid = true) (hpres : pte.pte_present = true)
    (hz : pte.pte_zeroed = false) (hw : pte.pte_writeable = false) :
    (∀ t c, vm_fault cfg s faulttype v rnd = .ok (t, c) →
      c = EFAULT ∧ t.tlb = s.tlb ∧
      get_pte t a (VADDR_TO_PT cfg (PAGE_ALIGN v)) (VADDR_TO_PTE cfg (PAGE_ALIGN v))
        = some pte) ∧
    (pte.pte_ppn < s.cm_num_pages → (s.cm_entries pte.pte_ppn).cme_kpage = false →
      (s.cm_entries pte.pte_ppn).cme_busy = false →
      (s.cm_entries pte.pte_ppn).cme_as = some a →
      (s.cm_entries pte.pte_ppn).cme_vaddr = PAGE_ALIGN v →
      ∃ t, vm_fault cfg s faulttype v rnd = .ok (t, EFAULT)) := by
  have hft3 : ¬ (faulttype ≠ VM_FAULT_READ ∧ faulttype ≠ VM_FAULT_WRITE ∧
      faulttype ≠ VM_FAULT_READONLY) := by
    rintro ⟨-, h1, h2⟩
    rcases hft with h | h
    · exact h1 h
    · exact h2 h
  obtain ⟨asp, pde, hasp, hpd, hpde⟩ : ∃ asp pde, s.as_table a = some asp ∧
      asp.as_pd (VADDR_TO_PT cfg (PAGE_ALIGN v)) = some pde ∧
      pde (VADDR_TO_PTE cfg (PAGE_ALIGN v)) = pte := by
    unfold get_pte at hpte
    split at hpte
    · cases hpte
    · rename_i asp hasp
      split at hpte
      · cases hpte
      · rename_i pde hpd
        exact ⟨asp, pde, hasp, hpd, Option.some.inj hpte⟩
  have hpde2 : pde (VADDR_TO_PTE cfg (PAGE_ALIGN v)) = pte := hpde
  refine ⟨fun t c hrun => ?_, fun hppn hk hb hown hva => ?_⟩
  · unfold vm_fault at hrun
    simp only [hcur, hasp] at hrun
    rw [if_neg hft3] at hrun
    split at hrun
    · cases hrun
      exact ⟨rfl, rfl, hpte⟩
    · simp only [hpd, get_pte, hasp, hpde2, ne_eq, not_true_eq_false, if_false, hpres, hv, hz,
        Bool.true_eq_false, Bool.false_eq_true, false_and, or_self] at hrun
      split at hrun
      · cases hrun
      · rename_i s2 rel hacq
        have h2 : s2.as_table = s.as_table ∧ s2.tlb = s.tlb := by
          have := pte_acquire_tlb _ s2 a pte rel hacq
          exact this
        have hg2 : get_pte s2 a (VADDR_TO_PT cfg (PAGE_ALIGN v))
            (VADDR_TO_PTE cfg (PAGE_ALIGN v)) = some pte := by
          rw [get_pte_of_as_table _ _ h2.1]
          exact hpte
        unfold vm_fault_install at hrun
        simp only [hg2] at hrun
        split at hrun
        · split at hrun
          · rw [if_pos ⟨hft, by simp [hw]⟩] at hrun
            split at hrun
            · cases hrun
            · rename_i s3 hrel
              simp only [Except.ok.injEq, Prod.mk.injEq] at hrun
              obtain ⟨rfl, rfl⟩ := hrun
              obtain ⟨r1, r2, -⟩ := pte_release_ok _ _ _ hrel
              refine ⟨rfl, ?_, ?_⟩
              · rw [r2]
                exact h2.2
              · rw [get_pte_of_as_table _ _ r1]
                exact hg2
          · cases hrun
        · cases hrun
  · unfold vm_fault
    simp only [hcur, hasp]
    rw [if_neg hft3]
    split
    · exact ⟨_, rfl⟩
    · simp [hpd, get_pte, hasp, hpde2, pte_acquire, hpres, hppn, hk, hb, hown, hv, hz,
        vm_fault_install, set_cme, hva, hft, hw, pte_release]

set_option maxRecDepth 100000 in
/-- An instance of `vm_fault_write_protected`: a write fault at the resident
read-only page of `protected_vm` returns `EFAULT` and leaves the TLB and the
PTE as they were. -/
theorem vm_fault_write_protected_witness :
    get_pte protected_vm 1 (VADDR_TO_PT small_cfg (PAGE_ALIGN PAGE_SIZE))
      (VADDR_TO_PTE small_cfg (PAGE_ALIGN PAGE_SIZE))
      = some { present_pte 1 with pte_writeable := false } ∧
    ∃ t, vm_fault small_cfg protected_vm VM_FAULT_WRITE PAGE_SIZE 6 = .ok (t, EFAULT) ∧
      t.tlb = protected_vm.tlb ∧
      get_pte t 1 (VADDR_TO_PT small_cfg (PAGE_ALIGN PAGE_SIZE))
        (VADDR_TO_PTE small_cfg (PAGE_ALIGN PAGE_SIZE))
        = some { present_pte 1 with pte_writeable := false } := by
  have hres := vm_fault_write_protected small_cfg protected_vm 1 VM_FAULT_WRITE PAGE_SIZE 6
    { present_pte 1 with pte_writeable := false } (Or.inl rfl) rfl (by decide) rfl rfl rfl rfl
  obtain ⟨t, hrun⟩ := hres.2 (by decide) (by decide) (by decide) (by decide) (by decide)
  exact ⟨by decide, t, hrun, (hres.1 t EFAULT hrun).2⟩

end LongcatOS
